import Mathlib

/-! TDDB44 compiler front end: type checker and constant folder.

A shallow embedding of `semantic.cc` (type checking) and `optimize.cc`
(constant folding).  C++ objects become values of inductive types; a method
that mutates its receiver returns the updated node; a null pointer is the
`NULL` constructor of the pointee type; a run that dereferences a null
pointer, evaluates an undefined arithmetic operation or calls `fatal` has no
result (`none`).
-/

namespace TDDB44

/-! ## The C++ type `double` (IEEE 754 binary64, round to nearest even) -/

/-- Number of binary digits of `n`, found by repeated halving (at most `fuel` halvings). -/
def bitLenAux : Nat → Nat → Nat
  | 0, _ => 0
  | fuel + 1, n => if n = 0 then 0 else bitLenAux fuel (n / 2) + 1

/-- Number of binary digits of `n` (`0` for `0`). -/
def bitLen (n : Nat) : Nat := bitLenAux n n

/-- A value of the C++ type `double`.  `finite neg n k` is `(-1)^neg * n / 2^k`; the
operations below only produce the reduced form in which `k = 0` or `n` is odd, with at
most 53 significant bits and `k ≤ 1074`. -/
inductive Double
  | finite (neg : Bool) (n : Nat) (k : Nat)
  | inf (neg : Bool)
  | nan
deriving DecidableEq, Repr

namespace Double

/-- Cancel common factors of two between the numerator `n` and the denominator `2^k`. -/
def strip : Nat → Nat → Nat × Nat
  | n, 0 => (n, 0)
  | n, k + 1 => if n % 2 = 0 then strip (n / 2) k else (n, k + 1)

/-- The double nearest to the exact value `(-1)^neg * n / 2^k` (ties to even): drop the
`d` low bits that exceed 53 significant bits or lie below `2^-1074`, round the rest to
`m * 2^d / 2^k`, and overflow to infinity when that has more than 1024 binary digits
before the point (it is `2^1024` or more). -/
def round (neg : Bool) (n k : Nat) : Double :=
  let d := max (bitLen n - 53) (k - 1074)
  let q := n / 2 ^ d
  let r := n % 2 ^ d
  let m := if 2 ^ d < 2 * r ∨ (2 * r = 2 ^ d ∧ q % 2 = 1) then q + 1 else q
  if 1024 + k < bitLen m + d then inf neg
  else finite neg (strip (m * 2 ^ d) k).1 (strip (m * 2 ^ d) k).2

/-- Conversion `long → double`. -/
def ofLong (v : Int) : Double := round (decide (v < 0)) v.natAbs 0

/-- Conversion `double → long`: truncation toward zero; undefined when the truncated
value is not a 64-bit signed integer (or the operand is not finite). -/
def toLong : Double → Option Int
  | finite neg n k =>
      let v : Int := if neg then -((n / 2 ^ k : Nat) : Int) else ((n / 2 ^ k : Nat) : Int)
      if -(2 : Int) ^ 63 ≤ v ∧ v < (2 : Int) ^ 63 then some v else none
  | _ => none

/-- Conversion `double → int` (the cast `(int)a`): truncation toward zero; undefined when
the truncated value is not a 32-bit signed integer. -/
def toInt : Double → Option Int
  | finite neg n k =>
      let v : Int := if neg then -((n / 2 ^ k : Nat) : Int) else ((n / 2 ^ k : Nat) : Int)
      if -(2 : Int) ^ 31 ≤ v ∧ v < (2 : Int) ^ 31 then some v else none
  | _ => none

/-- Conversion `double → bool`: every value but the two zeros is `true`. -/
def toBool : Double → Bool
  | finite _ n _ => decide (n ≠ 0)
  | _ => true

/-- Conversion `bool → double`. -/
def ofBool (b : Bool) : Double := if b then finite false 1 0 else finite false 0 0

/-- Unary minus. -/
def neg : Double → Double
  | finite s n k => finite (!s) n k
  | inf s => inf (!s)
  | nan => nan

/-- The signed numerator of `(-1)^s * n`. -/
def signed (s : Bool) (n : Nat) : Int := if s then -(n : Int) else (n : Int)

/-- Addition `a + b`. -/
def add : Double → Double → Double
  | nan, _ => nan
  | _, nan => nan
  | inf s, inf t => if s = t then inf s else nan
  | inf s, finite _ _ _ => inf s
  | finite _ _ _, inf t => inf t
  | finite s n k, finite t m j =>
      let c : Int := signed s (n * 2 ^ (max k j - k)) + signed t (m * 2 ^ (max k j - j))
      if c = 0 then finite (s && t) 0 0 else round (decide (c < 0)) c.natAbs (max k j)

/-- Subtraction `a - b`. -/
def sub (a b : Double) : Double := add a (neg b)

/-- Multiplication `a * b`. -/
def mul : Double → Double → Double
  | nan, _ => nan
  | _, nan => nan
  | inf s, inf t => inf (xor s t)
  | inf s, finite t m _ => if m = 0 then nan else inf (xor s t)
  | finite s n _, inf t => if n = 0 then nan else inf (xor s t)
  | finite s n k, finite t m j => round (xor s t) (n * m) (k + j)

/-- Division `a / b`.  The quotient of two finite non-zero values is computed to more than
64 significant bits with a sticky last bit, then rounded. -/
def div : Double → Double → Double
  | nan, _ => nan
  | _, nan => nan
  | inf _, inf _ => nan
  | inf s, finite t _ _ => inf (xor s t)
  | finite s _ _, inf t => finite (xor s t) 0 0
  | finite s n k, finite t m j =>
      if m = 0 then (if n = 0 then nan else inf (xor s t))
      else
        let p := bitLen (m * 2 ^ k) + 64
        let num := n * 2 ^ j * 2 ^ p
        let den := m * 2 ^ k
        round (xor s t) (2 * (num / den) + (if num % den = 0 then 0 else 1)) (p + 1)

end Double

/-! ## Symbols and positions -/

/-- Index of a symbol in the symbol table (`sym_index`); types are symbols too. -/
abbrev sym_index := Nat

/-- Modelled from the spec: the index of the predefined `void` type, a global of the
symbol table (its declaration is not part of the sources at hand); only the fact that the
three predefined types are distinct is used. -/
def void_type : sym_index := 0

/-- Modelled from the spec: the index of the predefined `integer` type. -/
def integer_type : sym_index := 1

/-- Modelled from the spec: the index of the predefined `real` type. -/
def real_type : sym_index := 2

/-- Source position of a node. -/
structure position_information where
  line : Nat
  column : Nat
deriving DecidableEq, Repr

/-- Tag of a symbol. -/
inductive sym_type
  | SYM_ARRAY | SYM_FUNC | SYM_PROC | SYM_VAR | SYM_PARAM | SYM_CONST | SYM_NAMETYPE | SYM_UNDEF
deriving DecidableEq, Repr

/-- Formal parameters of a routine, linked from the last one to the first
(`parameter_symbol` with its `preceding` link); `NULL` is the null pointer. -/
inductive parameter_symbol
  | NULL
  | node (type : sym_index) (preceding : parameter_symbol)
deriving DecidableEq, Repr

/-- What this core reads of a symbol: its tag, its type and, for a routine, its last
parameter. -/
structure symbol where
  tag : sym_type
  type : sym_index
  last_parameter : parameter_symbol
deriving DecidableEq, Repr

/-- The symbol table as this core consumes it: lookup by index and the current
environment. -/
structure symbol_table where
  get_symbol : sym_index → symbol
  current_environment : sym_index

/-! ## The abstract syntax tree -/

/-- Tags of the subclasses of `ast_binaryoperation`. -/
inductive binop_tag
  | AST_ADD | AST_SUB | AST_OR | AST_AND | AST_MULT | AST_DIVIDE | AST_IDIV | AST_MOD
deriving DecidableEq, Repr

/-- Tags of the subclasses of `ast_binaryrelation`. -/
inductive binrel_tag
  | AST_EQUAL | AST_NOTEQUAL | AST_LESSTHAN | AST_GREATERTHAN
deriving DecidableEq, Repr

/-- An identifier node (`ast_id`). -/
structure ast_id where
  pos : position_information
  type : sym_index
  sym_p : sym_index
deriving DecidableEq, Repr

mutual
/-- Expression nodes; every node carries its position and its `type` field.  The value
of an integer literal is a `long` (the `ival` of the parser), that of a real literal a
`double`. -/
inductive ast_expression
  | NULL
  | ast_id (id : ast_id)
  | ast_indexed (pos : position_information) (type : sym_index) (id : ast_id)
      (index : ast_expression)
  | ast_integer (pos : position_information) (type : sym_index) (value : Int)
  | ast_real (pos : position_information) (type : sym_index) (value : Double)
  | ast_cast (pos : position_information) (type : sym_index) (expr : ast_expression)
  | ast_uminus (pos : position_information) (type : sym_index) (expr : ast_expression)
  | ast_not (pos : position_information) (type : sym_index) (expr : ast_expression)
  | ast_functioncall (pos : position_information) (type : sym_index) (id : ast_id)
      (parameter_list : ast_expr_list)
  | ast_binaryoperation (tag : binop_tag) (pos : position_information) (type : sym_index)
      (left right : ast_expression)
  | ast_binaryrelation (tag : binrel_tag) (pos : position_information) (type : sym_index)
      (left right : ast_expression)
/-- Expression lists, linked from the last expression to the first. -/
inductive ast_expr_list
  | NULL
  | node (pos : position_information) (last_expr : ast_expression)
      (preceding : ast_expr_list)
end

mutual
/-- Statement nodes. -/
inductive ast_statement
  | NULL
  | ast_assign (pos : position_information) (lhs rhs : ast_expression)
  | ast_if (pos : position_information) (condition : ast_expression) (body : ast_stmt_list)
      (elsif_list : ast_elsif_list) (else_body : ast_stmt_list)
  | ast_while (pos : position_information) (condition : ast_expression)
      (body : ast_stmt_list)
  | ast_return (pos : position_information) (value : ast_expression)
  | ast_procedurecall (pos : position_information) (id : ast_id)
      (parameter_list : ast_expr_list)
/-- Statement lists, linked from the last statement to the first. -/
inductive ast_stmt_list
  | NULL
  | node (pos : position_information) (last_stmt : ast_statement)
      (preceding : ast_stmt_list)
/-- An elsif clause. -/
inductive ast_elsif
  | NULL
  | node (pos : position_information) (condition : ast_expression) (body : ast_stmt_list)
/-- Elsif lists, linked from the last clause to the first. -/
inductive ast_elsif_list
  | NULL
  | node (pos : position_information) (last_elsif : ast_elsif)
      (preceding : ast_elsif_list)
end

deriving instance DecidableEq for ast_expression, ast_expr_list
deriving instance DecidableEq for ast_statement, ast_stmt_list, ast_elsif, ast_elsif_list

/-- Whether a pointer is null. -/
def ast_expression.isNull : ast_expression → Bool
  | .NULL => true
  | _ => false

/-- Whether a pointer is null. -/
def ast_expr_list.isNull : ast_expr_list → Bool
  | .NULL => true
  | _ => false

/-- Whether a pointer is null. -/
def ast_stmt_list.isNull : ast_stmt_list → Bool
  | .NULL => true
  | _ => false

/-- Whether a pointer is null. -/
def ast_statement.isNull : ast_statement → Bool
  | .NULL => true
  | _ => false

/-- Whether a pointer is null. -/
def ast_elsif.isNull : ast_elsif → Bool
  | .NULL => true
  | _ => false

/-- Whether a pointer is null. -/
def ast_elsif_list.isNull : ast_elsif_list → Bool
  | .NULL => true
  | _ => false

/-- The member `node->type`; reading it through a null pointer has no result. -/
def ast_expression.type : ast_expression → Option sym_index
  | .NULL => none
  | .ast_id id => some id.type
  | .ast_indexed _ t _ _ => some t
  | .ast_integer _ t _ => some t
  | .ast_real _ t _ => some t
  | .ast_cast _ t _ => some t
  | .ast_uminus _ t _ => some t
  | .ast_not _ t _ => some t
  | .ast_functioncall _ t _ _ => some t
  | .ast_binaryoperation _ _ t _ _ => some t
  | .ast_binaryrelation _ _ t _ _ => some t

/-- The member `node->pos`; reading it through a null pointer has no result. -/
def ast_expression.pos : ast_expression → Option position_information
  | .NULL => none
  | .ast_id id => some id.pos
  | .ast_indexed p _ _ _ => some p
  | .ast_integer p _ _ => some p
  | .ast_real p _ _ => some p
  | .ast_cast p _ _ => some p
  | .ast_uminus p _ _ => some p
  | .ast_not p _ _ => some p
  | .ast_functioncall p _ _ _ => some p
  | .ast_binaryoperation _ p _ _ _ => some p
  | .ast_binaryrelation _ p _ _ _ => some p

/-- Modelled from the spec: the constructor `ast_integer(pos, value)` (defined with the
node classes, outside the sources at hand); an integer literal synthesizes integer type. -/
def new_ast_integer (pos : position_information) (value : Int) : ast_expression :=
  .ast_integer pos integer_type value

/-- Modelled from the spec: the constructor `ast_real(pos, value)`; a real literal
synthesizes real type. -/
def new_ast_real (pos : position_information) (value : Double) : ast_expression :=
  .ast_real pos real_type value

/-- Modelled from the spec: the constructor `ast_cast(pos, expr)`; a cast node wraps one
expression and synthesizes real type. -/
def new_ast_cast (pos : position_information) (expr : ast_expression) : ast_expression :=
  .ast_cast pos real_type expr

/-- The downcast `get_ast_integer()`, read through to the literal: the value when the node
is an integer literal, nothing (a null result) for every other node. -/
def ast_expression.get_ast_integer : ast_expression → Option Int
  | .ast_integer _ _ v => some v
  | _ => none

/-- The downcast `get_ast_real()`, read through to the literal value. -/
def ast_expression.get_ast_real : ast_expression → Option Double
  | .ast_real _ _ v => some v
  | _ => none

/-! ## Constant folding (`optimize.cc`) -/

/-- Whether an expression is a subclass of `ast_binaryoperation`. -/
def is_binop : ast_expression → Bool
  | .ast_binaryoperation .AST_ADD _ _ _ _ => true
  | .ast_binaryoperation .AST_SUB _ _ _ _ => true
  | .ast_binaryoperation .AST_OR _ _ _ _ => true
  | .ast_binaryoperation .AST_AND _ _ _ _ => true
  | .ast_binaryoperation .AST_MULT _ _ _ _ => true
  | .ast_binaryoperation .AST_DIVIDE _ _ _ _ => true
  | .ast_binaryoperation .AST_IDIV _ _ _ _ => true
  | .ast_binaryoperation .AST_MOD _ _ _ _ => true
  | _ => false

/-- The fold function of addition. -/
def fold_add (a b : Double) : Option Double := some (Double.add a b)

/-- The fold function of subtraction. -/
def fold_sub (a b : Double) : Option Double := some (Double.sub a b)

/-- The fold function of multiplication. -/
def fold_mult (a b : Double) : Option Double := some (Double.mul a b)

/-- The fold function of division. -/
def fold_div (a b : Double) : Option Double := some (Double.div a b)

/-- The fold function of logical or: `a or b`, converted back to `double`. -/
def fold_or (a b : Double) : Option Double := some (Double.ofBool (a.toBool || b.toBool))

/-- The fold function of logical and: `a and b`, converted back to `double`. -/
def fold_and (a b : Double) : Option Double := some (Double.ofBool (a.toBool && b.toBool))

/-- The fold function of remainder: `(int)a % (int)b`, converted back to `double`.  The
remainder is undefined for a zero divisor and when the quotient overflows. -/
def fold_mod (a b : Double) : Option Double := do
  let x ← a.toInt
  let y ← b.toInt
  if y = 0 ∨ (x = -(2 : Int) ^ 31 ∧ y = -1) then none
  else some (Double.ofLong (Int.tmod x y))

/-- The body of `fold_binop` for the binary operation `tag pos type left right` (which is
both `node` and `binop` of the source) and the fold function `ftpr`. -/
def fold_binop (tag : binop_tag) (pos : position_information) (type : sym_index)
    (left right : ast_expression) (ftpr : Double → Double → Option Double) :
    Option ast_expression :=
  if type = integer_type then
    match left.get_ast_integer, right.get_ast_integer with
    | some l, some r => do
        let v ← ftpr (Double.ofLong l) (Double.ofLong r)
        let w ← v.toLong
        pure (new_ast_integer pos w)
    | _, _ => some (.ast_binaryoperation tag pos type left right)
  else if type = real_type then
    match left.get_ast_real, right.get_ast_real with
    | some l, some r => do
        let v ← ftpr l r
        pure (new_ast_real pos v)
    | _, _ => some (.ast_binaryoperation tag pos type left right)
  else some (.ast_binaryoperation tag pos type left right)

/-- The identifier branch of constant folding; replacing a constant by its value is
commented out in the source, so both branches return the node. -/
def fold_ast_const (sym_tab : symbol_table) (id : ast_id) : Option ast_expression :=
  if (sym_tab.get_symbol id.sym_p).tag = sym_type.SYM_CONST then some (.ast_id id)
  else some (.ast_id id)

/-- The switch of `fold_constants` over the tag of a binary operation. -/
def fold_function : binop_tag → Double → Double → Option Double
  | .AST_ADD => fold_add
  | .AST_SUB => fold_sub
  | .AST_MULT => fold_mult
  | .AST_DIVIDE => fold_div
  | .AST_IDIV => fold_div
  | .AST_OR => fold_or
  | .AST_AND => fold_and
  | .AST_MOD => fold_mod

/-- Constant folding of an expression: `ast_optimizer::fold_constants`. -/
def fold_constants (sym_tab : symbol_table) : ast_expression → Option ast_expression
  | .NULL => none
  | .ast_id id => fold_ast_const sym_tab id
  | .ast_binaryoperation tag pos type left right => do
      let left1 ← fold_constants sym_tab left
      let right1 ← fold_constants sym_tab right
      fold_binop tag pos type left1 right1 (fold_function tag)
  | node => some node

mutual
/-- The `optimize` methods of the expression classes. -/
def ast_expression.optimize (sym_tab : symbol_table) : ast_expression → Option ast_expression
  | .NULL => none
  | .ast_id id => some (.ast_id id)
  | .ast_indexed pos type id index => do
      let index1 ← fold_constants sym_tab index
      pure (.ast_indexed pos type id index1)
  | .ast_integer pos type value => some (.ast_integer pos type value)
  | .ast_real pos type value => some (.ast_real pos type value)
  | .ast_cast pos type expr => some (.ast_cast pos type expr)
  | .ast_uminus pos type expr => do
      let expr1 ← ast_expression.optimize sym_tab expr
      let expr2 ← fold_constants sym_tab expr1
      pure (.ast_uminus pos type expr2)
  | .ast_not pos type expr => do
      let expr1 ← ast_expression.optimize sym_tab expr
      let expr2 ← fold_constants sym_tab expr1
      pure (.ast_not pos type expr2)
  | .ast_functioncall pos type id parameter_list =>
      if parameter_list.isNull then some (.ast_functioncall pos type id parameter_list)
      else do
        let parameter_list1 ← ast_expr_list.optimize sym_tab parameter_list
        pure (.ast_functioncall pos type id parameter_list1)
  | .ast_binaryoperation tag pos type left right =>
      some (.ast_binaryoperation tag pos type left right)
  | .ast_binaryrelation tag pos type left right => do
      let left1 ← ast_expression.optimize sym_tab left
      let right1 ← ast_expression.optimize sym_tab right
      let left2 ← fold_constants sym_tab left1
      let right2 ← fold_constants sym_tab right1
      pure (.ast_binaryrelation tag pos type left2 right2)
/-- The method `ast_expr_list::optimize`. -/
def ast_expr_list.optimize (sym_tab : symbol_table) : ast_expr_list → Option ast_expr_list
  | .NULL => none
  | .node pos last_expr preceding => do
      let preceding1 ← (if preceding.isNull then some preceding
        else ast_expr_list.optimize sym_tab preceding)
      let last_expr1 ← (if last_expr.isNull then some last_expr
        else ast_expression.optimize sym_tab last_expr)
      pure (.node pos last_expr1 preceding1)
end

mutual
/-- The `optimize` methods of the statement classes. -/
def ast_statement.optimize (sym_tab : symbol_table) : ast_statement → Option ast_statement
  | .NULL => none
  | .ast_assign pos lhs rhs => do
      let rhs1 ← rhs.optimize sym_tab
      let rhs2 ← fold_constants sym_tab rhs1
      pure (.ast_assign pos lhs rhs2)
  | .ast_if pos condition body elsif_list else_body => do
      let condition1 ← condition.optimize sym_tab
      let condition2 ← fold_constants sym_tab condition1
      let body1 ← ast_stmt_list.optimize sym_tab body
      let elsif_list1 ← (if elsif_list.isNull then some elsif_list
        else ast_elsif_list.optimize sym_tab elsif_list)
      let else_body1 ← (if else_body.isNull then some else_body
        else ast_stmt_list.optimize sym_tab else_body)
      pure (.ast_if pos condition2 body1 elsif_list1 else_body1)
  | .ast_while pos condition body => do
      let condition1 ← condition.optimize sym_tab
      let condition2 ← fold_constants sym_tab condition1
      let body1 ← ast_stmt_list.optimize sym_tab body
      pure (.ast_while pos condition2 body1)
  | .ast_return pos value =>
      if value.isNull then some (.ast_return pos value)
      else do
        let value1 ← value.optimize sym_tab
        let value2 ← fold_constants sym_tab value1
        pure (.ast_return pos value2)
  | .ast_procedurecall pos id parameter_list =>
      if parameter_list.isNull then some (.ast_procedurecall pos id parameter_list)
      else do
        let parameter_list1 ← parameter_list.optimize sym_tab
        pure (.ast_procedurecall pos id parameter_list1)
/-- The method `ast_stmt_list::optimize`. -/
def ast_stmt_list.optimize (sym_tab : symbol_table) : ast_stmt_list → Option ast_stmt_list
  | .NULL => none
  | .node pos last_stmt preceding => do
      let preceding1 ← (if preceding.isNull then some preceding
        else ast_stmt_list.optimize sym_tab preceding)
      let last_stmt1 ← (if last_stmt.isNull then some last_stmt
        else ast_statement.optimize sym_tab last_stmt)
      pure (.node pos last_stmt1 preceding1)
/-- The method `ast_elsif::optimize`. -/
def ast_elsif.optimize (sym_tab : symbol_table) : ast_elsif → Option ast_elsif
  | .NULL => none
  | .node pos condition body => do
      let condition1 ← condition.optimize sym_tab
      let body1 ← (if body.isNull then some body else ast_stmt_list.optimize sym_tab body)
      let condition2 ← fold_constants sym_tab condition1
      pure (.node pos condition2 body1)
/-- The method `ast_elsif_list::optimize`. -/
def ast_elsif_list.optimize (sym_tab : symbol_table) : ast_elsif_list → Option ast_elsif_list
  | .NULL => none
  | .node pos last_elsif preceding => do
      let preceding1 ← (if preceding.isNull then some preceding
        else ast_elsif_list.optimize sym_tab preceding)
      let last_elsif1 ← (if last_elsif.isNull then some last_elsif
        else ast_elsif.optimize sym_tab last_elsif)
      pure (.node pos last_elsif1 preceding1)
end

/-- The interface of the optimizer: `ast_optimizer::do_optimize`. -/
def do_optimize (sym_tab : symbol_table) (body : ast_stmt_list) : Option ast_stmt_list :=
  if body.isNull then some body else body.optimize sym_tab

/-! ## The statement lists the parser builds (`parser.cc`) -/

/-- The action of the grammar rule `stmt : <empty>` in `yyparse` (case 50): the value of
an empty statement is the null pointer. -/
def stmt_empty : ast_statement := .NULL

/-- The action of the grammar rule `stmt_list : stmt` in `yyparse` (case 41): a null
statement gives a null list, any other statement the list `ast_stmt_list(pos, stmt)` of
that one statement. -/
def stmt_list_of_stmt (pos : position_information) (stmt : ast_statement) : ast_stmt_list :=
  if stmt.isNull then .NULL else .node pos stmt .NULL

/-! ## Type checking (`semantic.cc`) -/

/-- One item inserted with `<<` into the stream of a diagnostic. -/
inductive diag_item
  | text (s : String)
  | index (i : sym_index)
  | endl
deriving DecidableEq, Repr

/-- One call of `type_error`: the position given (none for the positionless call) and the
items inserted into the stream it returns.  Every call counts as one error. -/
structure type_error_report where
  pos : Option position_information
  items : List diag_item
deriving DecidableEq, Repr

/-- The mutable state of a type-checking run: the diagnostics reported so far, oldest
first, and the file-level flag `has_return`. -/
structure checker_state where
  errors : List type_error_report
  has_return : Bool
deriving DecidableEq, Repr

/-- The call `type_error(pos) << items`. -/
def type_error (pos : Option position_information) (items : List diag_item)
    (s : checker_state) : checker_state :=
  { s with errors := s.errors ++ [⟨pos, items⟩] }

/-- The method `ast_id::type_check`: a name type checks to its own index, every other
identifier to its `type` field. -/
def ast_id.type_check (sym_tab : symbol_table) (id : ast_id) : sym_index :=
  if (sym_tab.get_symbol id.sym_p).tag ≠ sym_type.SYM_NAMETYPE then id.type else id.sym_p

/-- Compare formal and actual parameters: `semantic::chk_param`.  Returns the result, the
actual parameters as the call leaves them, and the state.  The cast of the source is stored
into `actuals->preceding->last_expr`, which is a null dereference when there is no
preceding list node. -/
def chk_param (env : ast_id) :
    parameter_symbol → ast_expr_list → checker_state →
      Option (Bool × ast_expr_list × checker_state)
  | .NULL, .NULL, s => some (true, .NULL, s)
  | .NULL, .node pos last_expr preceding, s =>
      some (false, .node pos last_expr preceding,
        type_error (some env.pos) [.text "Invalid number of parameters\n"] s)
  | .node _ _, .NULL, s =>
      some (false, .NULL, type_error (some env.pos) [.text "Invalid number of parameters\n"] s)
  | .node ftype fpreceding, .node pos last_expr preceding, s =>
      if last_expr.isNull then some (false, .node pos last_expr preceding, s)
      else do
        let atype ← last_expr.type
        if ftype = atype then do
          let (b, preceding1, s1) ← chk_param env fpreceding preceding s
          pure (b, .node pos last_expr preceding1, s1)
        else if ftype = real_type ∧ atype = integer_type then
          match preceding with
          | .NULL => none
          | .node ppos _ ppreceding => do
              let apos ← last_expr.pos
              let (b, preceding1, s1) ←
                chk_param env fpreceding (.node ppos (new_ast_cast apos last_expr) ppreceding) s
              pure (b, .node pos last_expr preceding1, s1)
        else if ftype = integer_type ∧ atype ≠ integer_type then
          some (false, .node pos last_expr preceding,
            type_error (some env.pos)
              [.text "Type discrepancy between formal and actual parameters.\n"] s)
        else some (false, .node pos last_expr preceding, s)

/-- The part of `semantic::check_parameters` that follows the type check of the parameter
list: look the callee up and compare its formal parameters with the actual ones.  The
downcast of a symbol that is neither a function nor a procedure gives no routine to read
the parameters of. -/
def check_parameters_match (sym_tab : symbol_table) (call_id : ast_id)
    (param_list : ast_expr_list) (s : checker_state) :
    Option (ast_expr_list × checker_state) :=
  let tmp := sym_tab.get_symbol call_id.sym_p
  if tmp.tag = sym_type.SYM_FUNC then do
    let (_, param_list1, s1) ← chk_param call_id tmp.last_parameter param_list s
    pure (param_list1, s1)
  else if tmp.tag = sym_type.SYM_PROC then do
    let (_, param_list1, s1) ← chk_param call_id tmp.last_parameter param_list s
    pure (param_list1, s1)
  else none

/-- The part of `semantic::check_binop1` that follows the type check of the two operands
(`lhs_type` and `rhs_type` are the types those checks returned). -/
def check_binop1 (tag : binop_tag) (pos : position_information) (type : sym_index)
    (left right : ast_expression) (lhs_type rhs_type : sym_index) :
    Option (ast_expression × sym_index) :=
  if lhs_type = integer_type ∧ rhs_type = integer_type then
    some (.ast_binaryoperation tag pos integer_type left right, integer_type)
  else if lhs_type = real_type ∧ rhs_type = real_type then
    some (.ast_binaryoperation tag pos real_type left right, real_type)
  else if lhs_type = integer_type then do
    let lpos ← left.pos
    pure (.ast_binaryoperation tag pos real_type (new_ast_cast lpos left) right, real_type)
  else if rhs_type = integer_type then do
    let rpos ← right.pos
    pure (.ast_binaryoperation tag pos real_type left (new_ast_cast rpos right), real_type)
  else some (.ast_binaryoperation tag pos type left right, void_type)

/-- The part of `ast_divide::type_check` that follows the type check of the two operands;
it reads the `type` fields of the operands. -/
def check_divide (pos : position_information) (left right : ast_expression) :
    Option (ast_expression × sym_index) := do
  let ltype ← left.type
  let left1 ← (if ltype = integer_type then (do
      let lpos ← left.pos
      pure (new_ast_cast lpos left)) else some left)
  let rtype ← right.type
  let right1 ← (if rtype = integer_type then (do
      let rpos ← right.pos
      pure (new_ast_cast rpos right)) else some right)
  pure (.ast_binaryoperation .AST_DIVIDE pos real_type left1 right1, real_type)

/-- The part of `semantic::check_binop2` that follows the type check of the two operands;
`name` is the operator name of the diagnostic. -/
def check_binop2 (tag : binop_tag) (pos : position_information)
    (left right : ast_expression) (lhs_type rhs_type : sym_index) (name : String)
    (s : checker_state) : Option (ast_expression × sym_index × checker_state) :=
  if lhs_type = rhs_type ∧ lhs_type = integer_type then
    some (.ast_binaryoperation tag pos integer_type left right, integer_type, s)
  else if lhs_type = integer_type ∧ rhs_type = real_type then do
    let lpos ← left.pos
    pure (.ast_binaryoperation tag pos integer_type (new_ast_cast lpos left) right,
      integer_type, s)
  else if rhs_type = integer_type ∧ rhs_type = real_type then do
    let rpos ← right.pos
    pure (.ast_binaryoperation tag pos integer_type left (new_ast_cast rpos right),
      integer_type, s)
  else
    some (.ast_binaryoperation tag pos integer_type left right, void_type,
      type_error (some pos)
        [.text "invalid condition in ", .text name,
         .text "-statement, all variables must be int\n"] s)

/-- The part of `semantic::check_binrel` that follows the type check of the two operands. -/
def check_binrel (tag : binrel_tag) (pos : position_information)
    (left right : ast_expression) (lhs_type rhs_type : sym_index) :
    Option (ast_expression × sym_index) :=
  if lhs_type = integer_type ∧ rhs_type = integer_type then
    some (.ast_binaryrelation tag pos integer_type left right, integer_type)
  else if lhs_type = integer_type then do
    let lpos ← left.pos
    pure (.ast_binaryrelation tag pos integer_type (new_ast_cast lpos left) right,
      integer_type)
  else if rhs_type = integer_type then do
    let rpos ← right.pos
    pure (.ast_binaryrelation tag pos integer_type left (new_ast_cast rpos right),
      integer_type)
  else some (.ast_binaryrelation tag pos integer_type left right, void_type)

mutual
/-- The `type_check` methods of the expression classes: the node as the check leaves it,
the type returned and the state.  `ast_cast` has no `type_check` of its own, so it runs
the one of the abstract class `ast_expression`, which is fatal. -/
def ast_expression.type_check (sym_tab : symbol_table) :
    ast_expression → checker_state → Option (ast_expression × sym_index × checker_state)
  | .NULL, _ => none
  | .ast_id id, s => some (.ast_id id, id.type_check sym_tab, s)
  | .ast_indexed pos _ id index, s => do
      let id_type := id.type_check sym_tab
      let (index1, index_type, s1) ← ast_expression.type_check sym_tab index s
      if index_type = integer_type then
        pure (.ast_indexed pos id.type id index1, id_type, s1)
      else
        pure (.ast_indexed pos id.type id index1, void_type,
          type_error (some pos) [.text "index not of type integer\n"]
            (type_error (some pos) [.index index_type, .endl]
              (type_error (some pos) [.index id_type, .endl] s1)))
  | .ast_integer pos type value, s => some (.ast_integer pos type value, integer_type, s)
  | .ast_real pos type value, s => some (.ast_real pos type value, real_type, s)
  | .ast_cast _ _ _, _ => none
  | .ast_uminus pos _ expr, s => do
      let (expr1, t, s1) ← ast_expression.type_check sym_tab expr s
      pure (.ast_uminus pos t expr1, t, s1)
  | .ast_not pos type expr, s => do
      let (expr1, _, s1) ← ast_expression.type_check sym_tab expr s
      let etype ← expr1.type
      if etype = integer_type then pure (.ast_not pos type expr1, integer_type, s1)
      else do
        let epos ← expr1.pos
        pure (.ast_not pos type expr1, void_type,
          type_error (some epos) [.text "negated expr must be of type integer\n"] s1)
  | .ast_functioncall pos type id parameter_list, s => do
      let (parameter_list1, s1) ← (if parameter_list.isNull then some (parameter_list, s)
        else ast_expr_list.type_check sym_tab parameter_list s)
      let (parameter_list2, s2) ← check_parameters_match sym_tab id parameter_list1 s1
      pure (.ast_functioncall pos type id parameter_list2, id.type, s2)
  | .ast_binaryoperation tag pos type left right, s => do
      let (left1, lhs_type, s1) ← ast_expression.type_check sym_tab left s
      let (right1, rhs_type, s2) ← ast_expression.type_check sym_tab right s1
      match tag with
      | .AST_ADD | .AST_SUB | .AST_MULT => do
          let (node, t) ← check_binop1 tag pos type left1 right1 lhs_type rhs_type
          pure (node, t, s2)
      | .AST_DIVIDE => do
          let (node, t) ← check_divide pos left1 right1
          pure (node, t, s2)
      | .AST_OR => check_binop2 tag pos left1 right1 lhs_type rhs_type "OR" s2
      | .AST_AND => check_binop2 tag pos left1 right1 lhs_type rhs_type "AND" s2
      | .AST_IDIV => check_binop2 tag pos left1 right1 lhs_type rhs_type "IDIV" s2
      | .AST_MOD => check_binop2 tag pos left1 right1 lhs_type rhs_type "MOD" s2
  | .ast_binaryrelation tag pos _ left right, s => do
      let (left1, lhs_type, s1) ← ast_expression.type_check sym_tab left s
      let (right1, rhs_type, s2) ← ast_expression.type_check sym_tab right s1
      let (node, t) ← check_binrel tag pos left1 right1 lhs_type rhs_type
      pure (node, t, s2)
/-- The method `ast_expr_list::type_check`: the last expression first, then the preceding
ones. -/
def ast_expr_list.type_check (sym_tab : symbol_table) :
    ast_expr_list → checker_state → Option (ast_expr_list × checker_state)
  | .NULL, _ => none
  | .node pos last_expr preceding, s => do
      let (last_expr1, s1) ← (if last_expr.isNull then some (last_expr, s)
        else (do
          let (e, _, s1) ← ast_expression.type_check sym_tab last_expr s
          pure (e, s1)))
      let (preceding1, s2) ← (if preceding.isNull then some (preceding, s1)
        else ast_expr_list.type_check sym_tab preceding s1)
      pure (.node pos last_expr1 preceding1, s2)
end

/-- The whole of `semantic::check_parameters`. -/
def check_parameters (sym_tab : symbol_table) (call_id : ast_id)
    (param_list : ast_expr_list) (s : checker_state) :
    Option (ast_expr_list × checker_state) := do
  let (param_list1, s1) ← (if param_list.isNull then some (param_list, s)
    else param_list.type_check sym_tab s)
  check_parameters_match sym_tab call_id param_list1 s1

/-- The member `pos` of a statement list node. -/
def ast_stmt_list.pos : ast_stmt_list → Option position_information
  | .NULL => none
  | .node p _ _ => some p

mutual
/-- The `type_check` methods of the statement classes. -/
def ast_statement.type_check (sym_tab : symbol_table) :
    ast_statement → checker_state → Option (ast_statement × sym_index × checker_state)
  | .NULL, _ => none
  | .ast_assign pos lhs rhs, s => do
      let (lhs1, lhs_type, s1) ← lhs.type_check sym_tab s
      let (rhs1, rhs_type, s2) ← rhs.type_check sym_tab s1
      if lhs_type = rhs_type then do
        let t ← lhs1.type
        pure (.ast_assign pos lhs1 rhs1, t, s2)
      else if lhs_type = real_type ∧ rhs_type = integer_type then do
        let rpos ← rhs1.pos
        pure (.ast_assign pos lhs1 (new_ast_cast rpos rhs1), lhs_type, s2)
      else
        pure (.ast_assign pos lhs1 rhs1, void_type,
          type_error (some pos)
            [.text "lhs and rhs must be of same type in assignment. ", .text "lhs: ",
             .index lhs_type, .text " rhs: ", .index rhs_type, .text "\n"] s2)
  | .ast_while pos condition body, s => do
      let (condition1, condition_type, s1) ← condition.type_check sym_tab s
      let s2 ← (if condition_type ≠ integer_type then (do
          let cpos ← condition1.pos
          pure (type_error (some cpos)
            [.text "while predicate must be of integer ", .text "type.\n"] s1))
        else some s1)
      let (body1, s3) ← (if body.isNull then some (body, s2)
        else (do
          let (b, _, s3) ← ast_stmt_list.type_check sym_tab body s2
          pure (b, s3)))
      pure (.ast_while pos condition1 body1, void_type, s3)
  | .ast_if pos condition body elsif_list else_body, s => do
      let (condition1, condition_type, s1) ← condition.type_check sym_tab s
      let (body1, _, s2) ← ast_stmt_list.type_check sym_tab body s1
      if condition_type ≠ integer_type then do
        let cpos ← condition1.pos
        pure (.ast_if pos condition1 body1 elsif_list else_body, void_type,
          type_error (some cpos) [.text "if predicate must be of integer type.\n"] s2)
      else do
        let (elsif_list1, s3) ← (if elsif_list.isNull then some (elsif_list, s2)
          else (do
            let (l, _, s3) ← ast_elsif_list.type_check sym_tab elsif_list s2
            pure (l, s3)))
        let (else_body1, s4) ← (if else_body.isNull then some (else_body, s3)
          else (do
            let (b, _, s4) ← ast_stmt_list.type_check sym_tab else_body s3
            pure (b, s4)))
        pure (.ast_if pos condition1 body1 elsif_list1 else_body1, void_type, s4)
  | .ast_return pos value, s =>
      let s0 : checker_state := { s with has_return := true }
      let tmp := sym_tab.get_symbol sym_tab.current_environment
      if value.isNull then
        if tmp.tag ≠ sym_type.SYM_PROC then
          some (.ast_return pos value, void_type,
            type_error (some pos) [.text "Must return a value from a function.\n"] s0)
        else some (.ast_return pos value, void_type, s0)
      else do
        let (value1, value_type, s1) ← value.type_check sym_tab s0
        if tmp.tag ≠ sym_type.SYM_FUNC then
          pure (.ast_return pos value1, void_type,
            type_error (some pos) [.text "Procedures may not return a value.\n"] s1)
        else if tmp.type ≠ value_type then do
          let vpos ← value1.pos
          pure (.ast_return pos value1, void_type,
            type_error (some vpos) [.text "Bad return type from function.\n"] s1)
        else pure (.ast_return pos value1, void_type, s1)
  | .ast_procedurecall pos id parameter_list, s => do
      let (parameter_list1, s1) ← check_parameters sym_tab id parameter_list s
      pure (.ast_procedurecall pos id parameter_list1, void_type, s1)
/-- The method `ast_stmt_list::type_check`: the last statement first, then the preceding
ones. -/
def ast_stmt_list.type_check (sym_tab : symbol_table) :
    ast_stmt_list → checker_state → Option (ast_stmt_list × sym_index × checker_state)
  | .NULL, _ => none
  | .node pos last_stmt preceding, s => do
      let (last_stmt1, s1) ← (if last_stmt.isNull then some (last_stmt, s)
        else (do
          let (l, _, s1) ← ast_statement.type_check sym_tab last_stmt s
          pure (l, s1)))
      let (preceding1, s2) ← (if preceding.isNull then some (preceding, s1)
        else (do
          let (l, _, s2) ← ast_stmt_list.type_check sym_tab preceding s1
          pure (l, s2)))
      pure (.node pos last_stmt1 preceding1, void_type, s2)
/-- The method `ast_elsif_list::type_check`. -/
def ast_elsif_list.type_check (sym_tab : symbol_table) :
    ast_elsif_list → checker_state → Option (ast_elsif_list × sym_index × checker_state)
  | .NULL, _ => none
  | .node pos last_elsif preceding, s =>
      if preceding.isNull then some (.node pos last_elsif preceding, integer_type, s)
      else
        match last_elsif with
        | .NULL => none
        | .node epos condition body => do
            let (body1, _, s1) ← ast_stmt_list.type_check sym_tab body s
            let (condition1, cond_type, s2) ← condition.type_check sym_tab s1
            if cond_type ≠ integer_type then
              pure (.node pos (.node epos condition1 body1) preceding, void_type, s2)
            else do
              let (preceding1, t, s3) ← ast_elsif_list.type_check sym_tab preceding s2
              pure (.node pos (.node epos condition1 body1) preceding1, t, s3)
end

/-- The method `ast_elsif::type_check`; it reads the `type` field of the condition. -/
def ast_elsif.type_check : ast_elsif → checker_state → Option (sym_index × checker_state)
  | .NULL, _ => none
  | .node _ condition _, s => do
      let ctype ← condition.type
      if ctype = integer_type then pure (integer_type, s)
      else do
        let cpos ← condition.pos
        pure (void_type,
          type_error (some cpos) [.text "Condition is not of type integer.\n"] s)

/-- The interface of the type checker: `semantic::do_typecheck`, for the environment
symbol `env` and the block `body`. -/
def do_typecheck (sym_tab : symbol_table) (env : symbol) (body : ast_stmt_list)
    (s : checker_state) : Option (ast_stmt_list × checker_state) := do
  let s0 : checker_state := { s with has_return := false }
  let (body1, s1) ← (if body.isNull then some (body, s0)
    else (do
      let (b, _, s1) ← body.type_check sym_tab s0
      pure (b, s1)))
  if env.tag = sym_type.SYM_FUNC ∧ ¬ s1.has_return then
    if ¬ body.isNull then
      pure (body1, type_error body.pos [.text "A function must return a value.\n"] s1)
    else pure (body1, type_error none [.text "A function must return a value.\n"] s1)
  else pure (body1, s1)

/-! ## Notions used to state the properties -/

/-- Whether a node is a literal node (an integer or a real constant). -/
def is_literal : ast_expression → Bool
  | .ast_integer _ _ _ => true
  | .ast_real _ _ _ => true
  | _ => false

/-- Whether two operands are literals that match the type `type` of their operator: two
integer literals under integer type, or two real literals under real type. -/
def matching_literals (type : sym_index) (left right : ast_expression) : Bool :=
  (decide (type = integer_type) && left.get_ast_integer.isSome && right.get_ast_integer.isSome)
  || (decide (type = real_type) && left.get_ast_real.isSome && right.get_ast_real.isSome)

/-- Number of formal parameters in a parameter list. -/
def parameter_symbol.length : parameter_symbol → Nat
  | .NULL => 0
  | .node _ preceding => preceding.length + 1

/-- Number of nodes of an expression list, that is, of actual arguments. -/
def ast_expr_list.length : ast_expr_list → Nat
  | .NULL => 0
  | .node _ _ preceding => preceding.length + 1

/-- Counted from the last one, every actual argument has the type of the formal parameter
at the same place, as far as both lists go. -/
def params_agree : parameter_symbol → ast_expr_list → Prop
  | .node ftype fpreceding, .node _ last_expr preceding =>
      last_expr.type = some ftype ∧ params_agree fpreceding preceding
  | _, _ => True

mutual
/-- Whether a statement is or contains a return statement. -/
def ast_statement.contains_return : ast_statement → Bool
  | .NULL => false
  | .ast_assign _ _ _ => false
  | .ast_if _ _ body elsif_list else_body =>
      body.contains_return || elsif_list.contains_return || else_body.contains_return
  | .ast_while _ _ body => body.contains_return
  | .ast_return _ _ => true
  | .ast_procedurecall _ _ _ => false
/-- Whether a statement list contains a return statement. -/
def ast_stmt_list.contains_return : ast_stmt_list → Bool
  | .NULL => false
  | .node _ last_stmt preceding => last_stmt.contains_return || preceding.contains_return
/-- Whether an elsif clause contains a return statement. -/
def ast_elsif.contains_return : ast_elsif → Bool
  | .NULL => false
  | .node _ _ body => body.contains_return
/-- Whether an elsif list contains a return statement. -/
def ast_elsif_list.contains_return : ast_elsif_list → Bool
  | .NULL => false
  | .node _ last_elsif preceding => last_elsif.contains_return || preceding.contains_return
end

/-- Counted from the last one, the actual arguments have the types of their formal
parameters up to a place where the formal parameter is integer and the actual argument has
a type other than integer. -/
def discrepancy_at : parameter_symbol → ast_expr_list → Prop
  | .node ftype fpreceding, .node _ last_expr preceding =>
      (ftype = integer_type ∧ ∃ t, last_expr.type = some t ∧ t ≠ integer_type)
      ∨ (last_expr.type = some ftype ∧ discrepancy_at fpreceding preceding)
  | _, _ => False

/-- Whether every formal parameter has the type integer or the type real. -/
def parameter_symbol.arith_typed : parameter_symbol → Bool
  | .NULL => true
  | .node type preceding =>
      (decide (type = integer_type) || decide (type = real_type)) && preceding.arith_typed

/-- Whether every actual argument is present with a `type` field that is integer or
real. -/
def ast_expr_list.arith_typed : ast_expr_list → Bool
  | .NULL => true
  | .node _ last_expr preceding =>
      (decide (last_expr.type = some integer_type) || decide (last_expr.type = some real_type))
        && preceding.arith_typed

/-- Counted from the last one, the actual arguments have the types of their formal
parameters up to a place where the argument is absent, or where the type of the argument
differs from that of the formal parameter, the formal parameter is not integer, and the
pair is not a real formal parameter with an integer argument. -/
def silent_at : parameter_symbol → ast_expr_list → Prop
  | .node ftype fpreceding, .node _ last_expr preceding =>
      last_expr.isNull = true
      ∨ (∃ t, last_expr.type = some t ∧ ftype ≠ t
          ∧ ¬ (ftype = real_type ∧ t = integer_type) ∧ ftype ≠ integer_type)
      ∨ (last_expr.type = some ftype ∧ silent_at fpreceding preceding)
  | _, _ => False

/-- The operator name that the type check of `or`, `and`, integer division and `mod`
passes to `check_binop2` for its diagnostic. -/
def binop2_name : binop_tag → String
  | .AST_OR => "OR"
  | .AST_AND => "AND"
  | .AST_IDIV => "IDIV"
  | .AST_MOD => "MOD"
  | _ => ""

/-- The argument at place `i` of an argument list, counted from the last one (place 0);
nothing beyond the first argument. -/
def ast_expr_list.arg : ast_expr_list → Nat → Option ast_expression
  | .NULL, _ => none
  | .node _ last_expr _, 0 => some last_expr
  | .node _ _ preceding, i + 1 => preceding.arg i

/-- Replace the first-added clause of an elsif list (the clause of the node whose
`preceding` link is null) by `c`. -/
def ast_elsif_list.set_first (c : ast_elsif) : ast_elsif_list → ast_elsif_list
  | .NULL => .NULL
  | .node pos _ .NULL => .node pos c .NULL
  | .node pos last_elsif (.node ppos plast ppreceding) =>
      .node pos last_elsif (ast_elsif_list.set_first c (.node ppos plast ppreceding))

/-- The exact value of a finite `double`, as a rational number. -/
def Double.toRat : Double → Option ℚ
  | .finite neg n k => some ((Double.signed neg n : ℚ) / 2 ^ k)
  | _ => none

/-- Whether the rational number `v` is the value of a finite `double`: its magnitude is
`m * 2^e` for a significand `m < 2^53` and an exponent `-1074 ≤ e ≤ 971`. -/
def is_double_value (v : ℚ) : Prop :=
  ∃ (m : Nat) (e : Int), m < 2 ^ 53 ∧ -1074 ≤ e ∧ e ≤ 971 ∧ |v| = (m : ℚ) * (2 : ℚ) ^ e

/-- Whether the `double` `r` is the exact value `x` rounded as IEEE 754 prescribes (to
nearest, ties to even).  A finite `r` has the sign of `x` and a value `v` that is a
`double` value, `x` lies below the overflow threshold `2^1024 - 2^970`, no `double` value
is nearer to `x` than `v`, and when another one is as near, `v` is an even multiple of
the gap between the two.  An infinite `r` has the sign of `x`, and `x` has reached the
overflow threshold. -/
def rounds_to (x : ℚ) : Double → Prop
  | .finite neg n k =>
      is_double_value ((Double.signed neg n : ℚ) / 2 ^ k)
      ∧ |x| < 2 ^ 1024 - 2 ^ 970
      ∧ (neg = true → x ≤ 0) ∧ (neg = false → 0 ≤ x)
      ∧ (∀ w : ℚ, is_double_value w → |(Double.signed neg n : ℚ) / 2 ^ k - x| ≤ |w - x|)
      ∧ (∀ w : ℚ, is_double_value w → w ≠ (Double.signed neg n : ℚ) / 2 ^ k →
          |w - x| = |(Double.signed neg n : ℚ) / 2 ^ k - x| →
          ∃ z : Int, (Double.signed neg n : ℚ) / 2 ^ k
            = 2 * z * (w - (Double.signed neg n : ℚ) / 2 ^ k))
  | .inf neg => (2 : ℚ) ^ 1024 - 2 ^ 970 ≤ |x| ∧ (neg = true → x < 0) ∧ (neg = false → 0 < x)
  | .nan => False

/-! ## Sample data for the concrete cases -/

/-- A symbol table with the function `f(a : integer; b : real) : integer` at index 10, the
procedure `p` without parameters at index 11, the constant `PI` of real type at index 12,
the real variable `y` at index 4, the function `g(a : real) : real` at index 13, the
procedure `q(a : integer)` at index 14, the array `a` of integers at index 5 and integer
variables everywhere else; the current environment is `f`. -/
def sample_sym_tab : symbol_table where
  get_symbol := fun i =>
    if i = 10 then ⟨.SYM_FUNC, integer_type, .node real_type (.node integer_type .NULL)⟩
    else if i = 11 then ⟨.SYM_PROC, void_type, .NULL⟩
    else if i = 12 then ⟨.SYM_CONST, real_type, .NULL⟩
    else if i = 4 then ⟨.SYM_VAR, real_type, .NULL⟩
    else if i = 13 then ⟨.SYM_FUNC, real_type, .node real_type .NULL⟩
    else if i = 14 then ⟨.SYM_PROC, void_type, .node integer_type .NULL⟩
    else if i = 5 then ⟨.SYM_ARRAY, integer_type, .NULL⟩
    else ⟨.SYM_VAR, integer_type, .NULL⟩
  current_environment := 10

/-- The sample symbol table with the real function `g` as the current environment. -/
def sample_sym_tab_g : symbol_table :=
  { sample_sym_tab with current_environment := 13 }

/-- The sample symbol table with the procedure `p` as the current environment. -/
def sample_sym_tab_p : symbol_table :=
  { sample_sym_tab with current_environment := 11 }

/-- A source position. -/
def pos0 : position_information := ⟨1, 1⟩

/-- Another source position. -/
def pos1 : position_information := ⟨1, 5⟩

/-- A third source position. -/
def pos2 : position_information := ⟨1, 9⟩

/-- The integer literal `v` as the parser builds it. -/
def int_lit (v : Int) : ast_expression := new_ast_integer pos1 v

/-- The identifier `x`, an integer variable. -/
def id_x : ast_expression := .ast_id ⟨pos2, integer_type, 3⟩

/-- The identifier `y`, a real variable. -/
def id_y : ast_expression := .ast_id ⟨pos2, real_type, 4⟩

/-- The real literal `2.5` as the parser builds it. -/
def real_lit_2_5 : ast_expression := new_ast_real pos1 (Double.finite false 5 1)

/-- The state in which a run starts: no diagnostics, no return seen. -/
def state0 : checker_state := ⟨[], false⟩

/-- The identifier `f` of a call of the function `f`. -/
def call_f : ast_id := ⟨pos0, integer_type, 10⟩

/-- The real literal `1.5` as the parser builds it. -/
def real_lit_1_5 : ast_expression := new_ast_real pos1 (Double.finite false 3 1)

/-- The argument list `(-(1.5 < 2.5))` as the parser builds it; the `type` fields of the
two operator nodes start as void. -/
def args_neg_rel : ast_expr_list :=
  .node pos1 (.ast_uminus pos1 void_type
    (.ast_binaryrelation .AST_LESSTHAN pos2 void_type real_lit_1_5 real_lit_2_5)) .NULL

/-- The argument list `(-(1.5 < 2.5))` after its type check: the relation stores integer,
the unary minus stores the void that the check of the relation returned. -/
def args_neg_rel_checked : ast_expr_list :=
  .node pos1 (.ast_uminus pos1 void_type
    (.ast_binaryrelation .AST_LESSTHAN pos2 integer_type real_lit_1_5 real_lit_2_5)) .NULL

/-- The identifier `g` of a call of the function `g`. -/
def call_g : ast_id := ⟨pos0, real_type, 13⟩

/-- The identifier `q` of a call of the procedure `q`. -/
def call_q : ast_id := ⟨pos0, void_type, 14⟩

/-- The identifier `a` of an array of integers. -/
def id_a : ast_id := ⟨pos2, integer_type, 5⟩

/-- The statement list `y := 2; return 2.5` (linked from its last statement). -/
def stmts_assign_return : ast_stmt_list :=
  .node pos1 (.ast_return pos1 real_lit_2_5) (.node pos0 (.ast_assign pos0 id_y (int_lit 2)) .NULL)

/-- The statement list `x := 1`. -/
def stmts_assign_x : ast_stmt_list :=
  .node pos0 (.ast_assign pos0 id_x (int_lit 1)) .NULL

/-- The relation `1.5 < 2.5` as the parser builds it. -/
def rel_reals : ast_expression :=
  .ast_binaryrelation .AST_LESSTHAN pos2 void_type real_lit_1_5 real_lit_2_5

/-- The relation `1.5 < 2.5` after its type check: the node stores integer. -/
def rel_reals_checked : ast_expression :=
  .ast_binaryrelation .AST_LESSTHAN pos2 integer_type real_lit_1_5 real_lit_2_5

/-- The statement list `return 2`. -/
def stmts_return_2 : ast_stmt_list :=
  .node pos0 (.ast_return pos0 (int_lit 2)) .NULL

/-- The statement list `if 1 then x := 1 elsif 1 then return 2 end`: an if statement whose
only elsif clause holds the only return statement. -/
def stmts_if_elsif_return : ast_stmt_list :=
  .node pos0 (.ast_if pos0 (int_lit 1) stmts_assign_x
    (.node pos1 (.node pos1 (int_lit 1) stmts_return_2) .NULL) .NULL) .NULL

/-- The identifier `x2`, another integer variable. -/
def id_x2 : ast_expression := .ast_id ⟨pos1, integer_type, 6⟩

/-- The assignment `x := x2 + (-(2 + 3))` as the parser builds it (operator nodes start
with the type void). -/
def assign_sum_of_negation : ast_statement :=
  .ast_assign pos0 id_x (.ast_binaryoperation .AST_ADD pos0 void_type id_x2
    (.ast_uminus pos1 void_type
      (.ast_binaryoperation .AST_ADD pos2 void_type (int_lit 2) (int_lit 3))))

/-- The assignment `x := x2 + (-(2 + 3))` after its type check: every operator node stores
integer. -/
def assign_sum_of_negation_checked : ast_statement :=
  .ast_assign pos0 id_x (.ast_binaryoperation .AST_ADD pos0 integer_type id_x2
    (.ast_uminus pos1 integer_type
      (.ast_binaryoperation .AST_ADD pos2 integer_type (int_lit 2) (int_lit 3))))

/-- The statement list `x := 2.5`, whose check reports an error. -/
def stmts_assign_x_2_5 : ast_stmt_list :=
  .node pos0 (.ast_assign pos0 id_x real_lit_2_5) .NULL

/-- The elsif list `elsif 1 then x := 1 elsif 1 then x := 2.5 elsif 2.5 then x := 1`: the
clause added last has a real condition, the one before it a body with a type error. -/
def elsifs_real_condition : ast_elsif_list :=
  .node pos2 (.node pos2 real_lit_2_5 stmts_assign_x)
    (.node pos1 (.node pos1 (int_lit 1) stmts_assign_x_2_5)
      (.node pos0 (.node pos0 (int_lit 1) stmts_assign_x) .NULL))

/-- The identifier `PI`, a real constant. -/
def id_PI : ast_expression := .ast_id ⟨pos2, real_type, 12⟩

/-! ## Properties of constant folding -/

theorem integer_ne_real : integer_type ≠ real_type := by decide

theorem fold_constants_binop_eq (sym_tab : symbol_table) (tag : binop_tag)
    (pos : position_information) (type : sym_index) (left right left1 right1 : ast_expression)
    (hl : fold_constants sym_tab left = some left1)
    (hr : fold_constants sym_tab right = some right1) :
    fold_constants sym_tab (.ast_binaryoperation tag pos type left right) =
      fold_binop tag pos type left1 right1 (fold_function tag) := by
  simp [fold_constants, hl, hr]

theorem fold_binop_integer (tag : binop_tag) (pos : position_information)
    (left right : ast_expression) (f : Double → Double → Option Double) (a b : Int)
    (ha : left.get_ast_integer = some a) (hb : right.get_ast_integer = some b) :
    fold_binop tag pos integer_type left right f =
      ((f (Double.ofLong a) (Double.ofLong b)).bind Double.toLong).map
        (fun w => .ast_integer pos integer_type w) := by
  simp only [fold_binop, ha, hb, if_true]
  cases h1 : f (Double.ofLong a) (Double.ofLong b) with
  | none => rfl
  | some v =>
    cases h2 : v.toLong with
    | none => simp [h2]
    | some w => simp [h2, new_ast_integer]

theorem fold_binop_real (tag : binop_tag) (pos : position_information)
    (left right : ast_expression) (f : Double → Double → Option Double) (x y : Double)
    (hx : left.get_ast_real = some x) (hy : right.get_ast_real = some y) :
    fold_binop tag pos real_type left right f =
      (f x y).map (fun v => .ast_real pos real_type v) := by
  have hne : ¬ (real_type = integer_type) := by decide
  simp only [fold_binop, hx, hy, if_true, if_neg hne]
  cases h1 : f x y with
  | none => rfl
  | some v => simp [new_ast_real]

theorem fold_binop_unmatched (tag : binop_tag) (pos : position_information) (type : sym_index)
    (left right : ast_expression) (f : Double → Double → Option Double)
    (hm : matching_literals type left right = false) :
    fold_binop tag pos type left right f =
      some (.ast_binaryoperation tag pos type left right) := by
  unfold fold_binop
  by_cases h1 : type = integer_type
  · cases ha : left.get_ast_integer <;> cases hb : right.get_ast_integer <;>
      simp [matching_literals, h1, ha, hb] at hm ⊢
  · by_cases h2 : type = real_type
    · subst h2
      cases ha : left.get_ast_real <;> cases hb : right.get_ast_real <;>
        simp [matching_literals, h1, ha, hb] at hm ⊢
    · simp [h1, h2]

theorem fold_binop_matched (tag : binop_tag) (pos : position_information) (type : sym_index)
    (left right res : ast_expression) (f : Double → Double → Option Double)
    (hm : matching_literals type left right = true)
    (h : fold_binop tag pos type left right f = some res) :
    is_literal res = true ∧ res.type = some type ∧ res.pos = some pos := by
  by_cases h1 : type = integer_type
  · subst h1
    cases ha : left.get_ast_integer with
    | none => simp [matching_literals, ha, integer_ne_real, integer_ne_real.symm] at hm
    | some a =>
      cases hb : right.get_ast_integer with
      | none => simp [matching_literals, hb, integer_ne_real, integer_ne_real.symm] at hm
      | some b =>
        rw [fold_binop_integer tag pos left right f a b ha hb] at h
        simp only [Option.map_eq_some'] at h
        obtain ⟨w, _, rfl⟩ := h
        simp [is_literal, ast_expression.type, ast_expression.pos]
  · have h2 : type = real_type := by
      simp [matching_literals, h1] at hm
      exact hm.1.1
    subst h2
    cases ha : left.get_ast_real with
    | none => simp [matching_literals, ha, integer_ne_real, integer_ne_real.symm] at hm
    | some a =>
      cases hb : right.get_ast_real with
      | none => simp [matching_literals, hb, integer_ne_real, integer_ne_real.symm] at hm
      | some b =>
        rw [fold_binop_real tag pos left right f a b ha hb] at h
        simp only [Option.map_eq_some'] at h
        obtain ⟨w, _, rfl⟩ := h
        simp [is_literal, ast_expression.type, ast_expression.pos]

/-- C1, as amended: for a binary operation whose operands fold to `left1` and `right1`,
(1) under integer type with two integer literals the result of `fold_constants` is the
integer literal at the operator's position holding the fold function's value converted to
`long`, whenever that arithmetic is defined, and nothing otherwise; (2) under real type with
two real literals it is the real literal at the operator's position holding the fold
function's value, whenever that is defined; (3) when the operands are not such a matching
pair it is the operator node with its operands replaced by their folded forms; (4) hence a
returned node is a literal if and only if the folded operands are a matching pair, and
(5) a returned literal carries the operator's type and position. -/
theorem fold_constants_binop_literal_iff (sym_tab : symbol_table) (tag : binop_tag)
    (pos : position_information) (type : sym_index) (left right left1 right1 : ast_expression)
    (hl : fold_constants sym_tab left = some left1)
    (hr : fold_constants sym_tab right = some right1) :
    (∀ a b, type = integer_type → left1.get_ast_integer = some a →
        right1.get_ast_integer = some b →
        fold_constants sym_tab (.ast_binaryoperation tag pos type left right) =
          ((fold_function tag (Double.ofLong a) (Double.ofLong b)).bind Double.toLong).map
            (fun w => .ast_integer pos integer_type w))
    ∧ (∀ x y, type = real_type → left1.get_ast_real = some x →
        right1.get_ast_real = some y →
        fold_constants sym_tab (.ast_binaryoperation tag pos type left right) =
          (fold_function tag x y).map (fun v => .ast_real pos real_type v))
    ∧ (matching_literals type left1 right1 = false →
        fold_constants sym_tab (.ast_binaryoperation tag pos type left right) =
          some (.ast_binaryoperation tag pos type left1 right1))
    ∧ (∀ res, fold_constants sym_tab (.ast_binaryoperation tag pos type left right) = some res →
        (is_literal res = true ↔ matching_literals type left1 right1 = true))
    ∧ (∀ res, fold_constants sym_tab (.ast_binaryoperation tag pos type left right) = some res →
        is_literal res = true → res.type = some type ∧ res.pos = some pos) := by
  rw [fold_constants_binop_eq sym_tab tag pos type left right left1 right1 hl hr]
  have key : ∀ res, fold_binop tag pos type left1 right1 (fold_function tag) = some res →
      (is_literal res = true ↔ matching_literals type left1 right1 = true) := by
    intro res h
    cases hm : matching_literals type left1 right1 with
    | true =>
      simp [(fold_binop_matched tag pos type left1 right1 res _ hm h).1]
    | false =>
      rw [fold_binop_unmatched tag pos type left1 right1 _ hm] at h
      cases h
      simp [is_literal]
  refine ⟨?_, ?_, ?_, key, ?_⟩
  · intro a b ht ha hb
    subst ht
    exact fold_binop_integer tag pos left1 right1 _ a b ha hb
  · intro x y ht hx hy
    subst ht
    exact fold_binop_real tag pos left1 right1 _ x y hx hy
  · intro hm
    exact fold_binop_unmatched tag pos type left1 right1 _ hm
  · intro res h hlit
    exact (fold_binop_matched tag pos type left1 right1 res _ ((key res h).1 hlit) h).2

/-- C1, the amended statement at `2 + 3` of integer type: the operands fold to themselves
and the five parts hold there. -/
theorem fold_constants_binop_literal_iff_witness :
    fold_constants sample_sym_tab (int_lit 2) = some (int_lit 2)
    ∧ fold_constants sample_sym_tab (int_lit 3) = some (int_lit 3)
    ∧ fold_constants sample_sym_tab
        (.ast_binaryoperation .AST_ADD pos0 integer_type (int_lit 2) (int_lit 3))
      = some (.ast_integer pos0 integer_type 5)
    ∧ (∀ res, fold_constants sample_sym_tab
          (.ast_binaryoperation .AST_ADD pos0 integer_type (int_lit 2) (int_lit 3)) = some res →
        (is_literal res = true ↔ matching_literals integer_type (int_lit 2) (int_lit 3) = true)) :=
  ⟨by decide, by decide, by decide,
    (fold_constants_binop_literal_iff sample_sym_tab .AST_ADD pos0 integer_type
      (int_lit 2) (int_lit 3) (int_lit 2) (int_lit 3) (by decide) (by decide)).2.2.2.1⟩

/-- C1 as stated fails: the integer-typed node `7 mod 0` has two integer literal operands,
which fold to themselves, yet `fold_constants` returns no literal (it returns nothing, the
remainder by zero being undefined). -/
theorem fold_constants_mod_zero_no_literal :
    fold_constants sample_sym_tab (int_lit 7) = some (int_lit 7)
    ∧ fold_constants sample_sym_tab (int_lit 0) = some (int_lit 0)
    ∧ matching_literals integer_type (int_lit 7) (int_lit 0) = true
    ∧ ¬ ∃ res, fold_constants sample_sym_tab
          (.ast_binaryoperation .AST_MOD pos0 integer_type (int_lit 7) (int_lit 0)) = some res
        ∧ is_literal res = true := by
  refine ⟨by decide, by decide, by decide, ?_⟩
  have h : fold_constants sample_sym_tab
      (.ast_binaryoperation .AST_MOD pos0 integer_type (int_lit 7) (int_lit 0)) = none := by
    decide
  rw [h]
  simp

/-! ### Integer arithmetic through `double` -/

theorem bitLenAux_le (fuel : Nat) : ∀ (n k : Nat), n < 2 ^ k → bitLenAux fuel n ≤ k := by
  induction fuel with
  | zero => intro n k _; simp [bitLenAux]
  | succ f ih =>
    intro n k h
    unfold bitLenAux
    by_cases hn : n = 0
    · simp [hn]
    · simp only [hn, if_false]
      cases k with
      | zero => simp at h; exact absurd h hn
      | succ k =>
        have : n / 2 < 2 ^ k := by
          rw [pow_succ] at h
          omega
        have := ih (n / 2) k this
        omega

theorem round_small (neg : Bool) (n : Nat) (h : n < 2 ^ 53) :
    Double.round neg n 0 = Double.finite neg n 0 := by
  have hb : bitLen n ≤ 53 := bitLenAux_le n n 53 h
  have hd : max (bitLen n - 53) (0 - 1074) = 0 := by omega
  unfold Double.round
  simp only [hd, pow_zero, Nat.div_one, Nat.mod_one, mul_zero, Nat.mul_one, add_zero]
  have h1 : ¬ (1024 + 0 < bitLen n) := by omega
  simp [h1, Double.strip]

theorem round_le (neg : Bool) (n : Nat) (h : n ≤ 2 ^ 53) :
    Double.round neg n 0 = Double.finite neg n 0 := by
  rcases Nat.lt_or_ge n (2 ^ 53) with h1 | h1
  · exact round_small neg n h1
  · have : n = 2 ^ 53 := le_antisymm h h1
    subst this
    cases neg <;> decide

theorem ofLong_exact (v : Int) (h : v.natAbs ≤ 2 ^ 53) :
    Double.ofLong v = Double.finite (decide (v < 0)) v.natAbs 0 := by
  unfold Double.ofLong
  exact round_le _ _ h

theorem toLong_integer (neg : Bool) (n : Nat) (h : n ≤ 2 ^ 53) :
    Double.toLong (Double.finite neg n 0) = some (Double.signed neg n) := by
  unfold Double.toLong Double.signed
  cases neg
  · simp
    omega
  · simp
    omega

theorem signed_natAbs (v : Int) : Double.signed (decide (v < 0)) v.natAbs = v := by
  unfold Double.signed
  by_cases h : v < 0
  · simp only [h, decide_True, if_true]; omega
  · simp only [h, decide_False]; simp only [Bool.false_eq_true, if_false]; omega

theorem add_finite_integer (s t : Bool) (n m : Nat)
    (h : (Double.signed s n + Double.signed t m).natAbs ≤ 2 ^ 53) :
    (Double.add (Double.finite s n 0) (Double.finite t m 0)).toLong =
      some (Double.signed s n + Double.signed t m) := by
  simp only [Double.add, Nat.max_self, Nat.sub_self, pow_zero, Nat.mul_one]
  by_cases hc : Double.signed s n + Double.signed t m = 0
  · simp only [hc, if_true]
    cases s <;> cases t <;> decide
  · simp only [hc, if_false]
    rw [round_le _ _ h, toLong_integer _ _ h, signed_natAbs]

theorem add_exact (a b : Int) (ha : a.natAbs ≤ 2 ^ 53) (hb : b.natAbs ≤ 2 ^ 53)
    (hab : (a + b).natAbs ≤ 2 ^ 53) :
    (Double.add (Double.ofLong a) (Double.ofLong b)).toLong = some (a + b) := by
  rw [ofLong_exact a ha, ofLong_exact b hb]
  have := add_finite_integer (decide (a < 0)) (decide (b < 0)) a.natAbs b.natAbs
  rw [signed_natAbs, signed_natAbs] at this
  exact this hab

theorem signed_not (s : Bool) (n : Nat) : Double.signed (!s) n = - Double.signed s n := by
  cases s <;> simp [Double.signed]

theorem sub_exact (a b : Int) (ha : a.natAbs ≤ 2 ^ 53) (hb : b.natAbs ≤ 2 ^ 53)
    (hab : (a - b).natAbs ≤ 2 ^ 53) :
    (Double.sub (Double.ofLong a) (Double.ofLong b)).toLong = some (a - b) := by
  rw [ofLong_exact a ha, ofLong_exact b hb]
  simp only [Double.sub, Double.neg]
  have := add_finite_integer (decide (a < 0)) (!decide (b < 0)) a.natAbs b.natAbs
  rw [signed_not, signed_natAbs, signed_natAbs, ← sub_eq_add_neg] at this
  exact this hab

theorem signed_xor_mul (a b : Int) :
    Double.signed (xor (decide (a < 0)) (decide (b < 0))) (a.natAbs * b.natAbs) = a * b := by
  have ea : (a.natAbs : Int) = if a < 0 then -a else a := by split <;> omega
  have eb : (b.natAbs : Int) = if b < 0 then -b else b := by split <;> omega
  unfold Double.signed
  rw [Nat.cast_mul, ea, eb]
  by_cases ha : a < 0 <;> by_cases hb : b < 0 <;> simp [ha, hb]

theorem mul_exact (a b : Int) (ha : a.natAbs ≤ 2 ^ 53) (hb : b.natAbs ≤ 2 ^ 53)
    (hab : (a * b).natAbs ≤ 2 ^ 53) :
    (Double.mul (Double.ofLong a) (Double.ofLong b)).toLong = some (a * b) := by
  rw [ofLong_exact a ha, ofLong_exact b hb]
  simp only [Double.mul, add_zero]
  rw [Int.natAbs_mul] at hab
  rw [round_le _ _ hab, toLong_integer _ _ hab, signed_xor_mul]

theorem fold_constants_integer_literals (sym_tab : symbol_table) (tag : binop_tag)
    (pos lpos rpos : position_information) (ltype rtype : sym_index) (a b : Int) :
    fold_constants sym_tab (.ast_binaryoperation tag pos integer_type
        (.ast_integer lpos ltype a) (.ast_integer rpos rtype b)) =
      ((fold_function tag (Double.ofLong a) (Double.ofLong b)).bind Double.toLong).map
        (fun w => .ast_integer pos integer_type w) := by
  rw [fold_constants_binop_eq sym_tab tag pos integer_type (.ast_integer lpos ltype a)
    (.ast_integer rpos rtype b) (.ast_integer lpos ltype a) (.ast_integer rpos rtype b)
    (by simp [fold_constants]) (by simp [fold_constants])]
  exact fold_binop_integer tag pos _ _ _ a b rfl rfl

/-- C2, as amended: for integer literals `a` and `b` of magnitude at most `2^53` whose exact
sum, difference or product also has magnitude at most `2^53`, folding the integer-typed
node `a + b`, `a - b` or `a * b` gives the integer literal, at the position of the operator,
that holds the exact result. -/
theorem fold_integer_arith_exact (sym_tab : symbol_table) (pos lpos rpos : position_information)
    (ltype rtype : sym_index) (a b : Int)
    (ha : -(2 : Int) ^ 53 ≤ a ∧ a ≤ (2 : Int) ^ 53)
    (hb : -(2 : Int) ^ 53 ≤ b ∧ b ≤ (2 : Int) ^ 53) :
    ((-(2 : Int) ^ 53 ≤ a + b ∧ a + b ≤ (2 : Int) ^ 53) →
      fold_constants sym_tab (.ast_binaryoperation .AST_ADD pos integer_type
          (.ast_integer lpos ltype a) (.ast_integer rpos rtype b))
        = some (.ast_integer pos integer_type (a + b)))
    ∧ ((-(2 : Int) ^ 53 ≤ a - b ∧ a - b ≤ (2 : Int) ^ 53) →
      fold_constants sym_tab (.ast_binaryoperation .AST_SUB pos integer_type
          (.ast_integer lpos ltype a) (.ast_integer rpos rtype b))
        = some (.ast_integer pos integer_type (a - b)))
    ∧ ((-(2 : Int) ^ 53 ≤ a * b ∧ a * b ≤ (2 : Int) ^ 53) →
      fold_constants sym_tab (.ast_binaryoperation .AST_MULT pos integer_type
          (.ast_integer lpos ltype a) (.ast_integer rpos rtype b))
        = some (.ast_integer pos integer_type (a * b))) := by
  have ha1 : a.natAbs ≤ 2 ^ 53 := by omega
  have hb1 : b.natAbs ≤ 2 ^ 53 := by omega
  have hfold : ∀ tag, fold_constants sym_tab (.ast_binaryoperation tag pos integer_type
      (.ast_integer lpos ltype a) (.ast_integer rpos rtype b)) =
      ((fold_function tag (Double.ofLong a) (Double.ofLong b)).bind Double.toLong).map
        (fun w => .ast_integer pos integer_type w) := by
    intro tag
    exact fold_constants_integer_literals sym_tab tag pos lpos rpos ltype rtype a b
  refine ⟨?_, ?_, ?_⟩
  · intro h
    have h1 : (a + b).natAbs ≤ 2 ^ 53 := by omega
    rw [hfold]
    simp [fold_function, fold_add, add_exact a b ha1 hb1 h1]
  · intro h
    have h1 : (a - b).natAbs ≤ 2 ^ 53 := by omega
    rw [hfold]
    simp [fold_function, fold_sub, sub_exact a b ha1 hb1 h1]
  · intro h
    have h1 : (a * b).natAbs ≤ 2 ^ 53 := by omega
    rw [hfold]
    simp [fold_function, fold_mult, mul_exact a b ha1 hb1 h1]

/-- C2, the amended statement at `a = 2`, `b = 3`: `fold(add(int 2, int 3)) = int 5`, and
likewise for the difference and the product. -/
theorem fold_integer_arith_exact_witness :
    (-(2 : Int) ^ 53 ≤ 2 ∧ (2 : Int) ≤ (2 : Int) ^ 53)
    ∧ (-(2 : Int) ^ 53 ≤ 3 ∧ (3 : Int) ≤ (2 : Int) ^ 53)
    ∧ fold_constants sample_sym_tab (.ast_binaryoperation .AST_ADD pos0 integer_type
          (.ast_integer pos1 integer_type 2) (.ast_integer pos2 integer_type 3))
        = some (.ast_integer pos0 integer_type 5)
    ∧ fold_constants sample_sym_tab (.ast_binaryoperation .AST_SUB pos0 integer_type
          (.ast_integer pos1 integer_type 2) (.ast_integer pos2 integer_type 3))
        = some (.ast_integer pos0 integer_type (-1))
    ∧ fold_constants sample_sym_tab (.ast_binaryoperation .AST_MULT pos0 integer_type
          (.ast_integer pos1 integer_type 2) (.ast_integer pos2 integer_type 3))
        = some (.ast_integer pos0 integer_type 6) :=
  ⟨by decide, by decide,
    (fold_integer_arith_exact sample_sym_tab pos0 pos1 pos2 integer_type integer_type 2 3
      (by decide) (by decide)).1 (by decide),
    (fold_integer_arith_exact sample_sym_tab pos0 pos1 pos2 integer_type integer_type 2 3
      (by decide) (by decide)).2.1 (by decide),
    (fold_integer_arith_exact sample_sym_tab pos0 pos1 pos2 integer_type integer_type 2 3
      (by decide) (by decide)).2.2 (by decide)⟩

/-- C2 as stated fails: folding the integer-typed node `9007199254740992 + 1` gives the
integer literal `9007199254740992`, not the exact sum `9007199254740993` (the sum is
computed in `double`, which cannot hold it). -/
theorem fold_add_rounds_large_sum :
    fold_constants sample_sym_tab (.ast_binaryoperation .AST_ADD pos0 integer_type
        (int_lit 9007199254740992) (int_lit 1))
      = some (.ast_integer pos0 integer_type 9007199254740992)
    ∧ fold_constants sample_sym_tab (.ast_binaryoperation .AST_ADD pos0 integer_type
        (int_lit 9007199254740992) (int_lit 1))
      ≠ some (.ast_integer pos0 integer_type (9007199254740992 + 1)) := by
  constructor <;> decide

/-- C4: when one operand of a binary operation folds to a literal and the other folds to a
node that is not a literal, `fold_constants` returns the operator node (with its operands
replaced by their folded forms), not a literal. -/
theorem fold_constants_no_partial_fold (sym_tab : symbol_table) (tag : binop_tag)
    (pos : position_information) (type : sym_index) (left right left1 right1 : ast_expression)
    (hl : fold_constants sym_tab left = some left1)
    (hr : fold_constants sym_tab right = some right1)
    (h : (is_literal left1 = true ∧ is_literal right1 = false)
      ∨ (is_literal left1 = false ∧ is_literal right1 = true)) :
    fold_constants sym_tab (.ast_binaryoperation tag pos type left right) =
      some (.ast_binaryoperation tag pos type left1 right1) := by
  rw [fold_constants_binop_eq sym_tab tag pos type left right left1 right1 hl hr]
  apply fold_binop_unmatched
  rcases h with ⟨_, h2⟩ | ⟨h1, _⟩
  · cases right1 <;> simp_all [matching_literals, is_literal, ast_expression.get_ast_integer,
      ast_expression.get_ast_real]
  · cases left1 <;> simp_all [matching_literals, is_literal, ast_expression.get_ast_integer,
      ast_expression.get_ast_real]

/-- C4 at `add(int 2, identifier x)`: the node is returned unchanged. -/
theorem fold_constants_no_partial_fold_witness :
    fold_constants sample_sym_tab (int_lit 2) = some (int_lit 2)
    ∧ fold_constants sample_sym_tab id_x = some id_x
    ∧ ((is_literal (int_lit 2) = true ∧ is_literal id_x = false)
      ∨ (is_literal (int_lit 2) = false ∧ is_literal id_x = true))
    ∧ fold_constants sample_sym_tab
        (.ast_binaryoperation .AST_ADD pos0 integer_type (int_lit 2) id_x) =
      some (.ast_binaryoperation .AST_ADD pos0 integer_type (int_lit 2) id_x) :=
  ⟨by decide, by decide, by decide,
    fold_constants_no_partial_fold sample_sym_tab .AST_ADD pos0 integer_type
      (int_lit 2) id_x (int_lit 2) id_x (by decide) (by decide) (by decide)⟩

/-- C5: `fold_constants` returns every identifier node unchanged, whatever the tag of its
symbol; in particular `fold(id "PI") = id "PI"` for the constant `PI`. -/
theorem fold_constants_id_unchanged :
    (∀ (sym_tab : symbol_table) (id : ast_id),
      fold_constants sym_tab (.ast_id id) = some (.ast_id id))
    ∧ (sample_sym_tab.get_symbol 12).tag = sym_type.SYM_CONST
    ∧ fold_constants sample_sym_tab id_PI = some id_PI := by
  have h : ∀ (sym_tab : symbol_table) (id : ast_id),
      fold_constants sym_tab (.ast_id id) = some (.ast_id id) := by
    intro sym_tab id
    simp [fold_constants, fold_ast_const]
  exact ⟨h, by decide, h _ _⟩

/-! ## Properties of type checking -/

theorem check_binop1_not_null {tag pos type left right lt rt node t}
    (h : check_binop1 tag pos type left right lt rt = some (node, t)) :
    node.isNull = false := by
  unfold check_binop1 at h
  split at h
  · cases h; rfl
  · split at h
    · cases h; rfl
    · split at h
      · simp only [Option.bind_eq_bind, Option.bind_eq_some] at h
        obtain ⟨_, _, h⟩ := h
        cases h; rfl
      · split at h
        · simp only [Option.bind_eq_bind, Option.bind_eq_some] at h
          obtain ⟨_, _, h⟩ := h
          cases h; rfl
        · cases h; rfl

theorem check_divide_not_null {pos left right node t}
    (h : check_divide pos left right = some (node, t)) :
    node.isNull = false := by
  unfold check_divide at h
  simp only [Option.bind_eq_bind, Option.bind_eq_some] at h
  obtain ⟨_, _, _, _, _, _, _, _, h⟩ := h
  cases h; rfl

theorem check_binop2_not_null {tag pos left right lt rt name s node t s1}
    (h : check_binop2 tag pos left right lt rt name s = some (node, t, s1)) :
    node.isNull = false := by
  unfold check_binop2 at h
  split at h
  · cases h; rfl
  · split at h
    · simp only [Option.bind_eq_bind, Option.bind_eq_some] at h
      obtain ⟨_, _, h⟩ := h
      cases h; rfl
    · split at h
      · simp only [Option.bind_eq_bind, Option.bind_eq_some] at h
        obtain ⟨_, _, h⟩ := h
        cases h; rfl
      · cases h; rfl

theorem check_binrel_not_null {tag pos left right lt rt node t}
    (h : check_binrel tag pos left right lt rt = some (node, t)) :
    node.isNull = false := by
  unfold check_binrel at h
  split at h
  · cases h; rfl
  · split at h
    · simp only [Option.bind_eq_bind, Option.bind_eq_some] at h
      obtain ⟨_, _, h⟩ := h
      cases h; rfl
    · split at h
      · simp only [Option.bind_eq_bind, Option.bind_eq_some] at h
        obtain ⟨_, _, h⟩ := h
        cases h; rfl
      · cases h; rfl

theorem type_check_not_null (sym_tab : symbol_table) (e e1 : ast_expression)
    (s s1 : checker_state) (t : sym_index)
    (h : e.type_check sym_tab s = some (e1, t, s1)) : e1.isNull = false := by
  cases e with
  | NULL => simp [ast_expression.type_check] at h
  | ast_id id => simp [ast_expression.type_check] at h; rw [← h.1]; rfl
  | ast_indexed pos type id index =>
    simp only [ast_expression.type_check, Option.bind_eq_bind, Option.bind_eq_some] at h
    obtain ⟨⟨i1, it, s'⟩, _, h⟩ := h
    simp only at h
    split at h <;> (cases h; rfl)
  | ast_integer pos type v => simp [ast_expression.type_check] at h; rw [← h.1]; rfl
  | ast_real pos type v => simp [ast_expression.type_check] at h; rw [← h.1]; rfl
  | ast_cast pos type e => simp [ast_expression.type_check] at h
  | ast_uminus pos type e =>
    simp only [ast_expression.type_check, Option.bind_eq_bind, Option.bind_eq_some] at h
    obtain ⟨⟨i1, it, s'⟩, _, h⟩ := h
    cases h; rfl
  | ast_not pos type e =>
    simp only [ast_expression.type_check, Option.bind_eq_bind, Option.bind_eq_some] at h
    obtain ⟨⟨i1, it, s'⟩, _, et, _, h⟩ := h
    split at h
    · cases h; rfl
    · simp only [Option.bind_eq_bind, Option.bind_eq_some] at h
      obtain ⟨_, _, h⟩ := h
      cases h; rfl
  | ast_functioncall pos type id pl =>
    simp only [ast_expression.type_check, Option.bind_eq_bind, Option.bind_eq_some] at h
    obtain ⟨⟨p1, s'⟩, _, ⟨p2, s''⟩, _, h⟩ := h
    cases h; rfl
  | ast_binaryoperation tag pos type l r =>
    simp only [ast_expression.type_check, Option.bind_eq_bind, Option.bind_eq_some] at h
    obtain ⟨⟨l1, lt, s'⟩, _, ⟨r1, rt, s''⟩, _, h⟩ := h
    cases tag <;> simp only [Option.bind_eq_bind, Option.bind_eq_some] at h
    all_goals first
      | (obtain ⟨⟨n, t'⟩, hn, h⟩ := h
         cases h
         first
           | exact check_binop1_not_null hn
           | exact check_divide_not_null hn)
      | exact check_binop2_not_null h
  | ast_binaryrelation tag pos type l r =>
    simp only [ast_expression.type_check, Option.bind_eq_bind, Option.bind_eq_some] at h
    obtain ⟨⟨l1, lt, s'⟩, _, ⟨r1, rt, s''⟩, _, ⟨n, t'⟩, hn, h⟩ := h
    cases h
    exact check_binrel_not_null hn

theorem not_null_type_pos (e : ast_expression) (h : e.isNull = false) :
    (∃ t, e.type = some t) ∧ (∃ p, e.pos = some p) := by
  cases e <;> simp [ast_expression.isNull, ast_expression.type, ast_expression.pos] at h ⊢

/-- C7: when the left side of an assignment checks to integer and the right side to real,
the check of the assignment reports one type error (at the assignment), returns void and
leaves the right-hand side as the checked right-hand side, without a cast. -/
theorem assign_integer_from_real_is_error (sym_tab : symbol_table)
    (pos : position_information) (lhs rhs lhs1 rhs1 : ast_expression)
    (s s1 s2 : checker_state)
    (hl : lhs.type_check sym_tab s = some (lhs1, integer_type, s1))
    (hr : rhs.type_check sym_tab s1 = some (rhs1, real_type, s2)) :
    (ast_statement.ast_assign pos lhs rhs).type_check sym_tab s =
      some (.ast_assign pos lhs1 rhs1, void_type,
        type_error (some pos)
          [.text "lhs and rhs must be of same type in assignment. ", .text "lhs: ",
           .index integer_type, .text " rhs: ", .index real_type, .text "\n"] s2)
    ∧ (type_error (some pos)
          [.text "lhs and rhs must be of same type in assignment. ", .text "lhs: ",
           .index integer_type, .text " rhs: ", .index real_type, .text "\n"] s2).errors.length
        = s2.errors.length + 1 := by
  constructor
  · simp [ast_statement.type_check, hl, hr, integer_ne_real, integer_ne_real.symm]
  · simp [type_error]

/-- C7 at `x := 2.5` for the integer variable `x`. -/
theorem assign_integer_from_real_is_error_witness :
    id_x.type_check sample_sym_tab state0 = some (id_x, integer_type, state0)
    ∧ real_lit_2_5.type_check sample_sym_tab state0
        = some (new_ast_real pos1 (Double.finite false 5 1), real_type, state0)
    ∧ (ast_statement.ast_assign pos0 id_x
          real_lit_2_5).type_check sample_sym_tab state0 =
      some (.ast_assign pos0 id_x real_lit_2_5, void_type,
        type_error (some pos0)
          [.text "lhs and rhs must be of same type in assignment. ", .text "lhs: ",
           .index integer_type, .text " rhs: ", .index real_type, .text "\n"] state0) :=
  ⟨by decide, by decide,
    (assign_integer_from_real_is_error sample_sym_tab pos0 id_x
      real_lit_2_5 id_x
      real_lit_2_5 state0 state0 state0
      (by decide) (by decide)).1⟩

/-- C8: when the left side of an assignment checks to real and the right side to integer,
the check reports no error of its own, replaces the right-hand side by a cast node (of real
type, at the position of the right-hand side) that wraps the checked right-hand side, and
returns real; when both sides check to the same type, no cast is inserted, no error is
reported and the `type` of the left side is returned. -/
theorem assign_real_from_integer_casts (sym_tab : symbol_table)
    (pos : position_information) (lhs rhs lhs1 rhs1 : ast_expression)
    (s s1 s2 : checker_state) (lhs_type rhs_type : sym_index)
    (hl : lhs.type_check sym_tab s = some (lhs1, lhs_type, s1))
    (hr : rhs.type_check sym_tab s1 = some (rhs1, rhs_type, s2)) :
    (lhs_type = real_type → rhs_type = integer_type →
      ∃ rpos, rhs1.pos = some rpos ∧
        (ast_statement.ast_assign pos lhs rhs).type_check sym_tab s =
          some (.ast_assign pos lhs1 (.ast_cast rpos real_type rhs1), real_type, s2))
    ∧ (lhs_type = rhs_type →
      ∃ t, lhs1.type = some t ∧
        (ast_statement.ast_assign pos lhs rhs).type_check sym_tab s =
          some (.ast_assign pos lhs1 rhs1, t, s2)) := by
  constructor
  · intro h1 h2
    subst h1 h2
    obtain ⟨rpos, hp⟩ := (not_null_type_pos rhs1 (type_check_not_null _ _ _ _ _ _ hr)).2
    refine ⟨rpos, hp, ?_⟩
    simp [ast_statement.type_check, hl, hr, integer_ne_real, integer_ne_real.symm, hp,
      new_ast_cast]
  · intro h
    subst h
    obtain ⟨t, ht⟩ := (not_null_type_pos lhs1 (type_check_not_null _ _ _ _ _ _ hl)).1
    refine ⟨t, ht, ?_⟩
    simp [ast_statement.type_check, hl, hr, ht]

/-- C8 at `y := 2` for the real variable `y` (a cast is inserted) and at `x := 2` for the
integer variable `x` (no cast). -/
theorem assign_real_from_integer_casts_witness :
    id_y.type_check sample_sym_tab state0 = some (id_y, real_type, state0)
    ∧ (int_lit 2).type_check sample_sym_tab state0 = some (int_lit 2, integer_type, state0)
    ∧ (ast_statement.ast_assign pos0 id_y (int_lit 2)).type_check sample_sym_tab state0 =
        some (.ast_assign pos0 id_y (.ast_cast pos1 real_type (int_lit 2)), real_type, state0)
    ∧ (ast_statement.ast_assign pos0 id_x (int_lit 2)).type_check sample_sym_tab state0 =
        some (.ast_assign pos0 id_x (int_lit 2), integer_type, state0) := by
  refine ⟨by decide, by decide, ?_, ?_⟩
  · obtain ⟨rpos, hp, h⟩ := (assign_real_from_integer_casts sample_sym_tab pos0 id_y (int_lit 2)
      id_y (int_lit 2) state0 state0 state0 real_type integer_type (by decide) (by decide)).1
      rfl rfl
    have e : rpos = pos1 := by
      simpa [int_lit, new_ast_integer, ast_expression.pos] using hp.symm
    rw [← e]
    exact h
  · obtain ⟨t, ht, h⟩ := (assign_real_from_integer_casts sample_sym_tab pos0 id_x (int_lit 2)
      id_x (int_lit 2) state0 state0 state0 integer_type integer_type (by decide) (by decide)).2
      rfl
    have e : t = integer_type := by
      simpa [id_x, ast_expression.type] using ht.symm
    rw [← e]
    exact h

theorem chk_param_true_length (env : ast_id) (formals : parameter_symbol) :
    ∀ (actuals a1 : ast_expr_list) (s s1 : checker_state),
      chk_param env formals actuals s = some (true, a1, s1) →
      formals.length = actuals.length := by
  induction formals with
  | NULL =>
    intro actuals a1 s s1 h
    cases actuals with
    | NULL => rfl
    | node pos last p => simp [chk_param] at h
  | node ft fp ih =>
    intro actuals a1 s s1 h
    cases actuals with
    | NULL => simp [chk_param] at h
    | node pos last p =>
      simp only [chk_param] at h
      split at h
      · simp at h
      · simp only [Option.bind_eq_bind, Option.bind_eq_some] at h
        obtain ⟨atype, _, h⟩ := h
        split at h
        · simp only [Option.bind_eq_bind, Option.bind_eq_some] at h
          obtain ⟨⟨b, p1, s'⟩, hrec, h⟩ := h
          simp only [Option.pure_def, Option.some.injEq, Prod.mk.injEq] at h
          obtain ⟨rfl, _, _⟩ := h
          simp [parameter_symbol.length, ast_expr_list.length, ih _ _ _ _ hrec]
        · split at h
          · cases p with
            | NULL => simp at h
            | node ppos plast pp =>
              simp only [Option.bind_eq_bind, Option.bind_eq_some] at h
              obtain ⟨apos, _, ⟨b, p1, s'⟩, hrec, h⟩ := h
              simp only [Option.pure_def, Option.some.injEq, Prod.mk.injEq] at h
              obtain ⟨rfl, _, _⟩ := h
              have := ih _ _ _ _ hrec
              simp [parameter_symbol.length, ast_expr_list.length] at this ⊢
              exact this
          · split at h <;> simp at h

theorem chk_param_agree_invalid_number (env : ast_id) (formals : parameter_symbol) :
    ∀ (actuals : ast_expr_list) (s : checker_state),
      formals.length ≠ actuals.length → params_agree formals actuals →
      chk_param env formals actuals s =
        some (false, actuals,
          type_error (some env.pos) [.text "Invalid number of parameters\n"] s) := by
  induction formals with
  | NULL =>
    intro actuals s hlen _
    cases actuals with
    | NULL => simp [parameter_symbol.length, ast_expr_list.length] at hlen
    | node pos last p => simp [chk_param]
  | node ft fp ih =>
    intro actuals s hlen hag
    cases actuals with
    | NULL => simp [chk_param]
    | node pos last p =>
      simp only [params_agree] at hag
      obtain ⟨ht, hag⟩ := hag
      have hlen1 : fp.length ≠ p.length := by
        simpa [parameter_symbol.length, ast_expr_list.length] using hlen
      have hnn : last.isNull = false := by
        cases last <;> simp [ast_expression.type, ast_expression.isNull] at ht ⊢
      simp [chk_param, hnn, ht, ih p s hlen1 hag]

/-- C10, as amended: for a formal-parameter list and an actual-argument list of different
lengths, `chk_param` never returns true; and when, counted from the last one, every actual
argument has the type of its formal parameter as far as both lists go, it reports exactly
one "Invalid number of parameters" error, returns false and leaves the arguments as they
were. -/
theorem chk_param_length_mismatch (env : ast_id) (formals : parameter_symbol)
    (actuals : ast_expr_list) (s : checker_state)
    (hlen : formals.length ≠ actuals.length) :
    (params_agree formals actuals →
      chk_param env formals actuals s =
        some (false, actuals,
          type_error (some env.pos) [.text "Invalid number of parameters\n"] s))
    ∧ (∀ b a1 s1, chk_param env formals actuals s = some (b, a1, s1) → b = false) := by
  constructor
  · exact chk_param_agree_invalid_number env formals actuals s hlen
  · intro b a1 s1 h
    cases b with
    | false => rfl
    | true => exact absurd (chk_param_true_length env formals actuals a1 s s1 h) hlen

/-- C10, the amended statement for one integer formal parameter and the two integer
arguments `(1, 2)`: one "Invalid number of parameters" error, result false. -/
theorem chk_param_length_mismatch_witness :
    (parameter_symbol.node integer_type .NULL).length
      ≠ (ast_expr_list.node pos1 (int_lit 2) (.node pos1 (int_lit 1) .NULL)).length
    ∧ chk_param call_f (.node integer_type .NULL)
        (.node pos1 (int_lit 2) (.node pos1 (int_lit 1) .NULL)) state0 =
      some (false, .node pos1 (int_lit 2) (.node pos1 (int_lit 1) .NULL),
        ⟨[⟨some pos0, [.text "Invalid number of parameters\n"]⟩], false⟩) :=
  ⟨by decide,
    (chk_param_length_mismatch call_f (.node integer_type .NULL)
      (.node pos1 (int_lit 2) (.node pos1 (int_lit 1) .NULL)) state0 (by decide)).1
      ⟨rfl, trivial⟩⟩

/-- C10 as stated fails: with one integer formal parameter and the two arguments
`(1, 2.5)` the lists have different lengths, yet the only error reported is the type
discrepancy of the last argument; no "Invalid number of parameters" error is reported. -/
theorem chk_param_mismatch_before_length :
    (parameter_symbol.node integer_type .NULL).length
      ≠ (ast_expr_list.node pos1 real_lit_2_5 (.node pos1 (int_lit 1) .NULL)).length
    ∧ chk_param call_f (.node integer_type .NULL)
        (.node pos1 real_lit_2_5 (.node pos1 (int_lit 1) .NULL)) state0 =
      some (false, .node pos1 real_lit_2_5 (.node pos1 (int_lit 1) .NULL),
        ⟨[⟨some pos0,
            [.text "Type discrepancy between formal and actual parameters.\n"]⟩], false⟩) := by
  constructor <;> decide

theorem type_error_has_return (pos : Option position_information) (items : List diag_item)
    (s : checker_state) : (type_error pos items s).has_return = s.has_return := rfl

theorem chk_param_has_return (env : ast_id) (formals : parameter_symbol) :
    ∀ (actuals a1 : ast_expr_list) (s s1 : checker_state) (b : Bool),
      chk_param env formals actuals s = some (b, a1, s1) → s1.has_return = s.has_return := by
  induction formals with
  | NULL =>
    intro actuals a1 s s1 b h
    cases actuals with
    | NULL => simp [chk_param] at h; rw [← h.2.2]
    | node pos last p => simp [chk_param] at h; rw [← h.2.2]; rfl
  | node ft fp ih =>
    intro actuals a1 s s1 b h
    cases actuals with
    | NULL => simp [chk_param] at h; rw [← h.2.2]; rfl
    | node pos last p =>
      simp only [chk_param] at h
      split at h
      · simp at h; rw [← h.2.2]
      · simp only [Option.bind_eq_bind, Option.bind_eq_some] at h
        obtain ⟨atype, _, h⟩ := h
        split at h
        · simp only [Option.bind_eq_bind, Option.bind_eq_some] at h
          obtain ⟨⟨b', p1, s'⟩, hrec, h⟩ := h
          simp only [Option.pure_def, Option.some.injEq, Prod.mk.injEq] at h
          obtain ⟨_, _, rfl⟩ := h
          exact ih _ _ _ _ _ hrec
        · split at h
          · cases p with
            | NULL => simp at h
            | node ppos plast pp =>
              simp only [Option.bind_eq_bind, Option.bind_eq_some] at h
              obtain ⟨apos, _, ⟨b', p1, s'⟩, hrec, h⟩ := h
              simp only [Option.pure_def, Option.some.injEq, Prod.mk.injEq] at h
              obtain ⟨_, _, rfl⟩ := h
              exact ih _ _ _ _ _ hrec
          · split at h
            · simp at h; rw [← h.2.2]; rfl
            · simp at h; rw [← h.2.2]

theorem check_parameters_match_has_return (sym_tab : symbol_table) (call_id : ast_id)
    (param_list p1 : ast_expr_list) (s s1 : checker_state)
    (h : check_parameters_match sym_tab call_id param_list s = some (p1, s1)) :
    s1.has_return = s.has_return := by
  unfold check_parameters_match at h
  simp only at h
  split at h
  · simp only [Option.bind_eq_bind, Option.bind_eq_some] at h
    obtain ⟨⟨b, p', s'⟩, hc, h⟩ := h
    simp only [Option.pure_def, Option.some.injEq, Prod.mk.injEq] at h
    obtain ⟨_, rfl⟩ := h
    exact chk_param_has_return _ _ _ _ _ _ _ hc
  · split at h
    · simp only [Option.bind_eq_bind, Option.bind_eq_some] at h
      obtain ⟨⟨b, p', s'⟩, hc, h⟩ := h
      simp only [Option.pure_def, Option.some.injEq, Prod.mk.injEq] at h
      obtain ⟨_, rfl⟩ := h
      exact chk_param_has_return _ _ _ _ _ _ _ hc
    · simp at h

theorem check_binop2_has_return {tag pos left right lt rt name s node t s1}
    (h : check_binop2 tag pos left right lt rt name s = some (node, t, s1)) :
    s1.has_return = s.has_return := by
  unfold check_binop2 at h
  split at h
  · cases h; rfl
  · split at h
    · simp only [Option.bind_eq_bind, Option.bind_eq_some] at h
      obtain ⟨_, _, h⟩ := h
      cases h; rfl
    · split at h
      · simp only [Option.bind_eq_bind, Option.bind_eq_some] at h
        obtain ⟨_, _, h⟩ := h
        cases h; rfl
      · cases h; rfl

mutual
theorem expression_type_check_has_return (sym_tab : symbol_table) :
    ∀ (e e1 : ast_expression) (s s1 : checker_state) (t : sym_index),
      e.type_check sym_tab s = some (e1, t, s1) → s1.has_return = s.has_return
  | .NULL, e1, s, s1, t, h => by simp [ast_expression.type_check] at h
  | .ast_id id, e1, s, s1, t, h => by
      simp [ast_expression.type_check] at h; rw [← h.2.2]
  | .ast_indexed pos type id index, e1, s, s1, t, h => by
      simp only [ast_expression.type_check, Option.bind_eq_bind, Option.bind_eq_some] at h
      obtain ⟨⟨i1, it, s'⟩, hi, h⟩ := h
      have := expression_type_check_has_return sym_tab index _ _ _ _ hi
      simp only at h
      split at h <;> (cases h; simp [type_error_has_return, this])
  | .ast_integer pos type v, e1, s, s1, t, h => by
      simp [ast_expression.type_check] at h; rw [← h.2.2]
  | .ast_real pos type v, e1, s, s1, t, h => by
      simp [ast_expression.type_check] at h; rw [← h.2.2]
  | .ast_cast pos type e, e1, s, s1, t, h => by simp [ast_expression.type_check] at h
  | .ast_uminus pos type e, e1, s, s1, t, h => by
      simp only [ast_expression.type_check, Option.bind_eq_bind, Option.bind_eq_some] at h
      obtain ⟨⟨i1, it, s'⟩, hi, h⟩ := h
      have := expression_type_check_has_return sym_tab e _ _ _ _ hi
      cases h; exact this
  | .ast_not pos type e, e1, s, s1, t, h => by
      simp only [ast_expression.type_check, Option.bind_eq_bind, Option.bind_eq_some] at h
      obtain ⟨⟨i1, it, s'⟩, hi, et, _, h⟩ := h
      have := expression_type_check_has_return sym_tab e _ _ _ _ hi
      split at h
      · cases h; exact this
      · simp only [Option.bind_eq_bind, Option.bind_eq_some] at h
        obtain ⟨_, _, h⟩ := h
        cases h; simp [type_error_has_return, this]
  | .ast_functioncall pos type id pl, e1, s, s1, t, h => by
      simp only [ast_expression.type_check, Option.bind_eq_bind, Option.bind_eq_some] at h
      obtain ⟨⟨p1, s'⟩, hp, ⟨p2, s''⟩, hm, h⟩ := h
      have h2 := check_parameters_match_has_return _ _ _ _ _ _ hm
      cases h
      rw [h2]
      split at hp
      · cases hp; rfl
      · exact expr_list_type_check_has_return sym_tab pl _ _ _ hp
  | .ast_binaryoperation tag pos type l r, e1, s, s1, t, h => by
      simp only [ast_expression.type_check, Option.bind_eq_bind, Option.bind_eq_some] at h
      obtain ⟨⟨l1, lt, s'⟩, hl, ⟨r1, rt, s''⟩, hr, h⟩ := h
      have h1 := expression_type_check_has_return sym_tab l _ _ _ _ hl
      have h2 := expression_type_check_has_return sym_tab r _ _ _ _ hr
      cases tag <;> simp only [Option.bind_eq_bind, Option.bind_eq_some] at h
      all_goals first
        | (obtain ⟨⟨n, t'⟩, hn, h⟩ := h
           cases h
           rw [h2, h1])
        | (rw [check_binop2_has_return h, h2, h1])
  | .ast_binaryrelation tag pos type l r, e1, s, s1, t, h => by
      simp only [ast_expression.type_check, Option.bind_eq_bind, Option.bind_eq_some] at h
      obtain ⟨⟨l1, lt, s'⟩, hl, ⟨r1, rt, s''⟩, hr, ⟨n, t'⟩, hn, h⟩ := h
      have h1 := expression_type_check_has_return sym_tab l _ _ _ _ hl
      have h2 := expression_type_check_has_return sym_tab r _ _ _ _ hr
      cases h
      rw [h2, h1]
theorem expr_list_type_check_has_return (sym_tab : symbol_table) :
    ∀ (l l1 : ast_expr_list) (s s1 : checker_state),
      l.type_check sym_tab s = some (l1, s1) → s1.has_return = s.has_return
  | .NULL, l1, s, s1, h => by simp [ast_expr_list.type_check] at h
  | .node pos last p, l1, s, s1, h => by
      simp only [ast_expr_list.type_check, Option.bind_eq_bind, Option.bind_eq_some] at h
      obtain ⟨⟨e1, s'⟩, he, ⟨p1, s''⟩, hp, h⟩ := h
      cases h
      have h1 : s'.has_return = s.has_return := by
        split at he
        · cases he; rfl
        · simp only [Option.bind_eq_bind, Option.bind_eq_some] at he
          obtain ⟨⟨e', t', s3⟩, hx, he⟩ := he
          cases he
          exact expression_type_check_has_return sym_tab last _ _ _ _ hx
      have h2 : s''.has_return = s'.has_return := by
        split at hp
        · cases hp; rfl
        · exact expr_list_type_check_has_return sym_tab p _ _ _ hp
      rw [h2, h1]
end

theorem check_parameters_has_return (sym_tab : symbol_table) (call_id : ast_id)
    (param_list p1 : ast_expr_list) (s s1 : checker_state)
    (h : check_parameters sym_tab call_id param_list s = some (p1, s1)) :
    s1.has_return = s.has_return := by
  unfold check_parameters at h
  simp only [Option.bind_eq_bind, Option.bind_eq_some] at h
  obtain ⟨⟨p', s'⟩, hp, hm⟩ := h
  rw [check_parameters_match_has_return _ _ _ _ _ _ hm]
  split at hp
  · cases hp; rfl
  · exact expr_list_type_check_has_return sym_tab param_list _ _ _ hp

mutual
theorem statement_type_check_has_return (sym_tab : symbol_table) :
    ∀ (x x1 : ast_statement) (s s1 : checker_state) (t : sym_index),
      x.contains_return = false → x.type_check sym_tab s = some (x1, t, s1) →
      s1.has_return = s.has_return
  | .NULL, x1, s, s1, t, _, h => by simp [ast_statement.type_check] at h
  | .ast_assign pos lhs rhs, x1, s, s1, t, _, h => by
      simp only [ast_statement.type_check, Option.bind_eq_bind, Option.bind_eq_some] at h
      obtain ⟨⟨l1, lt, s'⟩, hl, ⟨r1, rt, s''⟩, hr, h⟩ := h
      have h1 := expression_type_check_has_return sym_tab lhs _ _ _ _ hl
      have h2 := expression_type_check_has_return sym_tab rhs _ _ _ _ hr
      split at h
      · simp only [Option.bind_eq_bind, Option.bind_eq_some] at h
        obtain ⟨_, _, h⟩ := h
        cases h; rw [h2, h1]
      · split at h
        · simp only [Option.bind_eq_bind, Option.bind_eq_some] at h
          obtain ⟨_, _, h⟩ := h
          cases h; rw [h2, h1]
        · cases h; rw [type_error_has_return, h2, h1]
  | .ast_if pos condition body elsif_list else_body, x1, s, s1, t, hc, h => by
      simp only [ast_statement.contains_return, Bool.or_eq_false_iff] at hc
      obtain ⟨⟨hc1, hc2⟩, hc3⟩ := hc
      simp only [ast_statement.type_check, Option.bind_eq_bind, Option.bind_eq_some] at h
      obtain ⟨⟨c1, ct, s'⟩, hcond, ⟨b1, bt, s''⟩, hb, h⟩ := h
      have h1 := expression_type_check_has_return sym_tab condition _ _ _ _ hcond
      have h2 := stmt_list_type_check_has_return sym_tab body _ _ _ _ hc1 hb
      split at h
      · simp only [Option.bind_eq_bind, Option.bind_eq_some] at h
        obtain ⟨_, _, h⟩ := h
        cases h; rw [type_error_has_return, h2, h1]
      · simp only [Option.bind_eq_bind, Option.bind_eq_some] at h
        obtain ⟨⟨e1, s3⟩, he, ⟨eb1, s4⟩, heb, h⟩ := h
        cases h
        have h3 : s3.has_return = s''.has_return := by
          split at he
          · cases he; rfl
          · simp only [Option.bind_eq_bind, Option.bind_eq_some] at he
            obtain ⟨⟨l', t', s5⟩, hx, he⟩ := he
            cases he
            exact elsif_list_type_check_has_return sym_tab elsif_list _ _ _ _ hc2 hx
        have h4 : s4.has_return = s3.has_return := by
          split at heb
          · cases heb; rfl
          · simp only [Option.bind_eq_bind, Option.bind_eq_some] at heb
            obtain ⟨⟨l', t', s5⟩, hx, heb⟩ := heb
            cases heb
            exact stmt_list_type_check_has_return sym_tab else_body _ _ _ _ hc3 hx
        rw [h4, h3, h2, h1]
  | .ast_while pos condition body, x1, s, s1, t, hc, h => by
      simp only [ast_statement.contains_return] at hc
      simp only [ast_statement.type_check, Option.bind_eq_bind, Option.bind_eq_some] at h
      obtain ⟨⟨c1, ct, s'⟩, hcond, s2, hs2, ⟨b1, s3⟩, hb, h⟩ := h
      have h1 := expression_type_check_has_return sym_tab condition _ _ _ _ hcond
      cases h
      have h2 : s2.has_return = s'.has_return := by
        split at hs2
        · simp only [Option.bind_eq_bind, Option.bind_eq_some] at hs2
          obtain ⟨_, _, hs2⟩ := hs2
          cases hs2; rfl
        · cases hs2; rfl
      have h3 : s3.has_return = s2.has_return := by
        split at hb
        · cases hb; rfl
        · simp only [Option.bind_eq_bind, Option.bind_eq_some] at hb
          obtain ⟨⟨l', t', s5⟩, hx, hb⟩ := hb
          cases hb
          exact stmt_list_type_check_has_return sym_tab body _ _ _ _ hc hx
      rw [h3, h2, h1]
  | .ast_return pos value, x1, s, s1, t, hc, h => by
      simp [ast_statement.contains_return] at hc
  | .ast_procedurecall pos id pl, x1, s, s1, t, _, h => by
      simp only [ast_statement.type_check, Option.bind_eq_bind, Option.bind_eq_some] at h
      obtain ⟨⟨p1, s'⟩, hp, h⟩ := h
      cases h
      exact check_parameters_has_return _ _ _ _ _ _ hp
theorem stmt_list_type_check_has_return (sym_tab : symbol_table) :
    ∀ (l l1 : ast_stmt_list) (s s1 : checker_state) (t : sym_index),
      l.contains_return = false → l.type_check sym_tab s = some (l1, t, s1) →
      s1.has_return = s.has_return
  | .NULL, l1, s, s1, t, _, h => by simp [ast_stmt_list.type_check] at h
  | .node pos last p, l1, s, s1, t, hc, h => by
      simp only [ast_stmt_list.contains_return, Bool.or_eq_false_iff] at hc
      obtain ⟨hc1, hc2⟩ := hc
      simp only [ast_stmt_list.type_check, Option.bind_eq_bind, Option.bind_eq_some] at h
      obtain ⟨⟨x1, s'⟩, hx, ⟨p1, s''⟩, hp, h⟩ := h
      cases h
      have h1 : s'.has_return = s.has_return := by
        split at hx
        · cases hx; rfl
        · simp only [Option.bind_eq_bind, Option.bind_eq_some] at hx
          obtain ⟨⟨l', t', s5⟩, hy, hx⟩ := hx
          cases hx
          exact statement_type_check_has_return sym_tab last _ _ _ _ hc1 hy
      have h2 : s''.has_return = s'.has_return := by
        split at hp
        · cases hp; rfl
        · simp only [Option.bind_eq_bind, Option.bind_eq_some] at hp
          obtain ⟨⟨l', t', s5⟩, hy, hp⟩ := hp
          cases hp
          exact stmt_list_type_check_has_return sym_tab p _ _ _ _ hc2 hy
      rw [h2, h1]
theorem elsif_list_type_check_has_return (sym_tab : symbol_table) :
    ∀ (l l1 : ast_elsif_list) (s s1 : checker_state) (t : sym_index),
      l.contains_return = false → l.type_check sym_tab s = some (l1, t, s1) →
      s1.has_return = s.has_return
  | .NULL, l1, s, s1, t, _, h => by simp [ast_elsif_list.type_check] at h
  | .node pos .NULL p, l1, s, s1, t, _, h => by
      simp only [ast_elsif_list.type_check] at h
      split at h
      · cases h; rfl
      · simp at h
  | .node pos (.node epos condition body) p, l1, s, s1, t, hc, h => by
      simp only [ast_elsif_list.contains_return, ast_elsif.contains_return,
        Bool.or_eq_false_iff] at hc
      obtain ⟨hc1, hc2⟩ := hc
      simp only [ast_elsif_list.type_check] at h
      split at h
      · cases h; rfl
      · simp only [Option.bind_eq_bind, Option.bind_eq_some] at h
        obtain ⟨⟨b1, bt, s'⟩, hb, ⟨c1, ct, s''⟩, hcond, h⟩ := h
        have h1 := stmt_list_type_check_has_return sym_tab body _ _ _ _ hc1 hb
        have h2 := expression_type_check_has_return sym_tab condition _ _ _ _ hcond
        split at h
        · cases h; rw [h2, h1]
        · simp only [Option.bind_eq_bind, Option.bind_eq_some] at h
          obtain ⟨⟨p1, pt, s3⟩, hp, h⟩ := h
          cases h
          rw [elsif_list_type_check_has_return sym_tab p _ _ _ _ hc2 hp, h2, h1]
end

/-- C9: for a body that contains no return statement and whose own check reports no type
error, `do_typecheck` reports exactly one type error, "A function must return a value."
(at the position of the body), when the environment is a function, and none when it is a
procedure; for the null body it reports that one error, without a position, for a function
and none for a procedure. -/
theorem do_typecheck_function_without_return (sym_tab : symbol_table) (env : symbol)
    (s : checker_state) :
    (env.tag = sym_type.SYM_FUNC →
      do_typecheck sym_tab env .NULL s =
        some (.NULL,
          ⟨s.errors ++ [⟨none, [.text "A function must return a value.\n"]⟩], false⟩))
    ∧ (env.tag = sym_type.SYM_PROC →
      do_typecheck sym_tab env .NULL s = some (.NULL, ⟨s.errors, false⟩))
    ∧ (∀ (body body1 : ast_stmt_list) (t : sym_index) (s1 : checker_state),
        body.contains_return = false →
        body.type_check sym_tab ⟨s.errors, false⟩ = some (body1, t, s1) →
        s1.errors = s.errors →
        (env.tag = sym_type.SYM_FUNC →
          do_typecheck sym_tab env body s =
            some (body1,
              ⟨s.errors ++ [⟨body.pos, [.text "A function must return a value.\n"]⟩],
                false⟩))
        ∧ (env.tag = sym_type.SYM_PROC →
          do_typecheck sym_tab env body s = some (body1, ⟨s.errors, false⟩))) := by
  refine ⟨?_, ?_, ?_⟩
  · intro he
    simp [do_typecheck, ast_stmt_list.isNull, he, type_error]
  · intro he
    simp [do_typecheck, ast_stmt_list.isNull, he]
  · intro body body1 t s1 hc hb herr
    have hret : s1.has_return = false :=
      stmt_list_type_check_has_return sym_tab body _ _ _ _ hc hb
    have hs1 : s1 = ⟨s.errors, false⟩ := by
      cases s1
      simp only [checker_state.mk.injEq]
      exact ⟨herr, hret⟩
    subst hs1
    have hnn : body.isNull = false := by
      cases body with
      | NULL => simp [ast_stmt_list.type_check] at hb
      | node _ _ _ => rfl
    constructor
    · intro he
      simp [do_typecheck, hnn, hb, he, type_error]
    · intro he
      simp [do_typecheck, hnn, hb, he]

/-- C9 for the body `x := 2`: one error in the function `f`, none in the procedure `p`; and
one error for the null body of a function. -/
theorem do_typecheck_function_without_return_witness :
    (ast_stmt_list.node pos0 (.ast_assign pos0 id_x (int_lit 2)) .NULL).contains_return = false
    ∧ (ast_stmt_list.node pos0 (.ast_assign pos0 id_x (int_lit 2)) .NULL).type_check
        sample_sym_tab ⟨state0.errors, false⟩ =
      some (.node pos0 (.ast_assign pos0 id_x (int_lit 2)) .NULL, void_type, state0)
    ∧ do_typecheck sample_sym_tab (sample_sym_tab.get_symbol 10)
        (.node pos0 (.ast_assign pos0 id_x (int_lit 2)) .NULL) state0 =
      some (.node pos0 (.ast_assign pos0 id_x (int_lit 2)) .NULL,
        ⟨[⟨some pos0, [.text "A function must return a value.\n"]⟩], false⟩)
    ∧ do_typecheck sample_sym_tab (sample_sym_tab.get_symbol 11)
        (.node pos0 (.ast_assign pos0 id_x (int_lit 2)) .NULL) state0 =
      some (.node pos0 (.ast_assign pos0 id_x (int_lit 2)) .NULL, ⟨[], false⟩)
    ∧ do_typecheck sample_sym_tab (sample_sym_tab.get_symbol 10) .NULL state0 =
      some (.NULL, ⟨[⟨none, [.text "A function must return a value.\n"]⟩], false⟩) :=
  ⟨by decide, by decide,
    ((do_typecheck_function_without_return sample_sym_tab (sample_sym_tab.get_symbol 10)
      state0).2.2 (.node pos0 (.ast_assign pos0 id_x (int_lit 2)) .NULL)
      (.node pos0 (.ast_assign pos0 id_x (int_lit 2)) .NULL) void_type state0
      (by decide) (by decide) rfl).1 (by decide),
    ((do_typecheck_function_without_return sample_sym_tab (sample_sym_tab.get_symbol 11)
      state0).2.2 (.node pos0 (.ast_assign pos0 id_x (int_lit 2)) .NULL)
      (.node pos0 (.ast_assign pos0 id_x (int_lit 2)) .NULL) void_type state0
      (by decide) (by decide) rfl).2 (by decide),
    (do_typecheck_function_without_return sample_sym_tab (sample_sym_tab.get_symbol 10)
      state0).1 (by decide)⟩

/-! ## Idempotence of the optimizer -/

theorem fold_constants_literal (sym_tab : symbol_table) (e : ast_expression)
    (h : is_literal e = true) : fold_constants sym_tab e = some e := by
  cases e <;> simp [is_literal] at h <;> simp [fold_constants]

theorem fold_binop_shape (tag : binop_tag) (pos : position_information) (type : sym_index)
    (left right res : ast_expression) (f : Double → Double → Option Double)
    (h : fold_binop tag pos type left right f = some res) :
    is_literal res = true ∨ res = .ast_binaryoperation tag pos type left right := by
  cases hm : matching_literals type left right with
  | true => exact Or.inl (fold_binop_matched tag pos type left right res f hm h).1
  | false =>
    rw [fold_binop_unmatched tag pos type left right f hm] at h
    cases h
    exact Or.inr rfl

theorem fold_constants_idempotent (sym_tab : symbol_table) :
    ∀ (e e1 : ast_expression), fold_constants sym_tab e = some e1 →
      fold_constants sym_tab e1 = some e1
  | .NULL, e1, h => by simp [fold_constants] at h
  | .ast_id id, e1, h => by
      simp [fold_constants, fold_ast_const] at h
      subst h
      simp [fold_constants, fold_ast_const]
  | .ast_indexed pos type id index, e1, h => by
      simp [fold_constants] at h; subst h; simp [fold_constants]
  | .ast_integer pos type v, e1, h => by
      simp [fold_constants] at h; subst h; simp [fold_constants]
  | .ast_real pos type v, e1, h => by
      simp [fold_constants] at h; subst h; simp [fold_constants]
  | .ast_cast pos type e, e1, h => by
      simp [fold_constants] at h; subst h; simp [fold_constants]
  | .ast_uminus pos type e, e1, h => by
      simp [fold_constants] at h; subst h; simp [fold_constants]
  | .ast_not pos type e, e1, h => by
      simp [fold_constants] at h; subst h; simp [fold_constants]
  | .ast_functioncall pos type id pl, e1, h => by
      simp [fold_constants] at h; subst h; simp [fold_constants]
  | .ast_binaryrelation tag pos type l r, e1, h => by
      simp [fold_constants] at h; subst h; simp [fold_constants]
  | .ast_binaryoperation tag pos type l r, e1, h => by
      simp only [fold_constants, Option.bind_eq_bind, Option.bind_eq_some] at h
      obtain ⟨l1, hl, r1, hr, h⟩ := h
      have ihl := fold_constants_idempotent sym_tab l l1 hl
      have ihr := fold_constants_idempotent sym_tab r r1 hr
      cases hm : matching_literals type l1 r1 with
      | true =>
        exact fold_constants_literal sym_tab e1
          (fold_binop_matched tag pos type l1 r1 e1 _ hm h).1
      | false =>
        rw [fold_binop_unmatched tag pos type l1 r1 _ hm] at h
        cases h
        rw [fold_constants_binop_eq sym_tab tag pos type l1 r1 l1 r1 ihl ihr]
        exact fold_binop_unmatched tag pos type l1 r1 _ hm

theorem fold_constants_not_null (sym_tab : symbol_table) (e e1 : ast_expression)
    (h : fold_constants sym_tab e = some e1) : e1.isNull = false := by
  cases e with
  | NULL => simp [fold_constants] at h
  | ast_id id => simp [fold_constants, fold_ast_const] at h; subst h; rfl
  | ast_binaryoperation tag pos type l r =>
    simp only [fold_constants, Option.bind_eq_bind, Option.bind_eq_some] at h
    obtain ⟨l1, _, r1, _, h⟩ := h
    rcases fold_binop_shape tag pos type l1 r1 e1 _ h with h1 | h1
    · cases e1 <;> simp [is_literal] at h1 <;> rfl
    · subst h1; rfl
  | _ => simp [fold_constants] at h; subst h; rfl

theorem fold_constants_of_not_binop (sym_tab : symbol_table) (e : ast_expression)
    (hn : e.isNull = false) (hb : is_binop e = false) : fold_constants sym_tab e = some e := by
  cases e with
  | NULL => simp [ast_expression.isNull] at hn
  | ast_id id => simp [fold_constants, fold_ast_const]
  | ast_binaryoperation tag pos type l r => cases tag <;> simp [is_binop] at hb
  | _ => simp [fold_constants]

theorem optimize_of_binop (sym_tab : symbol_table) (e : ast_expression)
    (hb : is_binop e = true) : e.optimize sym_tab = some e := by
  cases e with
  | ast_binaryoperation tag pos type l r => simp [ast_expression.optimize]
  | _ => simp [is_binop] at hb

theorem optimize_of_literal (sym_tab : symbol_table) (e : ast_expression)
    (h : is_literal e = true) : e.optimize sym_tab = some e := by
  cases e <;> simp [is_literal] at h <;> simp [ast_expression.optimize]

/-- After `optimize` and `fold_constants`, a second `optimize` changes nothing, provided
`optimize` is idempotent on the expression at hand. -/
theorem optimize_after_fold (sym_tab : symbol_table) (e1 e2 : ast_expression)
    (h1 : e1.optimize sym_tab = some e1) (h2 : fold_constants sym_tab e1 = some e2) :
    e2.optimize sym_tab = some e2 := by
  cases hb : is_binop e1 with
  | false =>
    have hn : e1.isNull = false := by
      cases e1 with
      | NULL => simp [fold_constants] at h2
      | _ => rfl
    rw [fold_constants_of_not_binop sym_tab e1 hn hb] at h2
    cases h2
    exact h1
  | true =>
    cases e1 with
    | ast_binaryoperation tag pos type l r =>
      simp only [fold_constants, Option.bind_eq_bind, Option.bind_eq_some] at h2
      obtain ⟨l1, _, r1, _, h⟩ := h2
      rcases fold_binop_shape tag pos type l1 r1 e2 _ h with h3 | h3
      · exact optimize_of_literal sym_tab e2 h3
      · subst h3; simp [ast_expression.optimize]
    | _ => simp [is_binop] at hb

mutual
theorem expression_optimize_idempotent (sym_tab : symbol_table) :
    ∀ (e e1 : ast_expression), e.optimize sym_tab = some e1 →
      e1.optimize sym_tab = some e1 ∧ e1.isNull = false
  | .NULL, e1, h => by simp [ast_expression.optimize] at h
  | .ast_id id, e1, h => by
      simp [ast_expression.optimize] at h; subst h
      simp [ast_expression.optimize, ast_expression.isNull]
  | .ast_indexed pos type id index, e1, h => by
      simp only [ast_expression.optimize, Option.bind_eq_bind, Option.bind_eq_some] at h
      obtain ⟨i1, hi, h⟩ := h
      cases h
      simp [ast_expression.optimize, fold_constants_idempotent sym_tab index i1 hi,
        ast_expression.isNull]
  | .ast_integer pos type v, e1, h => by
      simp [ast_expression.optimize] at h; subst h
      simp [ast_expression.optimize, ast_expression.isNull]
  | .ast_real pos type v, e1, h => by
      simp [ast_expression.optimize] at h; subst h
      simp [ast_expression.optimize, ast_expression.isNull]
  | .ast_cast pos type e, e1, h => by
      simp [ast_expression.optimize] at h; subst h
      simp [ast_expression.optimize, ast_expression.isNull]
  | .ast_uminus pos type e, e1, h => by
      simp only [ast_expression.optimize, Option.bind_eq_bind, Option.bind_eq_some] at h
      obtain ⟨x1, hx, x2, hf, h⟩ := h
      cases h
      have ih := (expression_optimize_idempotent sym_tab e x1 hx).1
      simp [ast_expression.optimize, optimize_after_fold sym_tab x1 x2 ih hf,
        fold_constants_idempotent sym_tab x1 x2 hf, ast_expression.isNull]
  | .ast_not pos type e, e1, h => by
      simp only [ast_expression.optimize, Option.bind_eq_bind, Option.bind_eq_some] at h
      obtain ⟨x1, hx, x2, hf, h⟩ := h
      cases h
      have ih := (expression_optimize_idempotent sym_tab e x1 hx).1
      simp [ast_expression.optimize, optimize_after_fold sym_tab x1 x2 ih hf,
        fold_constants_idempotent sym_tab x1 x2 hf, ast_expression.isNull]
  | .ast_functioncall pos type id pl, e1, h => by
      simp only [ast_expression.optimize] at h
      split at h
      · rename_i hnull
        cases h
        simp [ast_expression.optimize, hnull, ast_expression.isNull]
      · simp only [Option.bind_eq_bind, Option.bind_eq_some] at h
        obtain ⟨p1, hp, h⟩ := h
        cases h
        have ih := expr_list_optimize_idempotent sym_tab pl p1 hp
        simp [ast_expression.optimize, ih.1, ih.2, ast_expression.isNull]
  | .ast_binaryoperation tag pos type l r, e1, h => by
      simp [ast_expression.optimize] at h; subst h
      simp [ast_expression.optimize, ast_expression.isNull]
  | .ast_binaryrelation tag pos type l r, e1, h => by
      simp only [ast_expression.optimize, Option.bind_eq_bind, Option.bind_eq_some] at h
      obtain ⟨l1, hl, r1, hr, l2, hfl, r2, hfr, h⟩ := h
      cases h
      have ihl := (expression_optimize_idempotent sym_tab l l1 hl).1
      have ihr := (expression_optimize_idempotent sym_tab r r1 hr).1
      simp [ast_expression.optimize, optimize_after_fold sym_tab l1 l2 ihl hfl,
        optimize_after_fold sym_tab r1 r2 ihr hfr,
        fold_constants_idempotent sym_tab l1 l2 hfl,
        fold_constants_idempotent sym_tab r1 r2 hfr, ast_expression.isNull]
theorem expr_list_optimize_idempotent (sym_tab : symbol_table) :
    ∀ (l l1 : ast_expr_list), l.optimize sym_tab = some l1 →
      l1.optimize sym_tab = some l1 ∧ l1.isNull = false
  | .NULL, l1, h => by simp [ast_expr_list.optimize] at h
  | .node pos last p, l1, h => by
      simp only [ast_expr_list.optimize, Option.bind_eq_bind, Option.bind_eq_some] at h
      obtain ⟨p1, hp, x1, hx, h⟩ := h
      cases h
      have h1 : (if p1.isNull then some p1 else p1.optimize sym_tab) = some p1 := by
        split at hp
        · rename_i hnull
          cases hp
          simp [hnull]
        · have ih := expr_list_optimize_idempotent sym_tab p p1 hp
          simp [ih.1, ih.2]
      have h2 : (if x1.isNull then some x1 else x1.optimize sym_tab) = some x1 := by
        split at hx
        · rename_i hnull
          cases hx
          simp [hnull]
        · have ih := expression_optimize_idempotent sym_tab last x1 hx
          simp [ih.1, ih.2]
      refine ⟨?_, rfl⟩
      simp only [ast_expr_list.optimize, h1, h2, Option.bind_eq_bind, Option.some_bind,
        Option.pure_def]
end

theorem optimize_fold_step (sym_tab : symbol_table) (e x1 x2 : ast_expression)
    (hx : e.optimize sym_tab = some x1) (hf : fold_constants sym_tab x1 = some x2) :
    x2.optimize sym_tab = some x2 ∧ fold_constants sym_tab x2 = some x2
      ∧ x2.isNull = false :=
  ⟨optimize_after_fold sym_tab x1 x2 (expression_optimize_idempotent sym_tab e x1 hx).1 hf,
    fold_constants_idempotent sym_tab x1 x2 hf, fold_constants_not_null sym_tab x1 x2 hf⟩

mutual
theorem statement_optimize_idempotent (sym_tab : symbol_table) :
    ∀ (x x1 : ast_statement), x.optimize sym_tab = some x1 →
      x1.optimize sym_tab = some x1 ∧ x1.isNull = false
  | .NULL, x1, h => by simp [ast_statement.optimize] at h
  | .ast_assign pos lhs rhs, x1, h => by
      simp only [ast_statement.optimize, Option.bind_eq_bind, Option.bind_eq_some] at h
      obtain ⟨r1, hr, r2, hf, h⟩ := h
      cases h
      obtain ⟨h1, h2, _⟩ := optimize_fold_step sym_tab rhs r1 r2 hr hf
      refine ⟨?_, rfl⟩
      simp only [ast_statement.optimize, h1, h2, Option.bind_eq_bind, Option.some_bind,
        Option.pure_def]
  | .ast_if pos condition body elsif_list else_body, x1, h => by
      simp only [ast_statement.optimize, Option.bind_eq_bind, Option.bind_eq_some] at h
      obtain ⟨c1, hc, c2, hf, b1, hb, e1, he, eb1, heb, h⟩ := h
      cases h
      obtain ⟨h1, h2, _⟩ := optimize_fold_step sym_tab condition c1 c2 hc hf
      have h3 := (stmt_list_optimize_idempotent sym_tab body b1 hb).1
      have h4 : (if e1.isNull then some e1 else e1.optimize sym_tab) = some e1 := by
        split at he
        · rename_i hnull
          cases he
          simp [hnull]
        · have ih := elsif_list_optimize_idempotent sym_tab elsif_list e1 he
          simp [ih.1, ih.2]
      have h5 : (if eb1.isNull then some eb1 else eb1.optimize sym_tab) = some eb1 := by
        split at heb
        · rename_i hnull
          cases heb
          simp [hnull]
        · have ih := stmt_list_optimize_idempotent sym_tab else_body eb1 heb
          simp [ih.1, ih.2]
      refine ⟨?_, rfl⟩
      simp only [ast_statement.optimize, h1, h2, h3, h4, h5, Option.bind_eq_bind,
        Option.some_bind, Option.pure_def]
  | .ast_while pos condition body, x1, h => by
      simp only [ast_statement.optimize, Option.bind_eq_bind, Option.bind_eq_some] at h
      obtain ⟨c1, hc, c2, hf, b1, hb, h⟩ := h
      cases h
      obtain ⟨h1, h2, _⟩ := optimize_fold_step sym_tab condition c1 c2 hc hf
      have h3 := (stmt_list_optimize_idempotent sym_tab body b1 hb).1
      refine ⟨?_, rfl⟩
      simp only [ast_statement.optimize, h1, h2, h3, Option.bind_eq_bind, Option.some_bind,
        Option.pure_def]
  | .ast_return pos value, x1, h => by
      simp only [ast_statement.optimize] at h
      split at h
      · rename_i hnull
        cases h
        refine ⟨?_, rfl⟩
        simp only [ast_statement.optimize, hnull, if_true]
      · simp only [Option.bind_eq_bind, Option.bind_eq_some] at h
        obtain ⟨v1, hv, v2, hf, h⟩ := h
        cases h
        obtain ⟨h1, h2, h3⟩ := optimize_fold_step sym_tab value v1 v2 hv hf
        refine ⟨?_, rfl⟩
        simp [ast_statement.optimize, h1, h2, h3]
  | .ast_procedurecall pos id pl, x1, h => by
      simp only [ast_statement.optimize] at h
      split at h
      · rename_i hnull
        cases h
        refine ⟨?_, rfl⟩
        simp only [ast_statement.optimize, hnull, if_true]
      · simp only [Option.bind_eq_bind, Option.bind_eq_some] at h
        obtain ⟨p1, hp, h⟩ := h
        cases h
        have ih := expr_list_optimize_idempotent sym_tab pl p1 hp
        refine ⟨?_, rfl⟩
        simp [ast_statement.optimize, ih.1, ih.2]
theorem stmt_list_optimize_idempotent (sym_tab : symbol_table) :
    ∀ (l l1 : ast_stmt_list), l.optimize sym_tab = some l1 →
      l1.optimize sym_tab = some l1 ∧ l1.isNull = false
  | .NULL, l1, h => by simp [ast_stmt_list.optimize] at h
  | .node pos last p, l1, h => by
      simp only [ast_stmt_list.optimize, Option.bind_eq_bind, Option.bind_eq_some] at h
      obtain ⟨p1, hp, x1, hx, h⟩ := h
      cases h
      have h1 : (if p1.isNull then some p1 else p1.optimize sym_tab) = some p1 := by
        split at hp
        · rename_i hnull
          cases hp
          simp [hnull]
        · have ih := stmt_list_optimize_idempotent sym_tab p p1 hp
          simp [ih.1, ih.2]
      have h2 : (if x1.isNull then some x1 else x1.optimize sym_tab) = some x1 := by
        split at hx
        · rename_i hnull
          cases hx
          simp [hnull]
        · have ih := statement_optimize_idempotent sym_tab last x1 hx
          simp [ih.1, ih.2]
      refine ⟨?_, rfl⟩
      simp only [ast_stmt_list.optimize, h1, h2, Option.bind_eq_bind, Option.some_bind,
        Option.pure_def]
theorem elsif_optimize_idempotent (sym_tab : symbol_table) :
    ∀ (x x1 : ast_elsif), x.optimize sym_tab = some x1 →
      x1.optimize sym_tab = some x1 ∧ x1.isNull = false
  | .NULL, x1, h => by simp [ast_elsif.optimize] at h
  | .node pos condition body, x1, h => by
      simp only [ast_elsif.optimize, Option.bind_eq_bind, Option.bind_eq_some] at h
      obtain ⟨c1, hc, b1, hb, c2, hf, h⟩ := h
      cases h
      obtain ⟨h1, h2, _⟩ := optimize_fold_step sym_tab condition c1 c2 hc hf
      have h3 : (if b1.isNull then some b1 else b1.optimize sym_tab) = some b1 := by
        split at hb
        · rename_i hnull
          cases hb
          simp [hnull]
        · have ih := stmt_list_optimize_idempotent sym_tab body b1 hb
          simp [ih.1, ih.2]
      refine ⟨?_, rfl⟩
      simp only [ast_elsif.optimize, h1, h2, h3, Option.bind_eq_bind, Option.some_bind,
        Option.pure_def]
theorem elsif_list_optimize_idempotent (sym_tab : symbol_table) :
    ∀ (l l1 : ast_elsif_list), l.optimize sym_tab = some l1 →
      l1.optimize sym_tab = some l1 ∧ l1.isNull = false
  | .NULL, l1, h => by simp [ast_elsif_list.optimize] at h
  | .node pos last p, l1, h => by
      simp only [ast_elsif_list.optimize, Option.bind_eq_bind, Option.bind_eq_some] at h
      obtain ⟨p1, hp, x1, hx, h⟩ := h
      cases h
      have h1 : (if p1.isNull then some p1 else p1.optimize sym_tab) = some p1 := by
        split at hp
        · rename_i hnull
          cases hp
          simp [hnull]
        · have ih := elsif_list_optimize_idempotent sym_tab p p1 hp
          simp [ih.1, ih.2]
      have h2 : (if x1.isNull then some x1 else x1.optimize sym_tab) = some x1 := by
        split at hx
        · rename_i hnull
          cases hx
          simp [hnull]
        · have ih := elsif_optimize_idempotent sym_tab last x1 hx
          simp [ih.1, ih.2]
      refine ⟨?_, rfl⟩
      simp only [ast_elsif_list.optimize, h1, h2, Option.bind_eq_bind, Option.some_bind,
        Option.pure_def]
end

/-- C6: `do_optimize` is idempotent: running it on the result of a run gives that same
result, so two runs in succession equal one run (also when the run has no result, which a
statement list with a null loop body causes). -/
theorem do_optimize_idempotent (sym_tab : symbol_table) (t : ast_stmt_list) :
    (do_optimize sym_tab t).bind (do_optimize sym_tab) = do_optimize sym_tab t
    ∧ (∀ t1, do_optimize sym_tab t = some t1 → do_optimize sym_tab t1 = some t1) := by
  have key : ∀ t1, do_optimize sym_tab t = some t1 → do_optimize sym_tab t1 = some t1 := by
    intro t1 h
    unfold do_optimize at h ⊢
    split at h
    · rename_i hnull
      cases h
      simp [hnull]
    · have ih := stmt_list_optimize_idempotent sym_tab t t1 h
      simp [ih.1, ih.2]
  refine ⟨?_, key⟩
  cases h : do_optimize sym_tab t with
  | none => rfl
  | some t1 => simpa using key t1 h

/-- C6 at the body `x := 2 + 3`: the first run folds the sum, a second run returns the
folded body unchanged. -/
theorem do_optimize_idempotent_witness :
    do_optimize sample_sym_tab
        (.node pos0 (.ast_assign pos0 id_x
          (.ast_binaryoperation .AST_ADD pos1 integer_type (int_lit 2) (int_lit 3))) .NULL)
      = some (.node pos0 (.ast_assign pos0 id_x (.ast_integer pos1 integer_type 5)) .NULL)
    ∧ do_optimize sample_sym_tab
        (.node pos0 (.ast_assign pos0 id_x (.ast_integer pos1 integer_type 5)) .NULL)
      = some (.node pos0 (.ast_assign pos0 id_x (.ast_integer pos1 integer_type 5)) .NULL) :=
  ⟨by decide,
    (do_optimize_idempotent sample_sym_tab
      (.node pos0 (.ast_assign pos0 id_x
        (.ast_binaryoperation .AST_ADD pos1 integer_type (int_lit 2) (int_lit 3))) .NULL)).2
      _ (by decide)⟩

/-! ## Parameter matching and calls -/

theorem chk_param_cast_step (env : ast_id) (fpreceding : parameter_symbol)
    (pos ppos apos : position_information) (last_expr plast : ast_expression)
    (ppreceding : ast_expr_list) (s : checker_state)
    (ht : last_expr.type = some integer_type) (hp : last_expr.pos = some apos) :
    chk_param env (.node real_type fpreceding)
        (.node pos last_expr (.node ppos plast ppreceding)) s =
      (chk_param env fpreceding (.node ppos (new_ast_cast apos last_expr) ppreceding) s).map
        (fun r => (r.1, .node pos last_expr r.2.1, r.2.2)) := by
  have hnn : last_expr.isNull = false := by
    cases last_expr <;> simp [ast_expression.type, ast_expression.isNull] at ht ⊢
  simp only [chk_param, hnn, ht, hp, integer_ne_real.symm, Option.bind_eq_bind,
    Option.some_bind, Bool.false_eq_true, if_false, and_self, if_true]
  cases chk_param env fpreceding (.node ppos (new_ast_cast apos last_expr) ppreceding) s with
  | none => rfl
  | some r => rfl

theorem chk_param_cast_first_argument (env : ast_id) (fpreceding : parameter_symbol)
    (pos : position_information) (last_expr : ast_expression) (s : checker_state)
    (ht : last_expr.type = some integer_type) :
    chk_param env (.node real_type fpreceding) (.node pos last_expr .NULL) s = none := by
  have hnn : last_expr.isNull = false := by
    cases last_expr <;> simp [ast_expression.type, ast_expression.isNull] at ht ⊢
  simp [chk_param, hnn, ht, integer_ne_real.symm]

/-- C11 on the code: for the call `g(2)` of `g(a : real)` the cast is to be stored in the
list node before the only argument, which does not exist, and `chk_param` has no result;
for two real formal parameters and the arguments `(2.5, 2)` it succeeds, but the cast of
`2` takes the place of the argument `2.5` and the argument `2` itself stays unwrapped. -/
theorem chk_param_cast_stored_in_preceding_node :
    chk_param call_g (.node real_type .NULL) (.node pos1 (int_lit 2) .NULL) state0 = none
    ∧ chk_param call_f (.node real_type (.node real_type .NULL))
        (.node pos1 (int_lit 2) (.node pos2 real_lit_2_5 .NULL)) state0
      = some (true,
          .node pos1 (int_lit 2) (.node pos2 (.ast_cast pos1 real_type (int_lit 2)) .NULL),
          state0) := by
  constructor <;> decide

theorem chk_param_discrepancy_step (env : ast_id) (fpreceding : parameter_symbol)
    (pos : position_information) (last_expr : ast_expression) (preceding : ast_expr_list)
    (s : checker_state) (t : sym_index)
    (ht : last_expr.type = some t) (hne : t ≠ integer_type) :
    chk_param env (.node integer_type fpreceding) (.node pos last_expr preceding) s =
      some (false, .node pos last_expr preceding,
        type_error (some env.pos)
          [.text "Type discrepancy between formal and actual parameters.\n"] s) := by
  have hnn : last_expr.isNull = false := by
    cases last_expr <;> simp [ast_expression.type, ast_expression.isNull] at ht ⊢
  have h1 : ¬ (integer_type = t) := fun h => hne h.symm
  simp [chk_param, hnn, ht, h1, hne, integer_ne_real]

theorem chk_param_discrepancy_at (env : ast_id) (formals : parameter_symbol) :
    ∀ (actuals : ast_expr_list) (s : checker_state), discrepancy_at formals actuals →
      chk_param env formals actuals s =
        some (false, actuals,
          type_error (some env.pos)
            [.text "Type discrepancy between formal and actual parameters.\n"] s) := by
  induction formals with
  | NULL =>
    intro actuals s h
    cases actuals <;> simp [discrepancy_at] at h
  | node ft fp ih =>
    intro actuals s h
    cases actuals with
    | NULL => simp [discrepancy_at] at h
    | node pos last p =>
      simp only [discrepancy_at] at h
      rcases h with ⟨hft, t, ht, hne⟩ | ⟨ht, hrest⟩
      · subst hft
        exact chk_param_discrepancy_step env fp pos last p s t ht hne
      · have hnn : last.isNull = false := by
          cases last <;> simp [ast_expression.type, ast_expression.isNull] at ht ⊢
        simp [chk_param, hnn, ht, ih p s hrest]

/-- C12: when the formal parameter is integer and the actual argument compared with it has
a type other than integer, `chk_param` reports exactly one "Type discrepancy between formal
and actual parameters" error, returns false and leaves the argument list as it is (no cast
is inserted); this holds at the last argument and, when the arguments after it have the
types of their formal parameters, at any argument. -/
theorem chk_param_integer_formal_discrepancy (env : ast_id) (s : checker_state) :
    (∀ (fpreceding : parameter_symbol) (pos : position_information)
        (last_expr : ast_expression) (preceding : ast_expr_list) (t : sym_index),
      last_expr.type = some t → t ≠ integer_type →
      chk_param env (.node integer_type fpreceding) (.node pos last_expr preceding) s =
        some (false, .node pos last_expr preceding,
          ⟨s.errors ++ [⟨some env.pos,
            [.text "Type discrepancy between formal and actual parameters.\n"]⟩],
            s.has_return⟩))
    ∧ (∀ (formals : parameter_symbol) (actuals : ast_expr_list),
      discrepancy_at formals actuals →
      chk_param env formals actuals s =
        some (false, actuals,
          ⟨s.errors ++ [⟨some env.pos,
            [.text "Type discrepancy between formal and actual parameters.\n"]⟩],
            s.has_return⟩)) := by
  constructor
  · intro fp pos last p t ht hne
    exact chk_param_discrepancy_step env fp pos last p s t ht hne
  · intro formals actuals h
    exact chk_param_discrepancy_at env formals actuals s h

/-- C12 for the call `q(2.5)` of `q(a : integer)`, and for one integer and one real formal
parameter against the arguments `(2.5, 2.5)`. -/
theorem chk_param_integer_formal_discrepancy_witness :
    chk_param call_q (.node integer_type .NULL) (.node pos1 real_lit_2_5 .NULL) state0 =
      some (false, .node pos1 real_lit_2_5 .NULL,
        ⟨[⟨some pos0,
          [.text "Type discrepancy between formal and actual parameters.\n"]⟩], false⟩)
    ∧ discrepancy_at (.node real_type (.node integer_type .NULL))
        (.node pos1 real_lit_2_5 (.node pos2 real_lit_2_5 .NULL))
    ∧ chk_param call_f (.node real_type (.node integer_type .NULL))
        (.node pos1 real_lit_2_5 (.node pos2 real_lit_2_5 .NULL)) state0 =
      some (false, .node pos1 real_lit_2_5 (.node pos2 real_lit_2_5 .NULL),
        ⟨[⟨some pos0,
          [.text "Type discrepancy between formal and actual parameters.\n"]⟩], false⟩) :=
  ⟨(chk_param_integer_formal_discrepancy call_q state0).1 .NULL pos1 real_lit_2_5 .NULL
      real_type rfl (by decide),
    Or.inr ⟨rfl, Or.inl ⟨rfl, real_type, rfl, by decide⟩⟩,
    (chk_param_integer_formal_discrepancy call_f state0).2 _ _
      (Or.inr ⟨rfl, Or.inl ⟨rfl, real_type, rfl, by decide⟩⟩)⟩

theorem chk_param_at_most_one_error (env : ast_id) (formals : parameter_symbol) :
    ∀ (actuals a1 : ast_expr_list) (s s1 : checker_state) (b : Bool),
      chk_param env formals actuals s = some (b, a1, s1) →
      s1.errors = s.errors
      ∨ (b = false ∧ s1.errors = s.errors ++
          [⟨some env.pos, [.text "Invalid number of parameters\n"]⟩])
      ∨ (b = false ∧ s1.errors = s.errors ++
          [⟨some env.pos,
            [.text "Type discrepancy between formal and actual parameters.\n"]⟩]) := by
  induction formals with
  | NULL =>
    intro actuals a1 s s1 b h
    cases actuals with
    | NULL => simp [chk_param] at h; rw [← h.2.2]; exact Or.inl rfl
    | node pos last p =>
      simp [chk_param] at h
      rw [← h.2.2, ← h.1]
      exact Or.inr (Or.inl ⟨rfl, rfl⟩)
  | node ft fp ih =>
    intro actuals a1 s s1 b h
    cases actuals with
    | NULL =>
      simp [chk_param] at h
      rw [← h.2.2, ← h.1]
      exact Or.inr (Or.inl ⟨rfl, rfl⟩)
    | node pos last p =>
      simp only [chk_param] at h
      split at h
      · simp at h; rw [← h.2.2]; exact Or.inl rfl
      · simp only [Option.bind_eq_bind, Option.bind_eq_some] at h
        obtain ⟨atype, _, h⟩ := h
        split at h
        · simp only [Option.bind_eq_bind, Option.bind_eq_some] at h
          obtain ⟨⟨b', p1, s'⟩, hrec, h⟩ := h
          simp only [Option.pure_def, Option.some.injEq, Prod.mk.injEq] at h
          obtain ⟨rfl, _, rfl⟩ := h
          exact ih _ _ _ _ _ hrec
        · split at h
          · cases p with
            | NULL => simp at h
            | node ppos plast pp =>
              simp only [Option.bind_eq_bind, Option.bind_eq_some] at h
              obtain ⟨apos, _, ⟨b', p1, s'⟩, hrec, h⟩ := h
              simp only [Option.pure_def, Option.some.injEq, Prod.mk.injEq] at h
              obtain ⟨rfl, _, rfl⟩ := h
              exact ih _ _ _ _ _ hrec
          · split at h
            · simp at h
              rw [← h.2.2, ← h.1]
              exact Or.inr (Or.inr ⟨rfl, rfl⟩)
            · simp at h
              rw [← h.2.2]
              exact Or.inl rfl

theorem chk_param_silent_step (env : ast_id) (ftype : sym_index)
    (fpreceding : parameter_symbol) (pos : position_information)
    (last_expr : ast_expression) (preceding : ast_expr_list) (s : checker_state)
    (t : sym_index) (ht : last_expr.type = some t) (h1 : ftype ≠ t)
    (h2 : ¬ (ftype = real_type ∧ t = integer_type)) (h3 : ftype ≠ integer_type) :
    chk_param env (.node ftype fpreceding) (.node pos last_expr preceding) s =
      some (false, .node pos last_expr preceding, s) := by
  have hnn : last_expr.isNull = false := by
    cases last_expr <;> simp [ast_expression.type, ast_expression.isNull] at ht ⊢
  simp only [chk_param, hnn, ht, Option.bind_eq_bind, Option.some_bind, Bool.false_eq_true,
    if_false, h1, h2, h3, false_and]

theorem check_parameters_match_of_chk_param (sym_tab : symbol_table) (call_id : ast_id)
    (param_list a1 : ast_expr_list) (s s1 : checker_state) (b : Bool)
    (htag : (sym_tab.get_symbol call_id.sym_p).tag = sym_type.SYM_FUNC
      ∨ (sym_tab.get_symbol call_id.sym_p).tag = sym_type.SYM_PROC)
    (h : chk_param call_id (sym_tab.get_symbol call_id.sym_p).last_parameter param_list s
      = some (b, a1, s1)) :
    check_parameters_match sym_tab call_id param_list s = some (a1, s1) := by
  unfold check_parameters_match
  rcases htag with ht | ht
  · simp [ht, h]
  · simp [ht, h]

theorem chk_param_arith_reports (env : ast_id) (formals : parameter_symbol) :
    ∀ (actuals a1 : ast_expr_list) (s s1 : checker_state),
      formals.arith_typed = true → actuals.arith_typed = true →
      chk_param env formals actuals s = some (false, a1, s1) →
      s1.errors = s.errors ++ [⟨some env.pos, [.text "Invalid number of parameters\n"]⟩]
      ∨ s1.errors = s.errors ++
          [⟨some env.pos,
            [.text "Type discrepancy between formal and actual parameters.\n"]⟩] := by
  induction formals with
  | NULL =>
    intro actuals a1 s s1 _ _ h
    cases actuals with
    | NULL => simp [chk_param] at h
    | node pos last p =>
      simp [chk_param] at h
      rw [← h.2]
      exact Or.inl rfl
  | node ft fp ih =>
    intro actuals a1 s s1 hf ha h
    cases actuals with
    | NULL =>
      simp [chk_param] at h
      rw [← h.2]
      exact Or.inl rfl
    | node pos last p =>
      simp only [parameter_symbol.arith_typed, Bool.and_eq_true, Bool.or_eq_true,
        decide_eq_true_eq] at hf
      simp only [ast_expr_list.arith_typed, Bool.and_eq_true, Bool.or_eq_true,
        decide_eq_true_eq] at ha
      obtain ⟨hft, hfp⟩ := hf
      obtain ⟨hlt, hp⟩ := ha
      have hnn : last.isNull = false := by
        cases last with
        | NULL => simp [ast_expression.type] at hlt
        | _ => rfl
      obtain ⟨t, ht, htt⟩ : ∃ t, last.type = some t ∧ (t = integer_type ∨ t = real_type) := by
        rcases hlt with h1 | h1
        · exact ⟨integer_type, h1, Or.inl rfl⟩
        · exact ⟨real_type, h1, Or.inr rfl⟩
      simp only [chk_param, hnn, ht, Option.bind_eq_bind, Option.some_bind,
        Bool.false_eq_true, if_false] at h
      split at h
      · simp only [Option.bind_eq_some] at h
        obtain ⟨⟨b', p1, s'⟩, hrec, h⟩ := h
        simp only [Option.pure_def, Option.some.injEq, Prod.mk.injEq] at h
        obtain ⟨rfl, _, rfl⟩ := h
        exact ih _ _ _ _ hfp hp hrec
      · split at h
        · cases p with
          | NULL => simp at h
          | node ppos plast pp =>
            simp only [Option.bind_eq_some] at h
            obtain ⟨apos, _, ⟨b', p1, s'⟩, hrec, h⟩ := h
            simp only [Option.pure_def, Option.some.injEq, Prod.mk.injEq] at h
            obtain ⟨rfl, _, rfl⟩ := h
            refine ih _ _ _ _ hfp ?_ hrec
            simp only [ast_expr_list.arith_typed, Bool.and_eq_true, Bool.or_eq_true,
              decide_eq_true_eq] at hp ⊢
            exact ⟨Or.inr rfl, hp.2⟩
        · split at h
          · simp at h
            rw [← h.2]
            exact Or.inr rfl
          · rename_i h1 h2 h3
            exfalso
            rcases hft with hft | hft <;> rcases htt with htt | htt <;> subst hft <;>
              subst htt <;> simp_all

theorem chk_param_silent_at (env : ast_id) (formals : parameter_symbol) :
    ∀ (actuals : ast_expr_list) (s : checker_state), silent_at formals actuals →
      chk_param env formals actuals s = some (false, actuals, s) := by
  induction formals with
  | NULL =>
    intro actuals s h
    cases actuals <;> simp [silent_at] at h
  | node ft fp ih =>
    intro actuals s h
    cases actuals with
    | NULL => simp [silent_at] at h
    | node pos last p =>
      simp only [silent_at] at h
      rcases h with hnull | ⟨t, ht, h1, h2, h3⟩ | ⟨ht, hrest⟩
      · simp [chk_param, hnull]
      · exact chk_param_silent_step env ft fp pos last p s t ht h1 h2 h3
      · have hnn : last.isNull = false := by
          cases last <;> simp [ast_expression.type, ast_expression.isNull] at ht ⊢
        simp [chk_param, hnn, ht, ih p s hrest]

/-- C13, as amended: when `chk_param` returns false for a call whose formal parameters all
have the type integer or real and whose actual arguments are all present with the type
integer or real, it has reported exactly one type error for that call, the "Invalid number
of parameters" error or the "Type discrepancy" error.  For an arbitrary call it has
reported at most one of these, and none when, behind arguments that have the types of
their formal parameters, it stops at an absent argument or at an argument whose type
differs from that of its formal parameter where the formal parameter is not integer and
the pair is not a real formal parameter with an integer argument.  Whatever `chk_param`
returns, the type check of the call (a procedure call or a function call of a routine
symbol) completes with the state `chk_param` left, so that checking goes on. -/
theorem chk_param_failure_reports_one_error (sym_tab : symbol_table) (call_id : ast_id)
    (s : checker_state) :
    (∀ (formals : parameter_symbol) (actuals a1 : ast_expr_list) (s1 : checker_state),
      formals.arith_typed = true → actuals.arith_typed = true →
      chk_param call_id formals actuals s = some (false, a1, s1) →
      s1.errors = s.errors ++
          [⟨some call_id.pos, [.text "Invalid number of parameters\n"]⟩]
      ∨ s1.errors = s.errors ++
          [⟨some call_id.pos,
            [.text "Type discrepancy between formal and actual parameters.\n"]⟩])
    ∧ (∀ (formals : parameter_symbol) (actuals a1 : ast_expr_list) (s1 : checker_state),
      chk_param call_id formals actuals s = some (false, a1, s1) →
      s1.errors = s.errors
      ∨ s1.errors = s.errors ++
          [⟨some call_id.pos, [.text "Invalid number of parameters\n"]⟩]
      ∨ s1.errors = s.errors ++
          [⟨some call_id.pos,
            [.text "Type discrepancy between formal and actual parameters.\n"]⟩])
    ∧ (∀ (formals : parameter_symbol) (actuals : ast_expr_list),
      silent_at formals actuals →
      chk_param call_id formals actuals s = some (false, actuals, s))
    ∧ (∀ (pos : position_information) (type : sym_index)
        (param_list param_list1 a1 : ast_expr_list) (s0 s1 : checker_state) (b : Bool),
      ((sym_tab.get_symbol call_id.sym_p).tag = sym_type.SYM_FUNC
        ∨ (sym_tab.get_symbol call_id.sym_p).tag = sym_type.SYM_PROC) →
      (if param_list.isNull then some (param_list, s)
        else param_list.type_check sym_tab s) = some (param_list1, s0) →
      chk_param call_id (sym_tab.get_symbol call_id.sym_p).last_parameter param_list1 s0
        = some (b, a1, s1) →
      (ast_statement.ast_procedurecall pos call_id param_list).type_check sym_tab s =
        some (.ast_procedurecall pos call_id a1, void_type, s1)
      ∧ (ast_expression.ast_functioncall pos type call_id param_list).type_check sym_tab s =
        some (.ast_functioncall pos type call_id a1, call_id.type, s1)) := by
  refine ⟨?_, ?_, ?_, ?_⟩
  · intro formals actuals a1 s1 hf ha h
    exact chk_param_arith_reports call_id formals actuals a1 s s1 hf ha h
  · intro formals actuals a1 s1 h
    rcases chk_param_at_most_one_error call_id formals actuals a1 s s1 false h with
      h1 | ⟨_, h1⟩ | ⟨_, h1⟩
    · exact Or.inl h1
    · exact Or.inr (Or.inl h1)
    · exact Or.inr (Or.inr h1)
  · intro formals actuals h
    exact chk_param_silent_at call_id formals actuals s h
  · intro pos type pl pl1 a1 s0 s1 b htag hargs hchk
    have hm := check_parameters_match_of_chk_param sym_tab call_id pl1 a1 s0 s1 b htag hchk
    constructor
    · simp [ast_statement.type_check, check_parameters, hargs, hm]
    · simp [ast_expression.type_check, hargs, hm]

/-- C13, the amended statement for the call `q(2.5)` of `q(a : integer)`, where matching
fails and one error has been reported, and for the call `g(-(1.5 < 2.5))` of
`g(a : real)`, where the argument has the type void: matching fails without an error and
the check of the call completes. -/
theorem chk_param_failure_reports_one_error_witness :
    (parameter_symbol.node integer_type .NULL).arith_typed = true
    ∧ (ast_expr_list.node pos1 real_lit_2_5 .NULL).arith_typed = true
    ∧ chk_param call_q (.node integer_type .NULL) (.node pos1 real_lit_2_5 .NULL) state0 =
      some (false, .node pos1 real_lit_2_5 .NULL,
        ⟨[⟨some pos0,
          [.text "Type discrepancy between formal and actual parameters.\n"]⟩], false⟩)
    ∧ (([⟨some pos0, [.text "Type discrepancy between formal and actual parameters.\n"]⟩]
          : List type_error_report) =
        state0.errors ++ [⟨some call_q.pos, [.text "Invalid number of parameters\n"]⟩]
      ∨ ([⟨some pos0, [.text "Type discrepancy between formal and actual parameters.\n"]⟩]
          : List type_error_report) =
        state0.errors ++ [⟨some call_q.pos,
          [.text "Type discrepancy between formal and actual parameters.\n"]⟩])
    ∧ args_neg_rel_checked.arith_typed = false
    ∧ silent_at (.node real_type .NULL) args_neg_rel_checked
    ∧ chk_param call_g (sample_sym_tab.get_symbol call_g.sym_p).last_parameter
        args_neg_rel_checked state0 = some (false, args_neg_rel_checked, state0)
    ∧ (ast_expression.ast_functioncall pos0 real_type call_g args_neg_rel).type_check
        sample_sym_tab state0 =
      some (.ast_functioncall pos0 real_type call_g args_neg_rel_checked, real_type, state0) :=
  ⟨by decide, by decide, by decide,
    (chk_param_failure_reports_one_error sample_sym_tab call_q state0).1
      (.node integer_type .NULL) (.node pos1 real_lit_2_5 .NULL)
      (.node pos1 real_lit_2_5 .NULL)
      ⟨[⟨some pos0,
        [.text "Type discrepancy between formal and actual parameters.\n"]⟩], false⟩
      (by decide) (by decide) (by decide),
    by decide,
    Or.inr (Or.inl ⟨void_type, rfl, by decide, by decide, by decide⟩),
    by decide,
    ((chk_param_failure_reports_one_error sample_sym_tab call_g state0).2.2.2 pos0 real_type
      args_neg_rel args_neg_rel_checked args_neg_rel_checked state0 state0 false
      (Or.inl (by decide)) (by decide) (by decide)).2⟩

/-- C13 as stated fails: for the call `g(-(1.5 < 2.5))` of `g(a : real)` the arguments
check without an error, `chk_param` returns false, and no type error has been reported
when the check of the call is over. -/
theorem chk_param_fails_without_error :
    args_neg_rel.type_check sample_sym_tab state0 = some (args_neg_rel_checked, state0)
    ∧ chk_param call_g (.node real_type .NULL) args_neg_rel_checked state0
        = some (false, args_neg_rel_checked, state0)
    ∧ check_parameters sample_sym_tab call_g args_neg_rel state0
        = some (args_neg_rel_checked, state0)
    ∧ state0.errors = [] := by
  refine ⟨by decide, by decide, by decide, rfl⟩

/-! ## Return statements and operators -/

/-- C14: the type check of a return statement always sets `has_return`, returns void and
leaves the node as it is apart from the checked value (no cast is inserted).  Without a
value it reports one error if and only if the current environment is not a procedure; with
a value it reports, after the check of the value, one error if and only if the environment
is not a function or the type the value checks to differs from the type of the function. -/
theorem return_type_check (sym_tab : symbol_table) (pos : position_information)
    (s : checker_state) :
    (ast_statement.ast_return pos .NULL).type_check sym_tab s =
        some (.ast_return pos .NULL, void_type,
          ⟨if (sym_tab.get_symbol sym_tab.current_environment).tag ≠ sym_type.SYM_PROC
            then s.errors ++ [⟨some pos, [.text "Must return a value from a function.\n"]⟩]
            else s.errors, true⟩)
    ∧ (∀ (value value1 : ast_expression) (value_type : sym_index) (s1 : checker_state),
      value.type_check sym_tab ⟨s.errors, true⟩ = some (value1, value_type, s1) →
      (ast_statement.ast_return pos value).type_check sym_tab s =
        some (.ast_return pos value1, void_type,
          ⟨if (sym_tab.get_symbol sym_tab.current_environment).tag ≠ sym_type.SYM_FUNC
            then s1.errors ++ [⟨some pos, [.text "Procedures may not return a value.\n"]⟩]
            else if (sym_tab.get_symbol sym_tab.current_environment).type ≠ value_type
            then s1.errors ++ [⟨value1.pos, [.text "Bad return type from function.\n"]⟩]
            else s1.errors, true⟩)) := by
  constructor
  · by_cases h : (sym_tab.get_symbol sym_tab.current_environment).tag = sym_type.SYM_PROC
    · simp [ast_statement.type_check, ast_expression.isNull, h]
    · simp [ast_statement.type_check, ast_expression.isNull, h, type_error]
  · intro value value1 vt s1 hv
    have hnn : value.isNull = false := by
      cases value with
      | NULL => simp [ast_expression.type_check] at hv
      | _ => rfl
    have hret : s1.has_return = true :=
      expression_type_check_has_return sym_tab value _ _ _ _ hv
    have hs1 : s1 = ⟨s1.errors, true⟩ := by
      cases s1
      simp only [checker_state.mk.injEq, true_and]
      exact hret
    obtain ⟨vpos, hvpos⟩ := (not_null_type_pos value1 (type_check_not_null _ _ _ _ _ _ hv)).2
    by_cases h1 : (sym_tab.get_symbol sym_tab.current_environment).tag = sym_type.SYM_FUNC
    · by_cases h2 : (sym_tab.get_symbol sym_tab.current_environment).type = vt
      · simp only [ast_statement.type_check, hnn, hv, h1, h2, hvpos]
        simp only [ne_eq, not_true_eq_false, if_false, Bool.false_eq_true,
          Option.bind_eq_bind, Option.some_bind, Option.pure_def]
        rw [← hs1]
      · simp [ast_statement.type_check, hnn, hv, h1, h2, hvpos, type_error, hret]
    · simp [ast_statement.type_check, hnn, hv, h1, type_error, hret]

/-- C14 for `return 2`: accepted in the integer function `f`, an error in the real function
`g` (the value stays the literal, without a cast) and an error in the procedure `p`. -/
theorem return_type_check_witness :
    (int_lit 2).type_check sample_sym_tab ⟨state0.errors, true⟩
      = some (int_lit 2, integer_type, ⟨[], true⟩)
    ∧ (ast_statement.ast_return pos0 (int_lit 2)).type_check sample_sym_tab state0 =
      some (.ast_return pos0 (int_lit 2), void_type, ⟨[], true⟩)
    ∧ (ast_statement.ast_return pos0 (int_lit 2)).type_check sample_sym_tab_g state0 =
      some (.ast_return pos0 (int_lit 2), void_type,
        ⟨[⟨some pos1, [.text "Bad return type from function.\n"]⟩], true⟩)
    ∧ (ast_statement.ast_return pos0 (int_lit 2)).type_check sample_sym_tab_p state0 =
      some (.ast_return pos0 (int_lit 2), void_type,
        ⟨[⟨some pos0, [.text "Procedures may not return a value.\n"]⟩], true⟩) :=
  ⟨by decide,
    (return_type_check sample_sym_tab pos0 state0).2 (int_lit 2) (int_lit 2) integer_type
      ⟨[], true⟩ (by decide),
    (return_type_check sample_sym_tab_g pos0 state0).2 (int_lit 2) (int_lit 2) integer_type
      ⟨[], true⟩ (by decide),
    (return_type_check sample_sym_tab_p pos0 state0).2 (int_lit 2) (int_lit 2) integer_type
      ⟨[], true⟩ (by decide)⟩

theorem binop_type_check_eq (sym_tab : symbol_table) (tag : binop_tag)
    (pos : position_information) (type : sym_index) (left right left1 right1 : ast_expression)
    (s s1 s2 : checker_state) (lhs_type rhs_type : sym_index)
    (hl : left.type_check sym_tab s = some (left1, lhs_type, s1))
    (hr : right.type_check sym_tab s1 = some (right1, rhs_type, s2)) :
    (ast_expression.ast_binaryoperation tag pos type left right).type_check sym_tab s =
      match tag with
      | .AST_ADD | .AST_SUB | .AST_MULT =>
          (check_binop1 tag pos type left1 right1 lhs_type rhs_type).map
            (fun r => (r.1, r.2, s2))
      | .AST_DIVIDE => (check_divide pos left1 right1).map (fun r => (r.1, r.2, s2))
      | .AST_OR | .AST_AND | .AST_IDIV | .AST_MOD =>
          check_binop2 tag pos left1 right1 lhs_type rhs_type (binop2_name tag) s2 := by
  cases tag <;>
    simp only [ast_expression.type_check, hl, hr, Option.bind_eq_bind, Option.some_bind,
      binop2_name] <;>
    first
      | rfl
      | (cases check_binop1 _ pos type left1 right1 lhs_type rhs_type <;> rfl)
      | (cases check_divide pos left1 right1 <;> rfl)

/-- C15: for add, sub and mult, when both operands check to integer the node stores and the
check returns integer; when both check to real, real; when the left operand checks to
integer and the right one to real, the left operand is wrapped in a cast and the node
stores and the check returns real; likewise for the right operand when it is the integer
one; and whatever the operands check to, the state after the check is the state after the
check of the operands: no type error is reported. -/
theorem check_binop1_synthesizes (sym_tab : symbol_table) (tag : binop_tag)
    (pos : position_information) (type : sym_index) (left right left1 right1 : ast_expression)
    (s s1 s2 : checker_state) (lhs_type rhs_type : sym_index)
    (htag : tag = .AST_ADD ∨ tag = .AST_SUB ∨ tag = .AST_MULT)
    (hl : left.type_check sym_tab s = some (left1, lhs_type, s1))
    (hr : right.type_check sym_tab s1 = some (right1, rhs_type, s2)) :
    (lhs_type = integer_type → rhs_type = integer_type →
      (ast_expression.ast_binaryoperation tag pos type left right).type_check sym_tab s =
        some (.ast_binaryoperation tag pos integer_type left1 right1, integer_type, s2))
    ∧ (lhs_type = real_type → rhs_type = real_type →
      (ast_expression.ast_binaryoperation tag pos type left right).type_check sym_tab s =
        some (.ast_binaryoperation tag pos real_type left1 right1, real_type, s2))
    ∧ (lhs_type = integer_type → rhs_type = real_type →
      ∃ lpos, left1.pos = some lpos ∧
      (ast_expression.ast_binaryoperation tag pos type left right).type_check sym_tab s =
        some (.ast_binaryoperation tag pos real_type (.ast_cast lpos real_type left1) right1,
          real_type, s2))
    ∧ (lhs_type = real_type → rhs_type = integer_type →
      ∃ rpos, right1.pos = some rpos ∧
      (ast_expression.ast_binaryoperation tag pos type left right).type_check sym_tab s =
        some (.ast_binaryoperation tag pos real_type left1 (.ast_cast rpos real_type right1),
          real_type, s2))
    ∧ (∀ node t s3,
      (ast_expression.ast_binaryoperation tag pos type left right).type_check sym_tab s =
        some (node, t, s3) → s3 = s2) := by
  obtain ⟨lpos, hlpos⟩ := (not_null_type_pos left1 (type_check_not_null _ _ _ _ _ _ hl)).2
  obtain ⟨rpos, hrpos⟩ := (not_null_type_pos right1 (type_check_not_null _ _ _ _ _ _ hr)).2
  have heq : (ast_expression.ast_binaryoperation tag pos type left right).type_check sym_tab s
      = (check_binop1 tag pos type left1 right1 lhs_type rhs_type).map
          (fun r => (r.1, r.2, s2)) := by
    rw [binop_type_check_eq sym_tab tag pos type left right left1 right1 s s1 s2 lhs_type
      rhs_type hl hr]
    rcases htag with h | h | h <;> subst h <;> rfl
  rw [heq]
  refine ⟨?_, ?_, ?_, ?_, ?_⟩
  · intro h1 h2
    simp [check_binop1, h1, h2]
  · intro h1 h2
    simp [check_binop1, h1, h2, integer_ne_real.symm]
  · intro h1 h2
    refine ⟨lpos, hlpos, ?_⟩
    simp [check_binop1, h1, h2, integer_ne_real, integer_ne_real.symm, hlpos, new_ast_cast]
  · intro h1 h2
    refine ⟨rpos, hrpos, ?_⟩
    simp [check_binop1, h1, h2, integer_ne_real, integer_ne_real.symm, hrpos, new_ast_cast]
  · intro node t s3 h
    simp only [Option.map_eq_some'] at h
    obtain ⟨r, _, h⟩ := h
    cases h
    rfl

/-- C15 for `2 + 2.5`: the literal `2` is wrapped in a cast and the sum is real. -/
theorem check_binop1_synthesizes_witness :
    (int_lit 2).type_check sample_sym_tab state0 = some (int_lit 2, integer_type, state0)
    ∧ real_lit_2_5.type_check sample_sym_tab state0 = some (real_lit_2_5, real_type, state0)
    ∧ (ast_expression.ast_binaryoperation .AST_ADD pos0 void_type (int_lit 2)
        real_lit_2_5).type_check sample_sym_tab state0 =
      some (.ast_binaryoperation .AST_ADD pos0 real_type
        (.ast_cast pos1 real_type (int_lit 2)) real_lit_2_5, real_type, state0) := by
  refine ⟨by decide, by decide, ?_⟩
  obtain ⟨lpos, hp, h⟩ := (check_binop1_synthesizes sample_sym_tab .AST_ADD pos0 void_type
    (int_lit 2) real_lit_2_5 (int_lit 2) real_lit_2_5 state0 state0 state0 integer_type
    real_type (Or.inl rfl) (by decide) (by decide)).2.2.1 rfl rfl
  have e : lpos = pos1 := by
    simpa [int_lit, new_ast_integer, ast_expression.pos] using hp.symm
  rw [← e]
  exact h

/-- C16: the type check of a divide node always returns real and stores real on the node,
and it wraps each operand in a cast if and only if the `type` field of that operand (after
its check) is integer, whatever the other operand is. -/
theorem divide_type_check (sym_tab : symbol_table)
    (pos : position_information) (type : sym_index) (left right left1 right1 : ast_expression)
    (s s1 s2 : checker_state) (lhs_type rhs_type : sym_index)
    (hl : left.type_check sym_tab s = some (left1, lhs_type, s1))
    (hr : right.type_check sym_tab s1 = some (right1, rhs_type, s2)) :
    ∃ ltype rtype lpos rpos,
      left1.type = some ltype ∧ right1.type = some rtype
      ∧ left1.pos = some lpos ∧ right1.pos = some rpos
      ∧ (ast_expression.ast_binaryoperation .AST_DIVIDE pos type left right).type_check
          sym_tab s =
        some (.ast_binaryoperation .AST_DIVIDE pos real_type
          (if ltype = integer_type then .ast_cast lpos real_type left1 else left1)
          (if rtype = integer_type then .ast_cast rpos real_type right1 else right1),
          real_type, s2) := by
  obtain ⟨⟨lt, hlt⟩, ⟨lpos, hlpos⟩⟩ :=
    not_null_type_pos left1 (type_check_not_null _ _ _ _ _ _ hl)
  obtain ⟨⟨rt, hrt⟩, ⟨rpos, hrpos⟩⟩ :=
    not_null_type_pos right1 (type_check_not_null _ _ _ _ _ _ hr)
  refine ⟨lt, rt, lpos, rpos, hlt, hrt, hlpos, hrpos, ?_⟩
  rw [binop_type_check_eq sym_tab .AST_DIVIDE pos type left right left1 right1 s s1 s2
    lhs_type rhs_type hl hr]
  by_cases h1 : lt = integer_type <;> by_cases h2 : rt = integer_type <;>
    simp [check_divide, hlt, hrt, hlpos, hrpos, h1, h2, new_ast_cast]

/-- C16 for `2 / 3` (both operands are cast) and `2.5 / 3` (only the right one is). -/
theorem divide_type_check_witness :
    (int_lit 2).type_check sample_sym_tab state0 = some (int_lit 2, integer_type, state0)
    ∧ (int_lit 3).type_check sample_sym_tab state0 = some (int_lit 3, integer_type, state0)
    ∧ (ast_expression.ast_binaryoperation .AST_DIVIDE pos0 void_type (int_lit 2)
        (int_lit 3)).type_check sample_sym_tab state0 =
      some (.ast_binaryoperation .AST_DIVIDE pos0 real_type
        (.ast_cast pos1 real_type (int_lit 2)) (.ast_cast pos1 real_type (int_lit 3)),
        real_type, state0)
    ∧ (ast_expression.ast_binaryoperation .AST_DIVIDE pos0 void_type real_lit_2_5
        (int_lit 3)).type_check sample_sym_tab state0 =
      some (.ast_binaryoperation .AST_DIVIDE pos0 real_type
        real_lit_2_5 (.ast_cast pos1 real_type (int_lit 3)), real_type, state0) := by
  refine ⟨by decide, by decide, ?_, ?_⟩
  · obtain ⟨lt, rt, lpos, rpos, h1, h2, h3, h4, h⟩ := divide_type_check sample_sym_tab pos0
      void_type (int_lit 2) (int_lit 3) (int_lit 2) (int_lit 3) state0 state0 state0
      integer_type integer_type (by decide) (by decide)
    simp [int_lit, new_ast_integer, ast_expression.pos, ast_expression.type] at h1 h2 h3 h4
    subst h1 h2 h3 h4
    simpa using h
  · obtain ⟨lt, rt, lpos, rpos, h1, h2, h3, h4, h⟩ := divide_type_check sample_sym_tab pos0
      void_type real_lit_2_5 (int_lit 3) real_lit_2_5 (int_lit 3) state0 state0 state0
      real_type integer_type (by decide) (by decide)
    simp [int_lit, real_lit_2_5, new_ast_integer, new_ast_real, ast_expression.pos,
      ast_expression.type] at h1 h2 h3 h4
    subst h1 h2 h3 h4
    simpa [integer_ne_real.symm] using h

/-- C17: for `or`, `and`, integer division and `mod`, the check stores integer on the node
in every case; with an integer left and a real right operand it wraps the left operand in
a cast, reports no error and returns integer; with a real left and an integer right
operand it inserts no cast, reports the "all variables must be int" error and returns
void; with two integer operands it returns integer with no error and no cast. -/
theorem check_binop2_asymmetric (sym_tab : symbol_table) (tag : binop_tag)
    (pos : position_information) (type : sym_index) (left right left1 right1 : ast_expression)
    (s s1 s2 : checker_state) (lhs_type rhs_type : sym_index)
    (htag : tag = .AST_OR ∨ tag = .AST_AND ∨ tag = .AST_IDIV ∨ tag = .AST_MOD)
    (hl : left.type_check sym_tab s = some (left1, lhs_type, s1))
    (hr : right.type_check sym_tab s1 = some (right1, rhs_type, s2)) :
    (lhs_type = integer_type → rhs_type = real_type →
      ∃ lpos, left1.pos = some lpos ∧
      (ast_expression.ast_binaryoperation tag pos type left right).type_check sym_tab s =
        some (.ast_binaryoperation tag pos integer_type (.ast_cast lpos real_type left1)
          right1, integer_type, s2))
    ∧ (lhs_type = real_type → rhs_type = integer_type →
      (ast_expression.ast_binaryoperation tag pos type left right).type_check sym_tab s =
        some (.ast_binaryoperation tag pos integer_type left1 right1, void_type,
          ⟨s2.errors ++ [⟨some pos, [.text "invalid condition in ", .text (binop2_name tag),
            .text "-statement, all variables must be int\n"]⟩], s2.has_return⟩))
    ∧ (lhs_type = integer_type → rhs_type = integer_type →
      (ast_expression.ast_binaryoperation tag pos type left right).type_check sym_tab s =
        some (.ast_binaryoperation tag pos integer_type left1 right1, integer_type, s2)) := by
  obtain ⟨lpos, hlpos⟩ := (not_null_type_pos left1 (type_check_not_null _ _ _ _ _ _ hl)).2
  have heq : (ast_expression.ast_binaryoperation tag pos type left right).type_check sym_tab s
      = check_binop2 tag pos left1 right1 lhs_type rhs_type (binop2_name tag) s2 := by
    rw [binop_type_check_eq sym_tab tag pos type left right left1 right1 s s1 s2 lhs_type
      rhs_type hl hr]
    rcases htag with h | h | h | h <;> subst h <;> rfl
  rw [heq]
  refine ⟨?_, ?_, ?_⟩
  · intro h1 h2
    refine ⟨lpos, hlpos, ?_⟩
    simp [check_binop2, h1, h2, integer_ne_real, hlpos, new_ast_cast]
  · intro h1 h2
    simp [check_binop2, h1, h2, integer_ne_real, integer_ne_real.symm, type_error]
  · intro h1 h2
    simp [check_binop2, h1, h2]

/-- C17 for `2 mod 2.5` (cast of the left operand, integer, no error) and `2.5 mod 2` (no
cast, one error, void). -/
theorem check_binop2_asymmetric_witness :
    (int_lit 2).type_check sample_sym_tab state0 = some (int_lit 2, integer_type, state0)
    ∧ real_lit_2_5.type_check sample_sym_tab state0 = some (real_lit_2_5, real_type, state0)
    ∧ (ast_expression.ast_binaryoperation .AST_MOD pos0 void_type (int_lit 2)
        real_lit_2_5).type_check sample_sym_tab state0 =
      some (.ast_binaryoperation .AST_MOD pos0 integer_type
        (.ast_cast pos1 real_type (int_lit 2)) real_lit_2_5, integer_type, state0)
    ∧ (ast_expression.ast_binaryoperation .AST_MOD pos0 void_type real_lit_2_5
        (int_lit 2)).type_check sample_sym_tab state0 =
      some (.ast_binaryoperation .AST_MOD pos0 integer_type real_lit_2_5 (int_lit 2),
        void_type,
        ⟨[⟨some pos0, [.text "invalid condition in ", .text "MOD",
          .text "-statement, all variables must be int\n"]⟩], false⟩) := by
  refine ⟨by decide, by decide, ?_, ?_⟩
  · obtain ⟨lpos, hp, h⟩ := (check_binop2_asymmetric sample_sym_tab .AST_MOD pos0 void_type
      (int_lit 2) real_lit_2_5 (int_lit 2) real_lit_2_5 state0 state0 state0 integer_type
      real_type (Or.inr (Or.inr (Or.inr rfl))) (by decide) (by decide)).1 rfl rfl
    have e : lpos = pos1 := by
      simpa [int_lit, new_ast_integer, ast_expression.pos] using hp.symm
    rw [← e]
    exact h
  · exact (check_binop2_asymmetric sample_sym_tab .AST_MOD pos0 void_type
      real_lit_2_5 (int_lit 2) real_lit_2_5 (int_lit 2) state0 state0 state0 real_type
      integer_type (Or.inr (Or.inr (Or.inr rfl))) (by decide) (by decide)).2.1 rfl rfl

theorem binrel_type_check_eq (sym_tab : symbol_table) (tag : binrel_tag)
    (pos : position_information) (type : sym_index) (left right left1 right1 : ast_expression)
    (s s1 s2 : checker_state) (lhs_type rhs_type : sym_index)
    (hl : left.type_check sym_tab s = some (left1, lhs_type, s1))
    (hr : right.type_check sym_tab s1 = some (right1, rhs_type, s2)) :
    (ast_expression.ast_binaryrelation tag pos type left right).type_check sym_tab s =
      (check_binrel tag pos left1 right1 lhs_type rhs_type).map (fun r => (r.1, r.2, s2)) := by
  simp only [ast_expression.type_check, hl, hr, Option.bind_eq_bind, Option.some_bind]
  cases check_binrel tag pos left1 right1 lhs_type rhs_type <;> rfl

/-- C18: for every relation, when exactly one operand checks to integer the check wraps
that operand, and only it, in a cast, reports no error, stores integer on the node and
returns integer; when both operands check to integer it returns integer with no cast. -/
theorem check_binrel_one_integer (sym_tab : symbol_table) (tag : binrel_tag)
    (pos : position_information) (type : sym_index) (left right left1 right1 : ast_expression)
    (s s1 s2 : checker_state) (lhs_type rhs_type : sym_index)
    (hl : left.type_check sym_tab s = some (left1, lhs_type, s1))
    (hr : right.type_check sym_tab s1 = some (right1, rhs_type, s2)) :
    (lhs_type = integer_type → rhs_type ≠ integer_type →
      ∃ lpos, left1.pos = some lpos ∧
      (ast_expression.ast_binaryrelation tag pos type left right).type_check sym_tab s =
        some (.ast_binaryrelation tag pos integer_type (.ast_cast lpos real_type left1)
          right1, integer_type, s2))
    ∧ (lhs_type ≠ integer_type → rhs_type = integer_type →
      ∃ rpos, right1.pos = some rpos ∧
      (ast_expression.ast_binaryrelation tag pos type left right).type_check sym_tab s =
        some (.ast_binaryrelation tag pos integer_type left1
          (.ast_cast rpos real_type right1), integer_type, s2))
    ∧ (lhs_type = integer_type → rhs_type = integer_type →
      (ast_expression.ast_binaryrelation tag pos type left right).type_check sym_tab s =
        some (.ast_binaryrelation tag pos integer_type left1 right1, integer_type, s2)) := by
  obtain ⟨lpos, hlpos⟩ := (not_null_type_pos left1 (type_check_not_null _ _ _ _ _ _ hl)).2
  obtain ⟨rpos, hrpos⟩ := (not_null_type_pos right1 (type_check_not_null _ _ _ _ _ _ hr)).2
  rw [binrel_type_check_eq sym_tab tag pos type left right left1 right1 s s1 s2 lhs_type
    rhs_type hl hr]
  refine ⟨?_, ?_, ?_⟩
  · intro h1 h2
    refine ⟨lpos, hlpos, ?_⟩
    simp [check_binrel, h1, h2, hlpos, new_ast_cast]
  · intro h1 h2
    refine ⟨rpos, hrpos, ?_⟩
    simp [check_binrel, h1, h2, hrpos, new_ast_cast]
  · intro h1 h2
    simp [check_binrel, h1, h2]

/-- C18 for `2 < 2.5` (cast of the left operand) and `2.5 < 2` (cast of the right one). -/
theorem check_binrel_one_integer_witness :
    (int_lit 2).type_check sample_sym_tab state0 = some (int_lit 2, integer_type, state0)
    ∧ real_lit_2_5.type_check sample_sym_tab state0 = some (real_lit_2_5, real_type, state0)
    ∧ (ast_expression.ast_binaryrelation .AST_LESSTHAN pos0 void_type (int_lit 2)
        real_lit_2_5).type_check sample_sym_tab state0 =
      some (.ast_binaryrelation .AST_LESSTHAN pos0 integer_type
        (.ast_cast pos1 real_type (int_lit 2)) real_lit_2_5, integer_type, state0)
    ∧ (ast_expression.ast_binaryrelation .AST_LESSTHAN pos0 void_type real_lit_2_5
        (int_lit 2)).type_check sample_sym_tab state0 =
      some (.ast_binaryrelation .AST_LESSTHAN pos0 integer_type real_lit_2_5
        (.ast_cast pos1 real_type (int_lit 2)), integer_type, state0) := by
  refine ⟨by decide, by decide, ?_, ?_⟩
  · obtain ⟨lpos, hp, h⟩ := (check_binrel_one_integer sample_sym_tab .AST_LESSTHAN pos0
      void_type (int_lit 2) real_lit_2_5 (int_lit 2) real_lit_2_5 state0 state0 state0
      integer_type real_type (by decide) (by decide)).1 rfl (by decide)
    have e : lpos = pos1 := by
      simpa [int_lit, new_ast_integer, ast_expression.pos] using hp.symm
    rw [← e]
    exact h
  · obtain ⟨rpos, hp, h⟩ := (check_binrel_one_integer sample_sym_tab .AST_LESSTHAN pos0
      void_type real_lit_2_5 (int_lit 2) real_lit_2_5 (int_lit 2) state0 state0 state0
      real_type integer_type (by decide) (by decide)).2.1 (by decide) rfl
    have e : rpos = pos1 := by
      simpa [int_lit, new_ast_integer, ast_expression.pos] using hp.symm
    rw [← e]
    exact h

/-- C19: for every relation in which neither operand checks to integer, the check returns
void, inserts no cast and reports no error of its own (the node stores integer). -/
theorem check_binrel_no_integer (sym_tab : symbol_table) (tag : binrel_tag)
    (pos : position_information) (type : sym_index) (left right left1 right1 : ast_expression)
    (s s1 s2 : checker_state) (lhs_type rhs_type : sym_index)
    (hl : left.type_check sym_tab s = some (left1, lhs_type, s1))
    (hr : right.type_check sym_tab s1 = some (right1, rhs_type, s2))
    (h1 : lhs_type ≠ integer_type) (h2 : rhs_type ≠ integer_type) :
    (ast_expression.ast_binaryrelation tag pos type left right).type_check sym_tab s =
      some (.ast_binaryrelation tag pos integer_type left1 right1, void_type, s2) := by
  rw [binrel_type_check_eq sym_tab tag pos type left right left1 right1 s s1 s2 lhs_type
    rhs_type hl hr]
  simp [check_binrel, h1, h2]

/-- C19 for `1.5 < 2.5`: void, no cast, no error. -/
theorem check_binrel_no_integer_witness :
    real_lit_1_5.type_check sample_sym_tab state0 = some (real_lit_1_5, real_type, state0)
    ∧ real_lit_2_5.type_check sample_sym_tab state0 = some (real_lit_2_5, real_type, state0)
    ∧ real_type ≠ integer_type
    ∧ (ast_expression.ast_binaryrelation .AST_LESSTHAN pos0 void_type real_lit_1_5
        real_lit_2_5).type_check sample_sym_tab state0 =
      some (.ast_binaryrelation .AST_LESSTHAN pos0 integer_type real_lit_1_5 real_lit_2_5,
        void_type, state0) :=
  ⟨by decide, by decide, by decide,
    check_binrel_no_integer sample_sym_tab .AST_LESSTHAN pos0 void_type real_lit_1_5
      real_lit_2_5 real_lit_1_5 real_lit_2_5 state0 state0 state0 real_type real_type
      (by decide) (by decide) (by decide) (by decide)⟩

/-- C20: the type check of a logical not checks its operand and then reads the `type`
field of the operand: when that is integer it returns integer and reports no error;
otherwise it reports one error, at the position of the operand, and returns void. -/
theorem not_type_check (sym_tab : symbol_table)
    (pos : position_information) (type : sym_index) (expr expr1 : ast_expression)
    (s s1 : checker_state) (t : sym_index)
    (he : expr.type_check sym_tab s = some (expr1, t, s1)) :
    ∃ etype epos, expr1.type = some etype ∧ expr1.pos = some epos
      ∧ (etype = integer_type →
        (ast_expression.ast_not pos type expr).type_check sym_tab s =
          some (.ast_not pos type expr1, integer_type, s1))
      ∧ (etype ≠ integer_type →
        (ast_expression.ast_not pos type expr).type_check sym_tab s =
          some (.ast_not pos type expr1, void_type,
            ⟨s1.errors ++ [⟨some epos, [.text "negated expr must be of type integer\n"]⟩],
              s1.has_return⟩)) := by
  obtain ⟨⟨et, het⟩, ⟨epos, hepos⟩⟩ :=
    not_null_type_pos expr1 (type_check_not_null _ _ _ _ _ _ he)
  refine ⟨et, epos, het, hepos, ?_, ?_⟩
  · intro h
    simp [ast_expression.type_check, he, het, h]
  · intro h
    simp [ast_expression.type_check, he, het, hepos, h, type_error]

/-- C20 for `not 2` (integer, no error) and `not 2.5` (one error, void). -/
theorem not_type_check_witness :
    (int_lit 2).type_check sample_sym_tab state0 = some (int_lit 2, integer_type, state0)
    ∧ (ast_expression.ast_not pos0 void_type (int_lit 2)).type_check sample_sym_tab state0 =
      some (.ast_not pos0 void_type (int_lit 2), integer_type, state0)
    ∧ (ast_expression.ast_not pos0 void_type real_lit_2_5).type_check sample_sym_tab state0 =
      some (.ast_not pos0 void_type real_lit_2_5, void_type,
        ⟨[⟨some pos1, [.text "negated expr must be of type integer\n"]⟩], false⟩) := by
  refine ⟨by decide, ?_, ?_⟩
  · obtain ⟨et, epos, h1, h2, h3, _⟩ := not_type_check sample_sym_tab pos0 void_type
      (int_lit 2) (int_lit 2) state0 state0 integer_type (by decide)
    simp [int_lit, new_ast_integer, ast_expression.type] at h1
    exact h3 h1.symm
  · obtain ⟨et, epos, h1, h2, _, h4⟩ := not_type_check sample_sym_tab pos0 void_type
      real_lit_2_5 real_lit_2_5 state0 state0 real_type (by decide)
    simp [real_lit_2_5, new_ast_real, ast_expression.type, ast_expression.pos] at h1 h2
    subst h1 h2
    exact h4 (by decide)

/-! ## Indexed access, if and while -/

/-- C21, as amended: the type check of an indexed access stores the `type` of the base
identifier on the node in every case; when the index checks to integer it returns what the
base identifier checks to and reports nothing; when the index checks to another type it
reports type errors at the access, the last one being "index not of type integer", and
returns void. -/
theorem indexed_type_check (sym_tab : symbol_table) (pos : position_information)
    (type : sym_index) (id : ast_id) (index index1 : ast_expression)
    (s s1 : checker_state) (index_type : sym_index)
    (hi : index.type_check sym_tab s = some (index1, index_type, s1)) :
    (index_type = integer_type →
      (ast_expression.ast_indexed pos type id index).type_check sym_tab s =
        some (.ast_indexed pos id.type id index1, id.type_check sym_tab, s1))
    ∧ (index_type ≠ integer_type →
      (ast_expression.ast_indexed pos type id index).type_check sym_tab s =
        some (.ast_indexed pos id.type id index1, void_type,
          ⟨s1.errors ++ [⟨some pos, [.index (id.type_check sym_tab), .endl]⟩,
            ⟨some pos, [.index index_type, .endl]⟩,
            ⟨some pos, [.text "index not of type integer\n"]⟩], s1.has_return⟩)) := by
  constructor
  · intro h
    simp [ast_expression.type_check, hi, h]
  · intro h
    simp [ast_expression.type_check, hi, h, type_error]

/-- C21, the amended statement for `a[2]` and `a[2.5]`, `a` an array of integers. -/
theorem indexed_type_check_witness :
    (int_lit 2).type_check sample_sym_tab state0 = some (int_lit 2, integer_type, state0)
    ∧ (ast_expression.ast_indexed pos0 void_type id_a (int_lit 2)).type_check
        sample_sym_tab state0 =
      some (.ast_indexed pos0 integer_type id_a (int_lit 2), integer_type, state0)
    ∧ (ast_expression.ast_indexed pos0 void_type id_a real_lit_2_5).type_check
        sample_sym_tab state0 =
      some (.ast_indexed pos0 integer_type id_a real_lit_2_5, void_type,
        ⟨[⟨some pos0, [.index integer_type, .endl]⟩, ⟨some pos0, [.index real_type, .endl]⟩,
          ⟨some pos0, [.text "index not of type integer\n"]⟩], false⟩) :=
  ⟨by decide,
    (indexed_type_check sample_sym_tab pos0 void_type id_a (int_lit 2) (int_lit 2) state0
      state0 integer_type (by decide)).1 rfl,
    (indexed_type_check sample_sym_tab pos0 void_type id_a real_lit_2_5 real_lit_2_5 state0
      state0 real_type (by decide)).2 (by decide)⟩

/-- C21 as stated fails: for `a[2.5]`, `a` an array of integers, the check returns void, not
the element type integer, and the enclosing assignment `a[2.5] := 2` reports a further
error, "lhs and rhs must be of same type", and returns void. -/
theorem indexed_bad_index_returns_void :
    ((ast_expression.ast_indexed pos0 void_type id_a real_lit_2_5).type_check
        sample_sym_tab state0).map (fun r => r.2.1) = some void_type
    ∧ id_a.type_check sample_sym_tab = integer_type
    ∧ void_type ≠ integer_type
    ∧ (ast_statement.ast_assign pos0 (.ast_indexed pos0 void_type id_a real_lit_2_5)
        (int_lit 2)).type_check sample_sym_tab state0 =
      some (.ast_assign pos0 (.ast_indexed pos0 integer_type id_a real_lit_2_5) (int_lit 2),
        void_type,
        ⟨[⟨some pos0, [.index integer_type, .endl]⟩, ⟨some pos0, [.index real_type, .endl]⟩,
          ⟨some pos0, [.text "index not of type integer\n"]⟩,
          ⟨some pos0, [.text "lhs and rhs must be of same type in assignment. ",
            .text "lhs: ", .index void_type, .text " rhs: ", .index integer_type,
            .text "\n"]⟩], false⟩) := by
  refine ⟨by decide, by decide, by decide, by decide⟩

/-- C22 on the code: in `if 2.5 then x := 1 else y := 2; return 2.5 end` (inside the
integer function `f`, `y` real) the check of the if statement reports the predicate error
and leaves the else body unchecked: no cast around `2`, no error for the return of a real
value, `has_return` still false; whereas the check of that else body by itself inserts the
cast, reports the error and sets `has_return`. -/
theorem if_bad_condition_skips_else :
    (ast_statement.ast_if pos0 real_lit_2_5 stmts_assign_x .NULL
        stmts_assign_return).type_check sample_sym_tab state0 =
      some (.ast_if pos0 real_lit_2_5 stmts_assign_x .NULL stmts_assign_return, void_type,
        ⟨[⟨some pos1, [.text "if predicate must be of integer type.\n"]⟩], false⟩)
    ∧ stmts_assign_return.type_check sample_sym_tab state0 =
      some (.node pos1 (.ast_return pos1 real_lit_2_5)
          (.node pos0 (.ast_assign pos0 id_y (.ast_cast pos1 real_type (int_lit 2))) .NULL),
        void_type,
        ⟨[⟨some pos1, [.text "Bad return type from function.\n"]⟩], true⟩) := by
  constructor <;> decide

/-- C23: the type check of a while statement checks the condition, adds exactly one "while
predicate must be of integer type" error (at the condition) if and only if the condition
checks to a type other than integer, and then checks the body, when there is one, in either
case. -/
theorem while_type_check (sym_tab : symbol_table) (pos : position_information)
    (condition condition1 : ast_expression) (s s1 : checker_state)
    (condition_type : sym_index)
    (hc : condition.type_check sym_tab s = some (condition1, condition_type, s1)) :
    (ast_statement.ast_while pos condition .NULL).type_check sym_tab s =
        some (.ast_while pos condition1 .NULL, void_type,
          ⟨if condition_type ≠ integer_type
            then s1.errors ++ [⟨condition1.pos,
              [.text "while predicate must be of integer ", .text "type.\n"]⟩]
            else s1.errors, s1.has_return⟩)
    ∧ (∀ (body body1 : ast_stmt_list) (t : sym_index) (s3 : checker_state),
      body.type_check sym_tab
          ⟨if condition_type ≠ integer_type
            then s1.errors ++ [⟨condition1.pos,
              [.text "while predicate must be of integer ", .text "type.\n"]⟩]
            else s1.errors, s1.has_return⟩ = some (body1, t, s3) →
      (ast_statement.ast_while pos condition body).type_check sym_tab s =
        some (.ast_while pos condition1 body1, void_type, s3)) := by
  obtain ⟨cpos, hcpos⟩ :=
    (not_null_type_pos condition1 (type_check_not_null _ _ _ _ _ _ hc)).2
  constructor
  · by_cases h : condition_type = integer_type
    · simp [ast_statement.type_check, hc, h, ast_stmt_list.isNull]
    · simp [ast_statement.type_check, hc, h, hcpos, ast_stmt_list.isNull, type_error]
  · intro body body1 t s3 hb
    have hnn : body.isNull = false := by
      cases body with
      | NULL => simp [ast_stmt_list.type_check] at hb
      | node _ _ _ => rfl
    by_cases h : condition_type = integer_type
    · simp only [h, ne_eq, not_true_eq_false, if_false] at hb
      simp [ast_statement.type_check, hc, h, hnn, hb]
    · simp only [h, ne_eq, not_false_eq_true, if_true, hcpos] at hb
      simp [ast_statement.type_check, hc, h, hcpos, hnn, type_error, hb]

/-- C23 for `while 2.5 do x := 1 end` (one error, body checked) and `while 2 do x := 1 end`
(no error). -/
theorem while_type_check_witness :
    real_lit_2_5.type_check sample_sym_tab state0 = some (real_lit_2_5, real_type, state0)
    ∧ (ast_statement.ast_while pos0 real_lit_2_5 stmts_assign_x).type_check
        sample_sym_tab state0 =
      some (.ast_while pos0 real_lit_2_5 stmts_assign_x, void_type,
        ⟨[⟨some pos1, [.text "while predicate must be of integer ", .text "type.\n"]⟩],
          false⟩)
    ∧ (ast_statement.ast_while pos0 (int_lit 2) stmts_assign_x).type_check
        sample_sym_tab state0 =
      some (.ast_while pos0 (int_lit 2) stmts_assign_x, void_type, state0) :=
  ⟨by decide,
    (while_type_check sample_sym_tab pos0 real_lit_2_5 real_lit_2_5 state0 state0 real_type
      (by decide)).2 stmts_assign_x stmts_assign_x void_type _ (by decide),
    (while_type_check sample_sym_tab pos0 (int_lit 2) (int_lit 2) state0 state0 integer_type
      (by decide)).2 stmts_assign_x stmts_assign_x void_type _ (by decide)⟩

/-! ## What the optimizer leaves alone -/

theorem expr_list_optimize_keeps_binop (sym_tab : symbol_table) :
    ∀ (l l1 : ast_expr_list), l.optimize sym_tab = some l1 →
      ∀ (i : Nat) (e : ast_expression), l.arg i = some e → is_binop e = true →
        l1.arg i = some e
  | .NULL, l1, h => by simp [ast_expr_list.optimize] at h
  | .node pos last p, l1, h => by
      simp only [ast_expr_list.optimize, Option.bind_eq_bind, Option.bind_eq_some] at h
      obtain ⟨p1, hp, x1, hx, h⟩ := h
      cases h
      intro i e harg hb
      cases i with
      | zero =>
        simp only [ast_expr_list.arg, Option.some.injEq] at harg
        subst harg
        have hnn : last.isNull = false := by
          cases last with
          | NULL => simp [is_binop] at hb
          | _ => rfl
        rw [hnn] at hx
        simp only [Bool.false_eq_true, if_false] at hx
        rw [optimize_of_binop sym_tab last hb] at hx
        cases hx
        rfl
      | succ j =>
        simp only [ast_expr_list.arg] at harg ⊢
        split at hp
        · cases hp; exact harg
        · exact expr_list_optimize_keeps_binop sym_tab p p1 hp j e harg hb

/-- C24: the optimizer never folds an argument of a call: when `optimize` of an argument
list, of a procedure call or of a function call returns, every argument that is a binary
operation node is at its place in the result as the same node, whatever its operands are;
so `f(1 + 2)` keeps the argument `1 + 2`. -/
theorem optimize_keeps_binop_arguments (sym_tab : symbol_table) :
    (∀ (l l1 : ast_expr_list), l.optimize sym_tab = some l1 →
      ∀ (i : Nat) (e : ast_expression), l.arg i = some e → is_binop e = true →
        l1.arg i = some e)
    ∧ (∀ (pos : position_information) (id : ast_id) (l : ast_expr_list)
        (x1 : ast_statement),
      (ast_statement.ast_procedurecall pos id l).optimize sym_tab = some x1 →
      ∃ l1, x1 = .ast_procedurecall pos id l1 ∧
        ∀ (i : Nat) (e : ast_expression), l.arg i = some e → is_binop e = true →
          l1.arg i = some e)
    ∧ (∀ (pos : position_information) (type : sym_index) (id : ast_id) (l : ast_expr_list)
        (e1 : ast_expression),
      (ast_expression.ast_functioncall pos type id l).optimize sym_tab = some e1 →
      ∃ l1, e1 = .ast_functioncall pos type id l1 ∧
        ∀ (i : Nat) (e : ast_expression), l.arg i = some e → is_binop e = true →
          l1.arg i = some e)
    ∧ (∀ (pos apos : position_information) (type : sym_index) (id : ast_id)
        (arg : ast_expression), is_binop arg = true →
      (ast_statement.ast_procedurecall pos id (.node apos arg .NULL)).optimize sym_tab =
        some (.ast_procedurecall pos id (.node apos arg .NULL))
      ∧ (ast_expression.ast_functioncall pos type id (.node apos arg .NULL)).optimize sym_tab =
        some (.ast_functioncall pos type id (.node apos arg .NULL))) := by
  refine ⟨expr_list_optimize_keeps_binop sym_tab, ?_, ?_, ?_⟩
  · intro pos id l x1 h
    simp only [ast_statement.optimize] at h
    split at h
    · cases h
      exact ⟨l, rfl, fun i e harg _ => harg⟩
    · simp only [Option.bind_eq_bind, Option.bind_eq_some] at h
      obtain ⟨l1, hl, h⟩ := h
      cases h
      exact ⟨l1, rfl, expr_list_optimize_keeps_binop sym_tab l l1 hl⟩
  · intro pos type id l e1 h
    simp only [ast_expression.optimize] at h
    split at h
    · cases h
      exact ⟨l, rfl, fun i e harg _ => harg⟩
    · simp only [Option.bind_eq_bind, Option.bind_eq_some] at h
      obtain ⟨l1, hl, h⟩ := h
      cases h
      exact ⟨l1, rfl, expr_list_optimize_keeps_binop sym_tab l l1 hl⟩
  · intro pos apos type id arg hb
    have hnn : arg.isNull = false := by
      cases arg with
      | NULL => simp [is_binop] at hb
      | _ => rfl
    have hl : (ast_expr_list.node apos arg .NULL).optimize sym_tab
        = some (.node apos arg .NULL) := by
      simp [ast_expr_list.optimize, ast_expr_list.isNull, hnn,
        optimize_of_binop sym_tab arg hb]
    constructor
    · simp [ast_statement.optimize, ast_expr_list.isNull, hl]
    · simp [ast_expression.optimize, ast_expr_list.isNull, hl]

/-- C24 for the call `f(1 + 2)`: the argument is still `1 + 2` after `optimize`, although
`fold_constants` would turn it into `3`. -/
theorem optimize_keeps_binop_arguments_witness :
    is_binop (.ast_binaryoperation .AST_ADD pos1 integer_type (int_lit 1) (int_lit 2)) = true
    ∧ (ast_expression.ast_functioncall pos0 integer_type call_f
        (.node pos1 (.ast_binaryoperation .AST_ADD pos1 integer_type (int_lit 1) (int_lit 2))
          .NULL)).optimize sample_sym_tab =
      some (.ast_functioncall pos0 integer_type call_f
        (.node pos1 (.ast_binaryoperation .AST_ADD pos1 integer_type (int_lit 1) (int_lit 2))
          .NULL))
    ∧ fold_constants sample_sym_tab
        (.ast_binaryoperation .AST_ADD pos1 integer_type (int_lit 1) (int_lit 2)) =
      some (.ast_integer pos1 integer_type 3) :=
  ⟨by decide,
    ((optimize_keeps_binop_arguments sample_sym_tab).2.2.2 pos0 pos1 integer_type call_f
      (.ast_binaryoperation .AST_ADD pos1 integer_type (int_lit 1) (int_lit 2))
      (by decide)).2,
    by decide⟩

/-- C25: `fold_constants` returns every relation node unchanged (a relation is not among
the nodes `is_binop` accepts), and `optimize` of a relation leaves a relation of the same
kind, position and type whose operands are what `fold_constants` makes of the optimized
operands; for operands that `optimize` leaves as they are, such as literals and binary
operations, these are `fold_constants` of the original operands; a relation between two
literals stays that relation. -/
theorem relation_never_collapsed (sym_tab : symbol_table) (tag : binrel_tag)
    (pos : position_information) (type : sym_index) (left right : ast_expression) :
    fold_constants sym_tab (.ast_binaryrelation tag pos type left right) =
      some (.ast_binaryrelation tag pos type left right)
    ∧ is_binop (.ast_binaryrelation tag pos type left right) = false
    ∧ (∀ left1 left2 right1 right2 : ast_expression,
      left.optimize sym_tab = some left1 → fold_constants sym_tab left1 = some left2 →
      right.optimize sym_tab = some right1 → fold_constants sym_tab right1 = some right2 →
      (ast_expression.ast_binaryrelation tag pos type left right).optimize sym_tab =
        some (.ast_binaryrelation tag pos type left2 right2))
    ∧ (∀ left2 right2 : ast_expression,
      left.optimize sym_tab = some left → right.optimize sym_tab = some right →
      fold_constants sym_tab left = some left2 → fold_constants sym_tab right = some right2 →
      (ast_expression.ast_binaryrelation tag pos type left right).optimize sym_tab =
        some (.ast_binaryrelation tag pos type left2 right2))
    ∧ (is_literal left = true → is_literal right = true →
      (ast_expression.ast_binaryrelation tag pos type left right).optimize sym_tab =
        some (.ast_binaryrelation tag pos type left right)) := by
  refine ⟨by simp [fold_constants], by simp [is_binop], ?_, ?_, ?_⟩
  · intro l1 l2 r1 r2 h1 h2 h3 h4
    simp [ast_expression.optimize, h1, h2, h3, h4]
  · intro l2 r2 h1 h3 h2 h4
    simp [ast_expression.optimize, h1, h2, h3, h4]
  · intro h1 h2
    simp [ast_expression.optimize, optimize_of_literal sym_tab left h1,
      optimize_of_literal sym_tab right h2, fold_constants_literal sym_tab left h1,
      fold_constants_literal sym_tab right h2]

/-- C25 for `(1 + 2) < 4`: the relation stays, its left operand becomes `3`; and `3 < 4`
stays as it is. -/
theorem relation_never_collapsed_witness :
    (ast_expression.ast_binaryrelation .AST_LESSTHAN pos0 integer_type
        (.ast_binaryoperation .AST_ADD pos1 integer_type (int_lit 1) (int_lit 2))
        (int_lit 4)).optimize sample_sym_tab =
      some (.ast_binaryrelation .AST_LESSTHAN pos0 integer_type
        (.ast_integer pos1 integer_type 3) (int_lit 4))
    ∧ (ast_expression.ast_binaryrelation .AST_LESSTHAN pos0 integer_type
        (int_lit 3) (int_lit 4)).optimize sample_sym_tab =
      some (.ast_binaryrelation .AST_LESSTHAN pos0 integer_type (int_lit 3) (int_lit 4)) :=
  ⟨(relation_never_collapsed sample_sym_tab .AST_LESSTHAN pos0 integer_type
      (.ast_binaryoperation .AST_ADD pos1 integer_type (int_lit 1) (int_lit 2))
      (int_lit 4)).2.2.2.1 _ _ (by decide) (by decide) (by decide) (by decide),
    (relation_never_collapsed sample_sym_tab .AST_LESSTHAN pos0 integer_type
      (int_lit 3) (int_lit 4)).2.2.2.2 (by decide) (by decide)⟩

/-- C30: the `optimize` step of an indexed access replaces the index by `fold_constants`
of the index and leaves everything else, the base identifier included, as it is (it has a
result whenever folding the index has one); `fold_constants` itself returns an indexed
access unchanged. -/
theorem indexed_optimize_folds_index (sym_tab : symbol_table) (pos : position_information)
    (type : sym_index) (id : ast_id) (index : ast_expression) :
    (ast_expression.ast_indexed pos type id index).optimize sym_tab =
      (fold_constants sym_tab index).map (fun index1 => .ast_indexed pos type id index1)
    ∧ fold_constants sym_tab (.ast_indexed pos type id index) =
      some (.ast_indexed pos type id index) := by
  constructor
  · simp only [ast_expression.optimize, Option.bind_eq_bind, Option.pure_def]
    cases fold_constants sym_tab index <;> rfl
  · simp [fold_constants]

/-! ## Folding reals, remainders and logical operators -/

theorem fold_constants_real_literals (sym_tab : symbol_table) (tag : binop_tag)
    (pos lpos rpos : position_information) (ltype rtype : sym_index) (x y : Double) :
    fold_constants sym_tab (.ast_binaryoperation tag pos real_type
        (.ast_real lpos ltype x) (.ast_real rpos rtype y)) =
      (fold_function tag x y).map (fun v => .ast_real pos real_type v) := by
  rw [fold_constants_binop_eq sym_tab tag pos real_type (.ast_real lpos ltype x)
    (.ast_real rpos rtype y) (.ast_real lpos ltype x) (.ast_real rpos rtype y)
    (by simp [fold_constants]) (by simp [fold_constants])]
  exact fold_binop_real tag pos _ _ _ x y rfl rfl

/-- C27: the type check of an elsif node reads the `type` field of the condition and
nothing else (its result does not depend on the body, and neither the condition nor the
body is checked): it returns integer and reports nothing when that field is integer, and
otherwise reports one "Condition is not of type integer" error, at the condition, and
returns void. -/
theorem elsif_type_check (pos : position_information) (condition : ast_expression)
    (body : ast_stmt_list) (s : checker_state) (ctype : sym_index)
    (cpos : position_information)
    (ht : condition.type = some ctype) (hp : condition.pos = some cpos) :
    (ctype = integer_type →
      (ast_elsif.node pos condition body).type_check s = some (integer_type, s))
    ∧ (ctype ≠ integer_type →
      (ast_elsif.node pos condition body).type_check s =
        some (void_type,
          ⟨s.errors ++ [⟨some cpos, [.text "Condition is not of type integer.\n"]⟩],
            s.has_return⟩)) := by
  constructor
  · intro h
    simp [ast_elsif.type_check, ht, h]
  · intro h
    simp [ast_elsif.type_check, ht, hp, h, type_error]

/-- C27 for an elsif whose condition `1.5 < 2.5` stores integer (accepted, although the
check of that relation returns void) and one whose condition is the literal `2.5`. -/
theorem elsif_type_check_witness :
    (ast_elsif.node pos0
        (.ast_binaryrelation .AST_LESSTHAN pos2 integer_type real_lit_1_5 real_lit_2_5)
        stmts_assign_return).type_check state0 = some (integer_type, state0)
    ∧ (ast_elsif.node pos0 real_lit_2_5 stmts_assign_return).type_check state0 =
      some (void_type,
        ⟨[⟨some pos1, [.text "Condition is not of type integer.\n"]⟩], false⟩) :=
  ⟨(elsif_type_check pos0
      (.ast_binaryrelation .AST_LESSTHAN pos2 integer_type real_lit_1_5 real_lit_2_5)
      stmts_assign_return state0 integer_type pos2 rfl rfl).1 rfl,
    (elsif_type_check pos0 real_lit_2_5 stmts_assign_return state0 real_type pos1
      rfl rfl).2 (by decide)⟩

theorem natAbs_tmod_le (a b : Int) : (Int.tmod a b).natAbs ≤ a.natAbs := by
  cases a <;> cases b <;>
    simp only [Int.tmod, Int.natAbs_ofNat, Int.natAbs_neg, Int.natAbs_negSucc,
      Int.ofNat_eq_coe, Int.natAbs_cast] <;>
    exact Nat.mod_le _ _

theorem toInt_integer (neg : Bool) (n : Nat)
    (h : -(2 : Int) ^ 31 ≤ Double.signed neg n ∧ Double.signed neg n < (2 : Int) ^ 31) :
    Double.toInt (Double.finite neg n 0) = some (Double.signed neg n) := by
  unfold Double.toInt
  unfold Double.signed at h ⊢
  cases neg
  · simp at h ⊢
    omega
  · simp at h ⊢
    omega

theorem toInt_ofLong (a : Int) (h : -(2 : Int) ^ 31 ≤ a ∧ a < (2 : Int) ^ 31) :
    Double.toInt (Double.ofLong a) = some a := by
  have h1 : a.natAbs ≤ 2 ^ 53 := by omega
  rw [ofLong_exact a h1]
  have := toInt_integer (decide (a < 0)) a.natAbs (by rw [signed_natAbs]; exact h)
  rw [signed_natAbs] at this
  exact this

theorem toLong_ofLong (a : Int) (h : a.natAbs ≤ 2 ^ 53) :
    Double.toLong (Double.ofLong a) = some a := by
  rw [ofLong_exact a h, toLong_integer _ _ h, signed_natAbs]

theorem fold_mod_in_range (a b : Int)
    (ha : -(2 : Int) ^ 31 ≤ a ∧ a < (2 : Int) ^ 31)
    (hb : -(2 : Int) ^ 31 ≤ b ∧ b < (2 : Int) ^ 31)
    (hb0 : b ≠ 0) (hov : ¬ (a = -(2 : Int) ^ 31 ∧ b = -1)) :
    (fold_mod (Double.ofLong a) (Double.ofLong b)).bind Double.toLong
      = some (Int.tmod a b) := by
  have hle : (Int.tmod a b).natAbs ≤ 2 ^ 53 := by
    have := natAbs_tmod_le a b
    omega
  simp only [fold_mod, toInt_ofLong a ha, toInt_ofLong b hb, Option.bind_eq_bind,
    Option.some_bind]
  have hc : ¬ (b = 0 ∨ (a = -(2 : Int) ^ 31 ∧ b = -1)) := by
    intro h
    rcases h with h | h
    · exact hb0 h
    · exact hov h
  rw [if_neg hc]
  simp only [Option.some_bind]
  exact toLong_ofLong _ hle

/-- C28, as amended: for integer literals `a` and `b` in the range of `int`
(`-2^31 ≤ a, b < 2^31`) with `b` non-zero, and not `a = -2^31` with `b = -1`, folding the
integer-typed node `a mod b` gives the integer literal, at the position of the operator,
that holds the remainder of the truncated division of `a` by `b` (it has the sign of
`a`). -/
theorem fold_mod_truncated_remainder (sym_tab : symbol_table)
    (pos lpos rpos : position_information) (ltype rtype : sym_index) (a b : Int)
    (ha : -(2 : Int) ^ 31 ≤ a ∧ a < (2 : Int) ^ 31)
    (hb : -(2 : Int) ^ 31 ≤ b ∧ b < (2 : Int) ^ 31)
    (hb0 : b ≠ 0) (hov : ¬ (a = -(2 : Int) ^ 31 ∧ b = -1)) :
    fold_constants sym_tab (.ast_binaryoperation .AST_MOD pos integer_type
        (.ast_integer lpos ltype a) (.ast_integer rpos rtype b))
      = some (.ast_integer pos integer_type (Int.tmod a b))
    ∧ b * Int.tdiv a b + Int.tmod a b = a
    ∧ (0 ≤ a → 0 ≤ Int.tmod a b) ∧ (a ≤ 0 → Int.tmod a b ≤ 0) := by
  refine ⟨?_, Int.tdiv_add_tmod a b, fun h => Int.tmod_nonneg b h, ?_⟩
  · rw [fold_constants_integer_literals sym_tab .AST_MOD pos lpos rpos ltype rtype a b]
    have := fold_mod_in_range a b ha hb hb0 hov
    simp only [fold_function]
    rw [this]
    rfl
  · intro h
    have h1 : 0 ≤ Int.tmod (-a) b := Int.tmod_nonneg b (by omega)
    have h2 : Int.tmod (-a) b = - Int.tmod a b := by
      rw [Int.tmod_def, Int.tmod_def, Int.neg_tdiv]
      ring
    omega

/-- C28, the amended statement for `-7 mod 2`: the literal `-1`. -/
theorem fold_mod_truncated_remainder_witness :
    (-(2 : Int) ^ 31 ≤ -7 ∧ (-7 : Int) < (2 : Int) ^ 31)
    ∧ (-(2 : Int) ^ 31 ≤ 2 ∧ (2 : Int) < (2 : Int) ^ 31)
    ∧ (2 : Int) ≠ 0
    ∧ fold_constants sample_sym_tab (.ast_binaryoperation .AST_MOD pos0 integer_type
        (.ast_integer pos1 integer_type (-7)) (.ast_integer pos2 integer_type 2))
      = some (.ast_integer pos0 integer_type (-1)) :=
  ⟨by decide, by decide, by decide,
    (fold_mod_truncated_remainder sample_sym_tab pos0 pos1 pos2 integer_type integer_type
      (-7) 2 (by decide) (by decide) (by decide) (by decide)).1⟩

/-- C28 as stated fails: `2147483648 mod 3` does not fold to the literal holding the
remainder `2` (the dividend is converted to `int`, which cannot hold it), and
`-2147483648 mod -1` does not fold to the literal holding the remainder `0` (the quotient
overflows `int`). -/
theorem fold_mod_outside_int_range :
    Int.tmod 2147483648 3 = 2
    ∧ fold_constants sample_sym_tab (.ast_binaryoperation .AST_MOD pos0 integer_type
        (int_lit 2147483648) (int_lit 3))
      ≠ some (.ast_integer pos0 integer_type 2)
    ∧ Int.tmod (-2147483648) (-1) = 0
    ∧ fold_constants sample_sym_tab (.ast_binaryoperation .AST_MOD pos0 integer_type
        (int_lit (-2147483648)) (int_lit (-1)))
      ≠ some (.ast_integer pos0 integer_type 0) := by
  refine ⟨by decide, by decide, by decide, by decide⟩

theorem bitLenAux_pow_le (fuel : Nat) :
    ∀ n : Nat, n ≠ 0 → 2 ^ (bitLenAux fuel n - 1) ≤ n := by
  induction fuel with
  | zero =>
    intro n hn
    simp only [bitLenAux, Nat.zero_sub, pow_zero]
    omega
  | succ f ih =>
    intro n hn
    simp only [bitLenAux, hn, if_false, Nat.add_sub_cancel]
    by_cases h2 : n / 2 = 0
    · have : bitLenAux f (n / 2) = 0 := by
        rw [h2]
        cases f <;> simp [bitLenAux]
      rw [this]
      simp only [pow_zero]
      omega
    · have h3 := ih (n / 2) h2
      by_cases h4 : bitLenAux f (n / 2) = 0
      · rw [h4]
        simp only [pow_zero]
        omega
      · have h5 : bitLenAux f (n / 2) = (bitLenAux f (n / 2) - 1) + 1 := by omega
        rw [h5, pow_succ]
        omega

theorem round_toBool (neg : Bool) (n : Nat) (hn : n ≠ 0) :
    (Double.round neg n 0).toBool = true := by
  have hd : max (bitLen n - 53) (0 - 1074) = bitLen n - 53 := by omega
  have hpow : 2 ^ (bitLen n - 53) ≤ n := by
    have h1 : 2 ^ (bitLen n - 1) ≤ n := bitLenAux_pow_le n n hn
    have h2 : 2 ^ (bitLen n - 53) ≤ 2 ^ (bitLen n - 1) :=
      Nat.pow_le_pow_right (by decide) (by omega)
    omega
  have hq : 1 ≤ n / 2 ^ (bitLen n - 53) :=
    (Nat.one_le_div_iff (Nat.pos_pow_of_pos _ (by decide))).2 hpow
  have hp : 2 ^ (bitLen n - 53) ≠ 0 := Nat.pos_iff_ne_zero.1 (Nat.pos_pow_of_pos _ (by decide))
  have hq0 : n / 2 ^ (bitLen n - 53) ≠ 0 := Nat.one_le_iff_ne_zero.1 hq
  unfold Double.round
  simp only [hd]
  split <;> split
  · rfl
  · simp only [Double.strip, Double.toBool, ne_eq, decide_eq_true_eq]
    exact Nat.mul_ne_zero (Nat.succ_ne_zero _) hp
  · rfl
  · simp only [Double.strip, Double.toBool, ne_eq, decide_eq_true_eq]
    exact Nat.mul_ne_zero hq0 hp

theorem ofLong_toBool (a : Int) : (Double.ofLong a).toBool = decide (a ≠ 0) := by
  by_cases h : a = 0
  · subst h
    decide
  · have hn : a.natAbs ≠ 0 := by omega
    unfold Double.ofLong
    rw [round_toBool _ _ hn]
    simp [h]

theorem ofBool_toLong (c : Bool) :
    (Double.ofBool c).toLong = some (if c then 1 else 0) := by
  cases c <;> decide

/-- C29: for integer literals `a` and `b`, folding the integer-typed node `a or b` gives
the integer literal, at the position of the operator, that holds `1` when `a` is non-zero
or `b` is non-zero and `0` otherwise, and folding `a and b` gives the literal that holds
`1` when both are non-zero and `0` otherwise. -/
theorem fold_or_and_integer (sym_tab : symbol_table) (pos lpos rpos : position_information)
    (ltype rtype : sym_index) (a b : Int) :
    fold_constants sym_tab (.ast_binaryoperation .AST_OR pos integer_type
        (.ast_integer lpos ltype a) (.ast_integer rpos rtype b))
      = some (.ast_integer pos integer_type (if a ≠ 0 ∨ b ≠ 0 then 1 else 0))
    ∧ fold_constants sym_tab (.ast_binaryoperation .AST_AND pos integer_type
        (.ast_integer lpos ltype a) (.ast_integer rpos rtype b))
      = some (.ast_integer pos integer_type (if a ≠ 0 ∧ b ≠ 0 then 1 else 0)) := by
  constructor
  · rw [fold_constants_integer_literals sym_tab .AST_OR pos lpos rpos ltype rtype a b]
    simp only [fold_function, fold_or, ofLong_toBool, Option.some_bind, ofBool_toLong,
      Option.map_some']
    by_cases ha : a = 0 <;> by_cases hb : b = 0 <;> simp [ha, hb]
  · rw [fold_constants_integer_literals sym_tab .AST_AND pos lpos rpos ltype rtype a b]
    simp only [fold_function, fold_and, ofLong_toBool, Option.some_bind, ofBool_toLong,
      Option.map_some']
    by_cases ha : a = 0 <;> by_cases hb : b = 0 <;> simp [ha, hb]

/-! ## Operand types outside integer and real -/

/-- C31, as amended: for add, sub and mult, when an operand checks to a type that is
neither integer nor real and the other operand does not check to integer, the check
returns void, leaves the `type` field and the operands of the node as they are and reports
nothing; when the other operand checks to integer, that operand is wrapped in a cast and
the node stores and the check returns real, again without a report. -/
theorem check_binop1_third_type (sym_tab : symbol_table) (tag : binop_tag)
    (pos : position_information) (type : sym_index) (left right left1 right1 : ast_expression)
    (s s1 s2 : checker_state) (lhs_type rhs_type : sym_index)
    (htag : tag = .AST_ADD ∨ tag = .AST_SUB ∨ tag = .AST_MULT)
    (hl : left.type_check sym_tab s = some (left1, lhs_type, s1))
    (hr : right.type_check sym_tab s1 = some (right1, rhs_type, s2)) :
    (lhs_type ≠ integer_type → lhs_type ≠ real_type → rhs_type ≠ integer_type →
      (ast_expression.ast_binaryoperation tag pos type left right).type_check sym_tab s =
        some (.ast_binaryoperation tag pos type left1 right1, void_type, s2))
    ∧ (rhs_type ≠ integer_type → rhs_type ≠ real_type → lhs_type ≠ integer_type →
      (ast_expression.ast_binaryoperation tag pos type left right).type_check sym_tab s =
        some (.ast_binaryoperation tag pos type left1 right1, void_type, s2))
    ∧ (rhs_type ≠ integer_type → rhs_type ≠ real_type → lhs_type = integer_type →
      ∃ lpos, left1.pos = some lpos ∧
      (ast_expression.ast_binaryoperation tag pos type left right).type_check sym_tab s =
        some (.ast_binaryoperation tag pos real_type (.ast_cast lpos real_type left1) right1,
          real_type, s2))
    ∧ (lhs_type ≠ integer_type → lhs_type ≠ real_type → rhs_type = integer_type →
      ∃ rpos, right1.pos = some rpos ∧
      (ast_expression.ast_binaryoperation tag pos type left right).type_check sym_tab s =
        some (.ast_binaryoperation tag pos real_type left1 (.ast_cast rpos real_type right1),
          real_type, s2)) := by
  obtain ⟨lpos, hlpos⟩ := (not_null_type_pos left1 (type_check_not_null _ _ _ _ _ _ hl)).2
  obtain ⟨rpos, hrpos⟩ := (not_null_type_pos right1 (type_check_not_null _ _ _ _ _ _ hr)).2
  have heq : (ast_expression.ast_binaryoperation tag pos type left right).type_check sym_tab s
      = (check_binop1 tag pos type left1 right1 lhs_type rhs_type).map
          (fun r => (r.1, r.2, s2)) := by
    rw [binop_type_check_eq sym_tab tag pos type left right left1 right1 s s1 s2 lhs_type
      rhs_type hl hr]
    rcases htag with h | h | h <;> subst h <;> rfl
  rw [heq]
  refine ⟨?_, ?_, ?_, ?_⟩
  · intro h1 h2 h3
    simp [check_binop1, h1, h2, h3]
  · intro h1 h2 h3
    simp [check_binop1, h1, h2, h3]
  · intro h1 h2 h3
    refine ⟨lpos, hlpos, ?_⟩
    simp [check_binop1, h1, h2, h3, hlpos, new_ast_cast]
  · intro h1 h2 h3
    refine ⟨rpos, hrpos, ?_⟩
    simp [check_binop1, h1, h2, h3, hrpos, new_ast_cast]

/-- C31, the amended statement for `2.5 + (1.5 < 2.5)`, whose right operand checks to void:
the sum checks to void, without a cast and without an error. -/
theorem check_binop1_third_type_witness :
    real_lit_2_5.type_check sample_sym_tab state0 = some (real_lit_2_5, real_type, state0)
    ∧ rel_reals.type_check sample_sym_tab state0 = some (rel_reals_checked, void_type, state0)
    ∧ (ast_expression.ast_binaryoperation .AST_ADD pos0 void_type real_lit_2_5
        rel_reals).type_check sample_sym_tab state0 =
      some (.ast_binaryoperation .AST_ADD pos0 void_type real_lit_2_5 rel_reals_checked,
        void_type, state0) :=
  ⟨by decide, by decide,
    (check_binop1_third_type sample_sym_tab .AST_ADD pos0 void_type real_lit_2_5 rel_reals
      real_lit_2_5 rel_reals_checked state0 state0 state0 real_type void_type (Or.inl rfl)
      (by decide) (by decide)).2.1 (by decide) (by decide) (by decide)⟩

/-- C31 as stated fails: in `2 + (1.5 < 2.5)` the right operand checks to void, which is
neither integer nor real, yet the check wraps the literal `2` in a cast, stores real on
the node and returns real, not void. -/
theorem check_binop1_void_operand_casts :
    rel_reals.type_check sample_sym_tab state0 = some (rel_reals_checked, void_type, state0)
    ∧ void_type ≠ integer_type ∧ void_type ≠ real_type
    ∧ (ast_expression.ast_binaryoperation .AST_ADD pos0 void_type (int_lit 2)
        rel_reals).type_check sample_sym_tab state0 =
      some (.ast_binaryoperation .AST_ADD pos0 real_type
        (.ast_cast pos1 real_type (int_lit 2)) rel_reals_checked, real_type, state0) := by
  refine ⟨by decide, by decide, by decide, by decide⟩

/-! ## The elsif list -/

theorem elsif_list_type_check_node (sym_tab : symbol_table) (pos : position_information)
    (last_elsif : ast_elsif) (preceding : ast_elsif_list) (s : checker_state) :
    (ast_elsif_list.node pos last_elsif preceding).type_check sym_tab s =
      (if preceding.isNull then some (.node pos last_elsif preceding, integer_type, s)
      else
        match last_elsif with
        | .NULL => none
        | .node epos condition body => do
            let (body1, _, s1) ← ast_stmt_list.type_check sym_tab body s
            let (condition1, cond_type, s2) ← condition.type_check sym_tab s1
            if cond_type ≠ integer_type then
              pure (.node pos (.node epos condition1 body1) preceding, void_type, s2)
            else do
              let (preceding1, t, s3) ← ast_elsif_list.type_check sym_tab preceding s2
              pure (.node pos (.node epos condition1 body1) preceding1, t, s3)) := by
  rw [ast_elsif_list.type_check.eq_def]

theorem elsif_list_type_check_not_null (sym_tab : symbol_table) :
    ∀ (l l1 : ast_elsif_list) (s s1 : checker_state) (t : sym_index),
      l.type_check sym_tab s = some (l1, t, s1) → ∃ pos last_elsif preceding,
        l1 = .node pos last_elsif preceding := by
  intro l l1 s s1 t h
  cases l with
  | NULL => simp [ast_elsif_list.type_check] at h
  | node pos last_elsif preceding =>
    rw [elsif_list_type_check_node] at h
    split at h
    · cases h
      exact ⟨_, _, _, rfl⟩
    · cases last_elsif with
      | NULL => simp at h
      | node epos condition body =>
        simp only [Option.bind_eq_bind] at h
        cases hb : ast_stmt_list.type_check sym_tab body s with
        | none => simp [hb] at h
        | some rb =>
          obtain ⟨body1, bt, sb⟩ := rb
          simp only [hb, Option.some_bind] at h
          cases hc : condition.type_check sym_tab sb with
          | none => simp [hc] at h
          | some rc =>
            obtain ⟨condition1, ct, sc⟩ := rc
            simp only [hc, Option.some_bind] at h
            split at h
            · cases h
              exact ⟨_, _, _, rfl⟩
            · cases hp : ast_elsif_list.type_check sym_tab preceding sc with
              | none => simp [hp] at h
              | some rp =>
                obtain ⟨p1, pt, sp⟩ := rp
                simp only [hp, Option.some_bind] at h
                cases h
                exact ⟨_, _, _, rfl⟩

theorem elsif_list_type_check_set_first (sym_tab : symbol_table) (c : ast_elsif) :
    ∀ (l : ast_elsif_list) (s : checker_state),
      (l.set_first c).type_check sym_tab s =
        (l.type_check sym_tab s).map (fun r => (r.1.set_first c, r.2.1, r.2.2))
  | .NULL, s => by simp [ast_elsif_list.set_first, ast_elsif_list.type_check]
  | .node pos last_elsif .NULL, s => by
      simp [ast_elsif_list.set_first, ast_elsif_list.type_check, ast_elsif_list.isNull]
  | .node pos last_elsif (.node ppos plast ppreceding), s => by
      have ih := elsif_list_type_check_set_first sym_tab c (.node ppos plast ppreceding)
      have hnn : ∀ l : ast_elsif_list, l.isNull = false →
          (l.set_first c).isNull = false := by
        intro l hl
        cases l with
        | NULL => simp [ast_elsif_list.isNull] at hl
        | node p e q => cases q <;> rfl
      rw [ast_elsif_list.set_first, elsif_list_type_check_node, elsif_list_type_check_node]
      rw [hnn (.node ppos plast ppreceding) rfl]
      simp only [ast_elsif_list.isNull, Bool.false_eq_true, if_false]
      cases last_elsif with
      | NULL => rfl
      | node epos condition body =>
        simp only [Option.bind_eq_bind]
        cases hb : ast_stmt_list.type_check sym_tab body s with
        | none => rfl
        | some rb =>
          obtain ⟨body1, bt, sb⟩ := rb
          simp only [Option.some_bind]
          cases hc : condition.type_check sym_tab sb with
          | none => rfl
          | some rc =>
            obtain ⟨condition1, ct, sc⟩ := rc
            simp only [Option.some_bind]
            split
            · rfl
            · rw [ih sc]
              cases hp : ast_elsif_list.type_check sym_tab (.node ppos plast ppreceding) sc with
              | none => rfl
              | some rp =>
                obtain ⟨p1, pt, sp⟩ := rp
                obtain ⟨qpos, qlast, qpre, hq⟩ :=
                  elsif_list_type_check_not_null sym_tab _ _ _ _ _ hp
                subst hq
                rfl

/-- C32: the type check of an elsif list never visits the first-added clause.  The check
of a list of one clause returns the list as it is, with the state as it is, whatever the
clause holds; for every list, putting any clause `c` in the place of the first-added one
changes neither the type returned nor the state (errors and seen-return flag), and `c`
comes back as it went in; and the function body
`if 1 then x := 1 elsif 1 then return 2 end` comes back unchanged with the one error
"A function must return a value". -/
theorem elsif_list_skips_first_clause :
    (∀ (sym_tab : symbol_table) (pos : position_information) (last_elsif : ast_elsif)
        (s : checker_state),
      (ast_elsif_list.node pos last_elsif .NULL).type_check sym_tab s =
        some (.node pos last_elsif .NULL, integer_type, s))
    ∧ (∀ (sym_tab : symbol_table) (c : ast_elsif) (l : ast_elsif_list) (s : checker_state),
      (l.set_first c).type_check sym_tab s =
        (l.type_check sym_tab s).map (fun r => (r.1.set_first c, r.2.1, r.2.2)))
    ∧ (sample_sym_tab.get_symbol 10).tag = sym_type.SYM_FUNC
    ∧ stmts_if_elsif_return.contains_return = true
    ∧ do_typecheck sample_sym_tab (sample_sym_tab.get_symbol 10) stmts_if_elsif_return
        state0 =
      some (stmts_if_elsif_return,
        ⟨[⟨some pos0, [.text "A function must return a value.\n"]⟩], false⟩) := by
  refine ⟨?_, ?_, by decide, by decide, by decide⟩
  · intro sym_tab pos last_elsif s
    simp [ast_elsif_list.type_check, ast_elsif_list.isNull]
  · intro sym_tab c l s
    exact elsif_list_type_check_set_first sym_tab c l s

/-- C33: when the condition of a visited clause of an elsif list (one whose `preceding`
link is not null) checks to a type other than integer, the walk returns void at once: the
state is the one left by the checks of the body and of the condition of that clause, with
no diagnostic added, and the earlier clauses come back as they went in; an if statement
with an integer condition and such a list, without an else part, checks to that same
state. -/
theorem elsif_list_non_integer_condition (sym_tab : symbol_table)
    (pos epos : position_information) (condition condition1 : ast_expression)
    (body body1 : ast_stmt_list) (preceding : ast_elsif_list) (bt ct : sym_index)
    (s s1 s2 : checker_state)
    (hp : preceding.isNull = false)
    (hb : ast_stmt_list.type_check sym_tab body s = some (body1, bt, s1))
    (hc : condition.type_check sym_tab s1 = some (condition1, ct, s2))
    (hct : ct ≠ integer_type) :
    (ast_elsif_list.node pos (.node epos condition body) preceding).type_check sym_tab s =
      some (.node pos (.node epos condition1 body1) preceding, void_type, s2)
    ∧ ∀ (ipos : position_information) (icond icond1 : ast_expression)
        (ibody ibody1 : ast_stmt_list) (ibt : sym_index) (s0 s0' : checker_state),
      icond.type_check sym_tab s0 = some (icond1, integer_type, s0') →
      ast_stmt_list.type_check sym_tab ibody s0' = some (ibody1, ibt, s) →
      (ast_statement.ast_if ipos icond ibody
          (.node pos (.node epos condition body) preceding) .NULL).type_check sym_tab s0 =
        some (.ast_if ipos icond1 ibody1
          (.node pos (.node epos condition1 body1) preceding) .NULL, void_type, s2) := by
  have h : (ast_elsif_list.node pos (.node epos condition body) preceding).type_check
      sym_tab s = some (.node pos (.node epos condition1 body1) preceding, void_type, s2) := by
    rw [elsif_list_type_check_node]
    simp [hp, hb, hc, hct]
  refine ⟨h, ?_⟩
  intro ipos icond icond1 ibody ibody1 ibt s0 s0' hic hib
  simp [ast_statement.type_check, hic, hib, h, ast_elsif_list.isNull, ast_stmt_list.isNull]

/-- C33 for `if 1 then x := 1 elsif 1 then x := 1 elsif 1 then x := 2.5 elsif 2.5 then
x := 1 end`: no error is reported, neither for the real condition nor for the assignment
`x := 2.5` of the earlier clause; and `if 1 then x := 1 elsif 2.5 then x := 1 end` checks
with no error either. -/
theorem elsif_list_non_integer_condition_witness :
    real_lit_2_5.type_check sample_sym_tab state0 = some (real_lit_2_5, real_type, state0)
    ∧ real_type ≠ integer_type
    ∧ (ast_statement.ast_if pos0 (int_lit 1) stmts_assign_x elsifs_real_condition
        .NULL).type_check sample_sym_tab state0 =
      some (.ast_if pos0 (int_lit 1) stmts_assign_x elsifs_real_condition .NULL,
        void_type, state0)
    ∧ (∃ r, ast_stmt_list.type_check sample_sym_tab stmts_assign_x_2_5 state0 = some r
        ∧ r.2.2.errors.length = 1)
    ∧ (ast_statement.ast_if pos0 (int_lit 1) stmts_assign_x
        (.node pos2 (.node pos2 real_lit_2_5 stmts_assign_x) .NULL) .NULL).type_check
        sample_sym_tab state0 =
      some (.ast_if pos0 (int_lit 1) stmts_assign_x
        (.node pos2 (.node pos2 real_lit_2_5 stmts_assign_x) .NULL) .NULL,
        void_type, state0) :=
  ⟨by decide, by decide,
    (elsif_list_non_integer_condition sample_sym_tab pos2 pos2 real_lit_2_5 real_lit_2_5
      stmts_assign_x stmts_assign_x
      (.node pos1 (.node pos1 (int_lit 1) stmts_assign_x_2_5)
        (.node pos0 (.node pos0 (int_lit 1) stmts_assign_x) .NULL))
      void_type real_type state0 state0 state0 (by decide) (by decide) (by decide)
      (by decide)).2 pos0 (int_lit 1) (int_lit 1) stmts_assign_x stmts_assign_x void_type
      state0 state0 (by decide) (by decide),
    by decide, by decide⟩

/-! ## The type returned and the type stored -/

/-- C34: the type a check returns and the type it stores on the node can disagree.  For a
relation neither of whose operands checks to integer (two real operands, say) the check
returns void and stores integer on the node; `check_binop2` stores integer on its error
path too; the logical not of such a relation reads the stored integer, so it returns
integer and reports nothing; the same relation as the condition of a while statement (here
with an absent body) or of an if statement is reported as a predicate that is not of
integer type. -/
theorem stored_type_differs_from_returned (sym_tab : symbol_table) (tag : binrel_tag)
    (pos : position_information) (type : sym_index) (left right left1 right1 : ast_expression)
    (s s1 s2 : checker_state) (lhs_type rhs_type : sym_index)
    (hl : left.type_check sym_tab s = some (left1, lhs_type, s1))
    (hr : right.type_check sym_tab s1 = some (right1, rhs_type, s2))
    (h1 : lhs_type ≠ integer_type) (h2 : rhs_type ≠ integer_type) :
    (ast_expression.ast_binaryrelation tag pos type left right).type_check sym_tab s =
      some (.ast_binaryrelation tag pos integer_type left1 right1, void_type, s2)
    ∧ (∀ (npos : position_information) (ntype : sym_index),
      (ast_expression.ast_not npos ntype
          (.ast_binaryrelation tag pos type left right)).type_check sym_tab s =
        some (.ast_not npos ntype (.ast_binaryrelation tag pos integer_type left1 right1),
          integer_type, s2))
    ∧ (∀ (wpos : position_information),
      (ast_statement.ast_while wpos
          (.ast_binaryrelation tag pos type left right) .NULL).type_check sym_tab s =
        some (.ast_while wpos (.ast_binaryrelation tag pos integer_type left1 right1) .NULL,
          void_type,
          ⟨s2.errors ++ [⟨some pos,
            [.text "while predicate must be of integer ", .text "type.\n"]⟩],
            s2.has_return⟩))
    ∧ (∀ (ipos : position_information) (body body1 : ast_stmt_list)
        (elsif_list : ast_elsif_list) (else_body : ast_stmt_list) (bt : sym_index)
        (s3 : checker_state),
      ast_stmt_list.type_check sym_tab body s2 = some (body1, bt, s3) →
      (ast_statement.ast_if ipos (.ast_binaryrelation tag pos type left right) body
          elsif_list else_body).type_check sym_tab s =
        some (.ast_if ipos (.ast_binaryrelation tag pos integer_type left1 right1) body1
            elsif_list else_body, void_type,
          ⟨s3.errors ++ [⟨some pos, [.text "if predicate must be of integer type.\n"]⟩],
            s3.has_return⟩))
    ∧ (∀ (btag : binop_tag) (name : String),
      check_binop2 btag pos left1 right1 lhs_type rhs_type name s2 =
        some (.ast_binaryoperation btag pos integer_type left1 right1, void_type,
          ⟨s2.errors ++ [⟨some pos, [.text "invalid condition in ", .text name,
            .text "-statement, all variables must be int\n"]⟩], s2.has_return⟩)) := by
  have h : (ast_expression.ast_binaryrelation tag pos type left right).type_check sym_tab s =
      some (.ast_binaryrelation tag pos integer_type left1 right1, void_type, s2) := by
    rw [binrel_type_check_eq sym_tab tag pos type left right left1 right1 s s1 s2 lhs_type
      rhs_type hl hr]
    simp [check_binrel, h1, h2]
  have hv : void_type ≠ integer_type := by decide
  refine ⟨h, ?_, ?_, ?_, ?_⟩
  · intro npos ntype
    generalize ast_expression.ast_binaryrelation tag pos type left right = e at h
    simp [ast_expression.type_check, h, ast_expression.type]
  · intro wpos
    generalize ast_expression.ast_binaryrelation tag pos type left right = e at h
    simp [ast_statement.type_check, h, hv, ast_expression.pos, ast_stmt_list.isNull,
      type_error]
  · intro ipos body body1 elsif_list else_body bt s3 hb
    generalize ast_expression.ast_binaryrelation tag pos type left right = e at h
    simp [ast_statement.type_check, h, hb, hv, ast_expression.pos, type_error]
  · intro btag name
    simp [check_binop2, h1, h2, type_error]

/-- C34 for `not (y < PI)` with the real variable `y` and the real constant `PI`: integer
and no error, while `while y < PI do end` is reported. -/
theorem stored_type_differs_from_returned_witness :
    id_y.type_check sample_sym_tab state0 = some (id_y, real_type, state0)
    ∧ id_PI.type_check sample_sym_tab state0 = some (id_PI, real_type, state0)
    ∧ real_type ≠ integer_type
    ∧ (ast_expression.ast_not pos0 void_type
        (.ast_binaryrelation .AST_LESSTHAN pos1 void_type id_y id_PI)).type_check
        sample_sym_tab state0 =
      some (.ast_not pos0 void_type
        (.ast_binaryrelation .AST_LESSTHAN pos1 integer_type id_y id_PI),
        integer_type, state0)
    ∧ (ast_statement.ast_while pos0
        (.ast_binaryrelation .AST_LESSTHAN pos1 void_type id_y id_PI) .NULL).type_check
        sample_sym_tab state0 =
      some (.ast_while pos0 (.ast_binaryrelation .AST_LESSTHAN pos1 integer_type id_y id_PI)
        .NULL, void_type,
        ⟨[⟨some pos1, [.text "while predicate must be of integer ", .text "type.\n"]⟩],
          false⟩) :=
  ⟨by decide, by decide, by decide,
    (stored_type_differs_from_returned sample_sym_tab .AST_LESSTHAN pos1 void_type id_y id_PI
      id_y id_PI state0 state0 state0 real_type real_type (by decide) (by decide) (by decide)
      (by decide)).2.1 pos0 void_type,
    by decide⟩

/-! ## Folding after the type check -/

theorem fold_constants_cast_left (sym_tab : symbol_table) (tag : binop_tag)
    (pos cpos : position_information) (ctype : sym_index) (inner right : ast_expression) :
    fold_constants sym_tab
        (.ast_binaryoperation tag pos real_type (.ast_cast cpos ctype inner) right) =
      (fold_constants sym_tab right).map
        (fun r => .ast_binaryoperation tag pos real_type (.ast_cast cpos ctype inner) r) := by
  cases hr : fold_constants sym_tab right with
  | none => simp [fold_constants, hr]
  | some r =>
    rw [fold_constants_binop_eq sym_tab tag pos real_type _ right (.ast_cast cpos ctype inner)
      r (by simp [fold_constants, is_binop]) hr]
    rw [fold_binop_unmatched]
    · rfl
    · simp [matching_literals, ast_expression.get_ast_real, integer_ne_real.symm]

theorem fold_constants_cast_right (sym_tab : symbol_table) (tag : binop_tag)
    (pos cpos : position_information) (ctype : sym_index) (inner left : ast_expression) :
    fold_constants sym_tab
        (.ast_binaryoperation tag pos real_type left (.ast_cast cpos ctype inner)) =
      (fold_constants sym_tab left).map
        (fun l => .ast_binaryoperation tag pos real_type l (.ast_cast cpos ctype inner)) := by
  cases hl : fold_constants sym_tab left with
  | none => simp [fold_constants, hl]
  | some l =>
    rw [fold_constants_binop_eq sym_tab tag pos real_type left _ l
      (.ast_cast cpos ctype inner) hl (by simp [fold_constants, is_binop])]
    rw [fold_binop_unmatched]
    · rfl
    · simp [matching_literals, ast_expression.get_ast_real, integer_ne_real.symm]

/-- C35: arithmetic on literals that needs a widening cast is not folded after the type
check.  For add, sub and mult of an integer literal and a real literal, in either order,
the check wraps the integer literal in a cast and `fold_constants` returns the checked
operator node as it is.  For divide with an integer literal on one side (its `type` field
integer, as the parser builds it) the check wraps that literal in a cast, and
`fold_constants` of the checked node, whenever the other operand folds, is the operator
node with the cast still in place, never a literal. -/
theorem cast_operand_never_folded (sym_tab : symbol_table) (tag : binop_tag)
    (pos ipos rpos : position_information) (type itype rtype : sym_index) (a : Int)
    (y : Double) (s : checker_state)
    (htag : tag = .AST_ADD ∨ tag = .AST_SUB ∨ tag = .AST_MULT) :
    ((ast_expression.ast_binaryoperation tag pos type (.ast_integer ipos itype a)
          (.ast_real rpos rtype y)).type_check sym_tab s =
        some (.ast_binaryoperation tag pos real_type
          (.ast_cast ipos real_type (.ast_integer ipos itype a)) (.ast_real rpos rtype y),
          real_type, s)
      ∧ fold_constants sym_tab (.ast_binaryoperation tag pos real_type
          (.ast_cast ipos real_type (.ast_integer ipos itype a)) (.ast_real rpos rtype y)) =
        some (.ast_binaryoperation tag pos real_type
          (.ast_cast ipos real_type (.ast_integer ipos itype a)) (.ast_real rpos rtype y)))
    ∧ ((ast_expression.ast_binaryoperation tag pos type (.ast_real rpos rtype y)
          (.ast_integer ipos itype a)).type_check sym_tab s =
        some (.ast_binaryoperation tag pos real_type (.ast_real rpos rtype y)
          (.ast_cast ipos real_type (.ast_integer ipos itype a)), real_type, s)
      ∧ fold_constants sym_tab (.ast_binaryoperation tag pos real_type
          (.ast_real rpos rtype y) (.ast_cast ipos real_type (.ast_integer ipos itype a))) =
        some (.ast_binaryoperation tag pos real_type (.ast_real rpos rtype y)
          (.ast_cast ipos real_type (.ast_integer ipos itype a))))
    ∧ (∀ (other other1 : ast_expression) (otype : sym_index) (s1 : checker_state),
      other.type_check sym_tab s = some (other1, otype, s1) →
      ∃ other2,
        (ast_expression.ast_binaryoperation .AST_DIVIDE pos type
            (.ast_integer ipos integer_type a) other).type_check sym_tab s =
          some (.ast_binaryoperation .AST_DIVIDE pos real_type
            (.ast_cast ipos real_type (.ast_integer ipos integer_type a)) other2,
            real_type, s1)
        ∧ fold_constants sym_tab (.ast_binaryoperation .AST_DIVIDE pos real_type
            (.ast_cast ipos real_type (.ast_integer ipos integer_type a)) other2) =
          (fold_constants sym_tab other2).map (fun r =>
            .ast_binaryoperation .AST_DIVIDE pos real_type
              (.ast_cast ipos real_type (.ast_integer ipos integer_type a)) r))
    ∧ (∀ (other other1 : ast_expression) (otype : sym_index) (s1 : checker_state),
      other.type_check sym_tab s = some (other1, otype, s1) →
      ∃ other2,
        (ast_expression.ast_binaryoperation .AST_DIVIDE pos type other
            (.ast_integer ipos integer_type a)).type_check sym_tab s =
          some (.ast_binaryoperation .AST_DIVIDE pos real_type other2
            (.ast_cast ipos real_type (.ast_integer ipos integer_type a)),
            real_type, s1)
        ∧ fold_constants sym_tab (.ast_binaryoperation .AST_DIVIDE pos real_type other2
            (.ast_cast ipos real_type (.ast_integer ipos integer_type a))) =
          (fold_constants sym_tab other2).map (fun l =>
            .ast_binaryoperation .AST_DIVIDE pos real_type l
              (.ast_cast ipos real_type (.ast_integer ipos integer_type a)))) := by
  have hi : ∀ (t : sym_index) (s' : checker_state),
      (ast_expression.ast_integer ipos t a).type_check sym_tab s' =
        some (.ast_integer ipos t a, integer_type, s') := by
    intro t s'
    simp [ast_expression.type_check]
  have hy : (ast_expression.ast_real rpos rtype y).type_check sym_tab s =
      some (.ast_real rpos rtype y, real_type, s) := by
    simp [ast_expression.type_check]
  have hfi : fold_constants sym_tab (.ast_real rpos rtype y) = some (.ast_real rpos rtype y) := by
    simp [fold_constants, is_binop]
  have hit : (ast_expression.ast_integer ipos integer_type a).type = some integer_type := rfl
  have hip : (ast_expression.ast_integer ipos integer_type a).pos = some ipos := rfl
  refine ⟨⟨?_, ?_⟩, ⟨?_, ?_⟩, ?_, ?_⟩
  · rw [binop_type_check_eq sym_tab tag pos type _ _ _ _ s s s integer_type real_type
      (hi itype s) hy]
    rcases htag with h | h | h <;> subst h <;>
      simp [check_binop1, integer_ne_real, integer_ne_real.symm, ast_expression.pos,
        new_ast_cast]
  · rw [fold_constants_cast_left, hfi]
    rfl
  · rw [binop_type_check_eq sym_tab tag pos type _ _ _ _ s s s real_type integer_type
      hy (hi itype s)]
    rcases htag with h | h | h <;> subst h <;>
      simp [check_binop1, integer_ne_real, integer_ne_real.symm, ast_expression.pos,
        new_ast_cast]
  · rw [fold_constants_cast_right, hfi]
    rfl
  · intro other other1 otype s1 ho
    obtain ⟨⟨ot, hot⟩, ⟨opos, hopos⟩⟩ :=
      not_null_type_pos other1 (type_check_not_null _ _ _ _ _ _ ho)
    refine ⟨if ot = integer_type then .ast_cast opos real_type other1 else other1, ?_,
      fold_constants_cast_left _ _ _ _ _ _ _⟩
    rw [binop_type_check_eq sym_tab .AST_DIVIDE pos type _ other _ other1 s s s1 integer_type
      otype (hi integer_type s) ho]
    by_cases h : ot = integer_type <;>
      simp [check_divide, hot, hopos, h, hit, hip, new_ast_cast]
  · intro other other1 otype s1 ho
    obtain ⟨⟨ot, hot⟩, ⟨opos, hopos⟩⟩ :=
      not_null_type_pos other1 (type_check_not_null _ _ _ _ _ _ ho)
    refine ⟨if ot = integer_type then .ast_cast opos real_type other1 else other1, ?_,
      fold_constants_cast_right _ _ _ _ _ _ _⟩
    rw [binop_type_check_eq sym_tab .AST_DIVIDE pos type other _ other1 _ s s1 s1 otype
      integer_type ho (hi integer_type s1)]
    by_cases h : ot = integer_type <;>
      simp [check_divide, hot, hopos, h, hit, hip, new_ast_cast]

/-- C35 for `2 + 2.5`: the checked node `add(cast(2), 2.5)` of real type is what
`fold_constants` returns; and for `2 / 3`, checked to `divide(cast(2), cast(3))`. -/
theorem cast_operand_never_folded_witness :
    (ast_expression.ast_binaryoperation .AST_ADD pos0 void_type (int_lit 2)
        real_lit_2_5).type_check sample_sym_tab state0 =
      some (.ast_binaryoperation .AST_ADD pos0 real_type
        (.ast_cast pos1 real_type (int_lit 2)) real_lit_2_5, real_type, state0)
    ∧ fold_constants sample_sym_tab (.ast_binaryoperation .AST_ADD pos0 real_type
        (.ast_cast pos1 real_type (int_lit 2)) real_lit_2_5) =
      some (.ast_binaryoperation .AST_ADD pos0 real_type
        (.ast_cast pos1 real_type (int_lit 2)) real_lit_2_5)
    ∧ (ast_expression.ast_binaryoperation .AST_DIVIDE pos0 void_type (int_lit 2)
        (int_lit 3)).type_check sample_sym_tab state0 =
      some (.ast_binaryoperation .AST_DIVIDE pos0 real_type
        (.ast_cast pos1 real_type (int_lit 2)) (.ast_cast pos1 real_type (int_lit 3)),
        real_type, state0)
    ∧ fold_constants sample_sym_tab (.ast_binaryoperation .AST_DIVIDE pos0 real_type
        (.ast_cast pos1 real_type (int_lit 2)) (.ast_cast pos1 real_type (int_lit 3))) =
      some (.ast_binaryoperation .AST_DIVIDE pos0 real_type
        (.ast_cast pos1 real_type (int_lit 2)) (.ast_cast pos1 real_type (int_lit 3))) :=
  ⟨(cast_operand_never_folded sample_sym_tab .AST_ADD pos0 pos1 pos1 void_type integer_type
      real_type 2 (.finite false 5 1) state0 (Or.inl rfl)).1.1,
    (cast_operand_never_folded sample_sym_tab .AST_ADD pos0 pos1 pos1 void_type integer_type
      real_type 2 (.finite false 5 1) state0 (Or.inl rfl)).1.2,
    by decide, by decide⟩

theorem fold_binop_result (tag : binop_tag) (pos : position_information) (type : sym_index)
    (left right res : ast_expression) (f : Double → Double → Option Double)
    (h : fold_binop tag pos type left right f = some res) :
    (∃ v, type = integer_type ∧ res = .ast_integer pos integer_type v)
    ∨ (∃ v, type = real_type ∧ res = .ast_real pos real_type v)
    ∨ res = .ast_binaryoperation tag pos type left right := by
  cases hm : matching_literals type left right with
  | false =>
    rw [fold_binop_unmatched tag pos type left right f hm] at h
    cases h
    exact Or.inr (Or.inr rfl)
  | true =>
    by_cases h1 : type = integer_type
    · subst h1
      cases ha : left.get_ast_integer with
      | none => simp [matching_literals, ha, integer_ne_real, integer_ne_real.symm] at hm
      | some a =>
        cases hb : right.get_ast_integer with
        | none => simp [matching_literals, hb, integer_ne_real, integer_ne_real.symm] at hm
        | some b =>
          rw [fold_binop_integer tag pos left right f a b ha hb] at h
          simp only [Option.map_eq_some'] at h
          obtain ⟨w, _, rfl⟩ := h
          exact Or.inl ⟨w, rfl, rfl⟩
    · have h2 : type = real_type := by
        simp [matching_literals, h1] at hm
        exact hm.1.1
      subst h2
      cases ha : left.get_ast_real with
      | none => simp [matching_literals, ha, integer_ne_real, integer_ne_real.symm] at hm
      | some a =>
        cases hb : right.get_ast_real with
        | none => simp [matching_literals, hb, integer_ne_real, integer_ne_real.symm] at hm
        | some b =>
          rw [fold_binop_real tag pos left right f a b ha hb] at h
          simp only [Option.map_eq_some'] at h
          obtain ⟨w, _, rfl⟩ := h
          exact Or.inr (Or.inl ⟨w, rfl, rfl⟩)

/-- C36: constant folding preserves the `type` field: whenever `fold_constants` returns a
node for an expression `e`, that node has the type of `e`.  An expression that is not a
binary operation is returned as it is; a binary operation of integer type comes back as an
integer literal (of integer type) or as the operator node, one of real type as a real
literal (of real type) or as the operator node, and the operator node that comes back has
the tag, position and type of `e` and the folded operands. -/
theorem fold_constants_preserves_type (sym_tab : symbol_table) (e e1 : ast_expression)
    (h : fold_constants sym_tab e = some e1) :
    e1.type = e.type
    ∧ (is_binop e = false → e1 = e)
    ∧ (∀ (tag : binop_tag) (pos : position_information) (type : sym_index)
        (left right : ast_expression), e = .ast_binaryoperation tag pos type left right →
      (∃ v, type = integer_type ∧ e1 = .ast_integer pos integer_type v)
      ∨ (∃ v, type = real_type ∧ e1 = .ast_real pos real_type v)
      ∨ (∃ left1 right1, fold_constants sym_tab left = some left1
          ∧ fold_constants sym_tab right = some right1
          ∧ e1 = .ast_binaryoperation tag pos type left1 right1)) := by
  have hnn : e.isNull = false := by
    cases e with
    | NULL => simp [fold_constants] at h
    | _ => rfl
  have key : ∀ (tag : binop_tag) (pos : position_information) (type : sym_index)
      (left right : ast_expression), e = .ast_binaryoperation tag pos type left right →
      (∃ v, type = integer_type ∧ e1 = .ast_integer pos integer_type v)
      ∨ (∃ v, type = real_type ∧ e1 = .ast_real pos real_type v)
      ∨ (∃ left1 right1, fold_constants sym_tab left = some left1
          ∧ fold_constants sym_tab right = some right1
          ∧ e1 = .ast_binaryoperation tag pos type left1 right1) := by
    intro tag pos type left right he
    subst he
    simp only [fold_constants, Option.bind_eq_bind, Option.bind_eq_some] at h
    obtain ⟨l1, hl, r1, hr, h⟩ := h
    rcases fold_binop_result tag pos type l1 r1 e1 _ h with h1 | h1 | h1
    · exact Or.inl h1
    · exact Or.inr (Or.inl h1)
    · exact Or.inr (Or.inr ⟨l1, r1, hl, hr, h1⟩)
  have hnb : is_binop e = false → e1 = e := by
    intro hb
    rw [fold_constants_of_not_binop sym_tab e hnn hb] at h
    cases h
    rfl
  refine ⟨?_, hnb, key⟩
  cases hb : is_binop e with
  | false => rw [hnb hb]
  | true =>
    cases e with
    | ast_binaryoperation tag pos type left right =>
      rcases key tag pos type left right rfl with ⟨v, ht, he⟩ | ⟨v, ht, he⟩ |
        ⟨l1, r1, _, _, he⟩
      · subst ht he
        rfl
      · subst ht he
        rfl
      · subst he
        rfl
    | _ => simp [is_binop] at hb

/-- C36 for `2 + 3` of integer type, folded to the integer literal `5` of integer type. -/
theorem fold_constants_preserves_type_witness :
    fold_constants sample_sym_tab
        (.ast_binaryoperation .AST_ADD pos0 integer_type (int_lit 2) (int_lit 3)) =
      some (.ast_integer pos0 integer_type 5)
    ∧ (ast_expression.ast_integer pos0 integer_type 5).type =
      (ast_expression.ast_binaryoperation .AST_ADD pos0 integer_type (int_lit 2)
        (int_lit 3)).type :=
  ⟨by decide,
    (fold_constants_preserves_type sample_sym_tab
      (.ast_binaryoperation .AST_ADD pos0 integer_type (int_lit 2) (int_lit 3))
      (.ast_integer pos0 integer_type 5) (by decide)).1⟩

/-- C37: folding is incomplete below binary operators.  `fold_constants` returns every
node that is not a binary operation (unary minus, not, relation, indexed access, function
call, cast, literal, and identifier too) as it is, without a look at its children; the
`optimize` step of a binary operation returns the node as it is; so the type-correct
assignment `x := x2 + (-(2 + 3))` with integer `x` and `x2` checks without an error and
its tree after `optimize` is the checked tree itself, which still holds the integer-typed
node `add(2, 3)` that `fold_constants` alone turns into the literal `5`. -/
theorem folding_incomplete_below_binop :
    (∀ (sym_tab : symbol_table) (e : ast_expression), e.isNull = false →
      is_binop e = false → fold_constants sym_tab e = some e)
    ∧ (∀ (sym_tab : symbol_table) (tag : binop_tag) (pos : position_information)
        (type : sym_index) (left right : ast_expression),
      (ast_expression.ast_binaryoperation tag pos type left right).optimize sym_tab =
        some (.ast_binaryoperation tag pos type left right))
    ∧ assign_sum_of_negation.type_check sample_sym_tab state0 =
      some (assign_sum_of_negation_checked, integer_type, state0)
    ∧ assign_sum_of_negation_checked.optimize sample_sym_tab =
      some (.ast_assign pos0 id_x (.ast_binaryoperation .AST_ADD pos0 integer_type id_x2
        (.ast_uminus pos1 integer_type
          (.ast_binaryoperation .AST_ADD pos2 integer_type (int_lit 2) (int_lit 3)))))
    ∧ fold_constants sample_sym_tab
        (.ast_binaryoperation .AST_ADD pos2 integer_type (int_lit 2) (int_lit 3)) =
      some (.ast_integer pos2 integer_type 5) := by
  refine ⟨?_, ?_, by decide, by decide, by decide⟩
  · intro sym_tab e hn hb
    exact fold_constants_of_not_binop sym_tab e hn hb
  · intro sym_tab tag pos type left right
    simp [ast_expression.optimize]

/-- C37 for the unary minus `-(2 + 3)`: `fold_constants` returns it with the sum inside. -/
theorem folding_incomplete_below_binop_witness :
    fold_constants sample_sym_tab (.ast_uminus pos1 integer_type
        (.ast_binaryoperation .AST_ADD pos2 integer_type (int_lit 2) (int_lit 3))) =
      some (.ast_uminus pos1 integer_type
        (.ast_binaryoperation .AST_ADD pos2 integer_type (int_lit 2) (int_lit 3))) :=
  folding_incomplete_below_binop.1 sample_sym_tab _ rfl rfl

/-! ## The divisor of a folded remainder -/

/-- C38, as amended: for an integer-typed `mod` node whose operands are integer literals
`a` and `b` in the range of `int` (`-2^31 ≤ a, b < 2^31`), `fold_constants` has a defined
result if and only if `b` is non-zero and the operands are not `a = -2^31` with `b = -1`;
with a right literal of `0` it has none: the folder evaluates a remainder by zero. -/
theorem fold_mod_defined_iff (sym_tab : symbol_table)
    (pos lpos rpos : position_information) (ltype rtype : sym_index) (a b : Int)
    (ha : -(2 : Int) ^ 31 ≤ a ∧ a < (2 : Int) ^ 31)
    (hb : -(2 : Int) ^ 31 ≤ b ∧ b < (2 : Int) ^ 31) :
    ((fold_constants sym_tab (.ast_binaryoperation .AST_MOD pos integer_type
        (.ast_integer lpos ltype a) (.ast_integer rpos rtype b))).isSome = true
      ↔ (b ≠ 0 ∧ ¬ (a = -(2 : Int) ^ 31 ∧ b = -1)))
    ∧ (b = 0 →
      fold_constants sym_tab (.ast_binaryoperation .AST_MOD pos integer_type
        (.ast_integer lpos ltype a) (.ast_integer rpos rtype b)) = none) := by
  rw [fold_constants_integer_literals sym_tab .AST_MOD pos lpos rpos ltype rtype a b]
  simp only [fold_function]
  have hnone : (b = 0 ∨ (a = -(2 : Int) ^ 31 ∧ b = -1)) →
      fold_mod (Double.ofLong a) (Double.ofLong b) = none := by
    intro hc
    simp only [fold_mod, toInt_ofLong a ha, toInt_ofLong b hb, Option.bind_eq_bind,
      Option.some_bind]
    rw [if_pos hc]
  constructor
  · constructor
    · intro h
      by_contra hc
      have hc' : b = 0 ∨ (a = -(2 : Int) ^ 31 ∧ b = -1) := by
        by_cases h0 : b = 0
        · exact Or.inl h0
        · right
          by_contra h1
          exact hc ⟨h0, h1⟩
      rw [hnone hc'] at h
      simp at h
    · intro h
      rw [fold_mod_in_range a b ha hb h.1 h.2]
      rfl
  · intro h
    rw [hnone (Or.inl h)]
    rfl

/-- C38, the amended statement for `7 mod 2` (defined) and `7 mod 0` (no result). -/
theorem fold_mod_defined_iff_witness :
    (-(2 : Int) ^ 31 ≤ 7 ∧ (7 : Int) < (2 : Int) ^ 31)
    ∧ (-(2 : Int) ^ 31 ≤ 0 ∧ (0 : Int) < (2 : Int) ^ 31)
    ∧ (fold_constants sample_sym_tab (.ast_binaryoperation .AST_MOD pos0 integer_type
        (.ast_integer pos1 integer_type 7) (.ast_integer pos2 integer_type 2))).isSome = true
    ∧ fold_constants sample_sym_tab (.ast_binaryoperation .AST_MOD pos0 integer_type
        (.ast_integer pos1 integer_type 7) (.ast_integer pos2 integer_type 0)) = none :=
  ⟨by decide, by decide, by decide,
    (fold_mod_defined_iff sample_sym_tab pos0 pos1 pos2 integer_type integer_type 7 0
      (by decide) (by decide)).2 rfl⟩

/-- C38 as stated fails: in `-2147483648 mod -1` the right literal is non-zero, yet the
remainder has no defined result, since the quotient does not fit an `int`. -/
theorem fold_mod_min_int_by_minus_one :
    (-1 : Int) ≠ 0
    ∧ fold_constants sample_sym_tab (.ast_binaryoperation .AST_MOD pos0 integer_type
        (int_lit (-2147483648)) (int_lit (-1))) = none := by
  refine ⟨by decide, by decide⟩

/-! ## Absent statement lists -/

/-- C39: the passes are not total on a statement whose body is the null list, which is
what the parser builds for an empty body.  The type check of a while statement skips a
null body: with a condition that checks to integer it returns the statement with the
state the condition left, no error added.  The `optimize` steps of while and of if, and
the type check of if, use the body without a test, so on a null body they have no result,
whatever the condition is.  The `optimize` step of an elsif clause tests the body, so with
a null body it returns the clause with its condition optimized and folded.  For
`while 2 do end` the type check succeeds with no error and `optimize` then fails. -/
theorem null_body_not_total (sym_tab : symbol_table) (pos : position_information)
    (condition : ast_expression) :
    (∀ (lpos : position_information), stmt_list_of_stmt lpos stmt_empty = .NULL)
    ∧ (∀ (condition1 : ast_expression) (s s1 : checker_state),
      condition.type_check sym_tab s = some (condition1, integer_type, s1) →
      (ast_statement.ast_while pos condition .NULL).type_check sym_tab s =
        some (.ast_while pos condition1 .NULL, void_type, s1))
    ∧ (ast_statement.ast_while pos condition .NULL).optimize sym_tab = none
    ∧ (∀ (elsif_list : ast_elsif_list) (else_body : ast_stmt_list),
      (ast_statement.ast_if pos condition .NULL elsif_list else_body).optimize sym_tab = none)
    ∧ (∀ (elsif_list : ast_elsif_list) (else_body : ast_stmt_list) (s : checker_state),
      (ast_statement.ast_if pos condition .NULL elsif_list else_body).type_check sym_tab s =
        none)
    ∧ (∀ (condition1 condition2 : ast_expression),
      condition.optimize sym_tab = some condition1 →
      fold_constants sym_tab condition1 = some condition2 →
      (ast_elsif.node pos condition .NULL).optimize sym_tab =
        some (.node pos condition2 .NULL))
    ∧ (ast_statement.ast_while pos0 (int_lit 2)
        (stmt_list_of_stmt pos1 stmt_empty)).type_check sample_sym_tab state0 =
      some (.ast_while pos0 (int_lit 2) .NULL, void_type, state0)
    ∧ (ast_statement.ast_while pos0 (int_lit 2) .NULL).optimize sample_sym_tab = none
    ∧ (ast_elsif.node pos0 (int_lit 2) .NULL).optimize sample_sym_tab =
      some (.node pos0 (int_lit 2) .NULL) := by
  refine ⟨fun _ => rfl, ?_, ?_, ?_, ?_, ?_, by decide, by decide, by decide⟩
  · intro condition1 s s1 hc
    simp [ast_statement.type_check, hc, ast_stmt_list.isNull]
  · cases h1 : condition.optimize sym_tab with
    | none => simp [ast_statement.optimize, h1]
    | some c1 =>
      cases h2 : fold_constants sym_tab c1 with
      | none => simp [ast_statement.optimize, h1, h2]
      | some c2 => simp [ast_statement.optimize, h1, h2, ast_stmt_list.optimize]
  · intro elsif_list else_body
    cases h1 : condition.optimize sym_tab with
    | none => simp [ast_statement.optimize, h1]
    | some c1 =>
      cases h2 : fold_constants sym_tab c1 with
      | none => simp [ast_statement.optimize, h1, h2]
      | some c2 => simp [ast_statement.optimize, h1, h2, ast_stmt_list.optimize]
  · intro elsif_list else_body s
    cases h1 : condition.type_check sym_tab s with
    | none => simp [ast_statement.type_check, h1]
    | some r =>
      obtain ⟨c1, t, s1⟩ := r
      simp [ast_statement.type_check, h1, ast_stmt_list.type_check]
  · intro condition1 condition2 h1 h2
    simp [ast_elsif.optimize, h1, h2, ast_stmt_list.isNull]

/-- C39 for `while 2 do end`: the condition `2` checks to integer, so the type check
returns the statement with no error. -/
theorem null_body_not_total_witness :
    (int_lit 2).type_check sample_sym_tab state0 = some (int_lit 2, integer_type, state0)
    ∧ (ast_statement.ast_while pos0 (int_lit 2) .NULL).type_check sample_sym_tab state0 =
      some (.ast_while pos0 (int_lit 2) .NULL, void_type, state0) :=
  ⟨by decide,
    (null_body_not_total sample_sym_tab pos0 (int_lit 2)).2.1 (int_lit 2) state0 state0
      (by decide)⟩

/-! ### Rounding to the nearest `double` -/

theorem lt_pow_bitLenAux (fuel : Nat) : ∀ n : Nat, n ≤ fuel → n < 2 ^ bitLenAux fuel n := by
  induction fuel with
  | zero =>
    intro n h
    have : n = 0 := by omega
    subst this
    simp [bitLenAux]
  | succ f ih =>
    intro n h
    unfold bitLenAux
    by_cases hn : n = 0
    · simp [hn]
    · simp only [hn, if_false]
      have h1 : n / 2 ≤ f := by omega
      have h2 := ih (n / 2) h1
      rw [pow_succ]
      omega

theorem lt_pow_bitLen (n : Nat) : n < 2 ^ bitLen n := lt_pow_bitLenAux n n (le_refl n)

theorem pow_bitLen_le (n : Nat) (h : n ≠ 0) : 2 ^ (bitLen n - 1) ≤ n :=
  bitLenAux_pow_le n n h

theorem bitLen_le_of_lt (n k : Nat) (h : n < 2 ^ k) : bitLen n ≤ k := bitLenAux_le n n k h

theorem lt_bitLen_of_le (n k : Nat) (h : 2 ^ k ≤ n) : k < bitLen n := by
  by_contra hc
  have h1 : bitLen n ≤ k := by omega
  have h2 := lt_pow_bitLen n
  have h3 : 2 ^ bitLen n ≤ 2 ^ k := Nat.pow_le_pow_right (by norm_num) h1
  omega

/-- The quantities that `Double.round` computes: the number `d` of dropped bits, the
quotient `q`, the remainder `r` and the rounded quotient `m`. -/
theorem round_parts (neg : Bool) (n k : Nat) : ∃ d q r m : Nat,
    n = q * 2 ^ d + r ∧ r < 2 ^ d
    ∧ ((m = q ∧ 2 * r ≤ 2 ^ d ∧ (2 * r = 2 ^ d → q % 2 = 0))
      ∨ (m = q + 1 ∧ 2 ^ d ≤ 2 * r ∧ (2 * r = 2 ^ d → q % 2 = 1)))
    ∧ q < 2 ^ 53 ∧ k ≤ d + 1074 ∧ (k < d + 1074 → d ≠ 0 → 2 ^ 52 ≤ q)
    ∧ bitLen n ≤ d + 53 ∧ (bitLen n ≤ 1024 + k → d ≤ 971 + k)
    ∧ Double.round neg n k =
      if 1024 + k < bitLen m + d then Double.inf neg
      else Double.finite neg (Double.strip (m * 2 ^ d) k).1 (Double.strip (m * 2 ^ d) k).2 := by
  let d := max (bitLen n - 53) (k - 1074)
  have hd : d = max (bitLen n - 53) (k - 1074) := rfl
  have hpos : 0 < 2 ^ d := Nat.two_pow_pos d
  refine ⟨d, n / 2 ^ d, n % 2 ^ d,
    if 2 ^ d < 2 * (n % 2 ^ d) ∨ (2 * (n % 2 ^ d) = 2 ^ d ∧ (n / 2 ^ d) % 2 = 1)
      then n / 2 ^ d + 1 else n / 2 ^ d, ?_, ?_, ?_, ?_, ?_, ?_, ?_, ?_, ?_⟩
  · rw [Nat.mul_comm]
    exact (Nat.div_add_mod n (2 ^ d)).symm
  · exact Nat.mod_lt n hpos
  · by_cases hc : 2 ^ d < 2 * (n % 2 ^ d) ∨ (2 * (n % 2 ^ d) = 2 ^ d ∧ (n / 2 ^ d) % 2 = 1)
    · right
      rw [if_pos hc]
      refine ⟨rfl, ?_, ?_⟩
      · rcases hc with h | h
        · omega
        · omega
      · intro h
        rcases hc with h1 | h1
        · omega
        · exact h1.2
    · left
      rw [if_neg hc]
      refine ⟨rfl, ?_, ?_⟩
      · by_contra h
        exact hc (Or.inl (by omega))
      · intro h
        by_contra h1
        exact hc (Or.inr ⟨h, by omega⟩)
  · have h1 := lt_pow_bitLen n
    have h2 : bitLen n ≤ d + 53 := by omega
    have h3 : 2 ^ bitLen n ≤ 2 ^ (d + 53) := Nat.pow_le_pow_right (by norm_num) h2
    rw [Nat.div_lt_iff_lt_mul hpos]
    rw [pow_add] at h3
    rw [Nat.mul_comm]
    omega
  · omega
  · intro h1 h2
    have h3 : d = bitLen n - 53 := by omega
    have hn : n ≠ 0 := by
      intro h0
      have : bitLen n = 0 := by rw [h0]; rfl
      omega
    have h4 := pow_bitLen_le n hn
    have h5 : bitLen n - 1 = 52 + d := by omega
    rw [h5, pow_add] at h4
    exact (Nat.le_div_iff_mul_le hpos).2 h4
  · omega
  · intro h
    omega
  · rfl

theorem flag_iff (m d k : Nat) (hm : m ≠ 0) :
    1024 + k < bitLen m + d ↔ 2 ^ (1024 + k) ≤ m * 2 ^ d := by
  constructor
  · intro h
    have h1 := pow_bitLen_le m hm
    have h2 : 2 ^ (1024 + k) ≤ 2 ^ (bitLen m - 1 + d) :=
      Nat.pow_le_pow_right (by norm_num) (by omega)
    have h3 : 2 ^ (bitLen m - 1) * 2 ^ d ≤ m * 2 ^ d := Nat.mul_le_mul_right _ h1
    exact le_trans (h2.trans_eq (pow_add 2 _ _)) h3
  · intro h
    have h1 := lt_pow_bitLen m
    have hpos : 0 < 2 ^ d := Nat.two_pow_pos d
    have h2 : m * 2 ^ d < 2 ^ bitLen m * 2 ^ d := Nat.mul_lt_mul_of_pos_right h1 hpos
    rw [← pow_add] at h2
    have h3 : 2 ^ (1024 + k) < 2 ^ (bitLen m + d) := lt_of_le_of_lt h h2
    exact (Nat.pow_lt_pow_iff_right (by norm_num)).1 h3

theorem round_parts_near (d q r m n : Nat) (hn : n = q * 2 ^ d + r)
    (hm : (m = q ∧ 2 * r ≤ 2 ^ d ∧ (2 * r = 2 ^ d → q % 2 = 0))
      ∨ (m = q + 1 ∧ 2 ^ d ≤ 2 * r ∧ (2 * r = 2 ^ d → q % 2 = 1)))
    (hr : r < 2 ^ d) :
    2 * (m * 2 ^ d) ≤ 2 * n + 2 ^ d ∧ 2 * n ≤ 2 * (m * 2 ^ d) + 2 ^ d := by
  subst hn
  rcases hm with ⟨rfl, h1, _⟩ | ⟨rfl, h1, _⟩
  · generalize m * 2 ^ d = A
    generalize 2 ^ d = X at *
    omega
  · rw [Nat.add_mul, Nat.one_mul]
    generalize q * 2 ^ d = A
    generalize 2 ^ d = X at *
    omega

/-- No multiple of `2^d` is nearer to `n` than the rounded one. -/
theorem round_parts_nearest (d q r m n t : Nat) (hn : n = q * 2 ^ d + r)
    (hm : (m = q ∧ 2 * r ≤ 2 ^ d ∧ (2 * r = 2 ^ d → q % 2 = 0))
      ∨ (m = q + 1 ∧ 2 ^ d ≤ 2 * r ∧ (2 * r = 2 ^ d → q % 2 = 1)))
    (hr : r < 2 ^ d) :
    |((m * 2 ^ d : Nat) : Int) - n| ≤ |((t * 2 ^ d : Nat) : Int) - n| := by
  subst hn
  rcases Nat.lt_or_ge q t with ht | ht
  · have h1 : (q + 1) * 2 ^ d ≤ t * 2 ^ d := Nat.mul_le_mul_right _ ht
    rw [Nat.add_mul, Nat.one_mul] at h1
    rcases hm with ⟨rfl, h2, _⟩ | ⟨rfl, h2, _⟩
    · generalize t * 2 ^ d = B at *
      generalize m * 2 ^ d = A at *
      generalize 2 ^ d = X at *
      rw [abs_le]
      constructor <;> (rw [abs_of_nonneg (by omega)]; omega)
    · rw [Nat.add_mul, Nat.one_mul]
      generalize t * 2 ^ d = B at *
      generalize q * 2 ^ d = A at *
      generalize 2 ^ d = X at *
      rw [abs_le]
      constructor <;> (rw [abs_of_nonneg (by omega)]; omega)
  · have h1 : t * 2 ^ d ≤ q * 2 ^ d := Nat.mul_le_mul_right _ ht
    rcases hm with ⟨rfl, h2, _⟩ | ⟨rfl, h2, _⟩
    · generalize t * 2 ^ d = B at *
      generalize m * 2 ^ d = A at *
      generalize 2 ^ d = X at *
      rw [abs_le]
      constructor <;> (rw [abs_of_nonpos (by omega)]; omega)
    · rw [Nat.add_mul, Nat.one_mul]
      generalize t * 2 ^ d = B at *
      generalize q * 2 ^ d = A at *
      generalize 2 ^ d = X at *
      rw [abs_le]
      constructor <;> (rw [abs_of_nonpos (by omega)]; omega)

theorem round_flag_ne_zero (d q m k : Nat)
    (hm : m = q ∨ m = q + 1) (hq52 : k < d + 1074 → d ≠ 0 → 2 ^ 52 ≤ q)
    (hflag : 1024 + k < bitLen m + d) : m ≠ 0 := by
  intro h0
  subst h0
  have hb : bitLen 0 = 0 := rfl
  rw [hb] at hflag
  have hq : q = 0 := by omega
  have := hq52 (by omega) (by omega)
  omega

/-- When `round` overflows, the exact value is at least `2^1024 - 2^970`. -/
theorem round_overflow_bound (d q r m n k : Nat) (hn : n = q * 2 ^ d + r)
    (hm : (m = q ∧ 2 * r ≤ 2 ^ d ∧ (2 * r = 2 ^ d → q % 2 = 0))
      ∨ (m = q + 1 ∧ 2 ^ d ≤ 2 * r ∧ (2 * r = 2 ^ d → q % 2 = 1)))
    (hr : r < 2 ^ d) (hd971 : bitLen n ≤ 1024 + k → d ≤ 971 + k)
    (hflag : 2 ^ (1024 + k) ≤ m * 2 ^ d) :
    2 ^ (1024 + k) ≤ n + 2 ^ (970 + k) := by
  rcases Nat.lt_or_ge n (2 ^ (1024 + k)) with hlt | hge
  · have hd : d ≤ 971 + k := hd971 (bitLen_le_of_lt n _ hlt)
    have h1 := (round_parts_near d q r m n hn hm hr).1
    have h2 : 2 ^ d ≤ 2 ^ (971 + k) := Nat.pow_le_pow_right (by norm_num) hd
    have h3 : 2 ^ (971 + k) = 2 * 2 ^ (970 + k) := by
      rw [show 971 + k = (970 + k) + 1 by omega, pow_succ]
      ring
    generalize 2 ^ (1024 + k) = T at *
    generalize 2 ^ (970 + k) = U at *
    generalize 2 ^ (971 + k) = V at *
    generalize m * 2 ^ d = A at *
    generalize 2 ^ d = X at *
    omega
  · exact le_trans hge (Nat.le_add_right _ _)

/-- When `round` does not overflow, the exact value is below `2^1024 - 2^970`. -/
theorem round_finite_bound (d q r m n k : Nat) (hn : n = q * 2 ^ d + r)
    (hm : (m = q ∧ 2 * r ≤ 2 ^ d ∧ (2 * r = 2 ^ d → q % 2 = 0))
      ∨ (m = q + 1 ∧ 2 ^ d ≤ 2 * r ∧ (2 * r = 2 ^ d → q % 2 = 1)))
    (hr : r < 2 ^ d) (hq : q < 2 ^ 53) (hq52 : k < d + 1074 → d ≠ 0 → 2 ^ 52 ≤ q)
    (hbl : bitLen n ≤ d + 53) (hd971 : bitLen n ≤ 1024 + k → d ≤ 971 + k)
    (hflag : ¬ (1024 + k < bitLen m + d)) :
    n + 2 ^ (970 + k) < 2 ^ (1024 + k) := by
  by_contra hc
  have hc : 2 ^ (1024 + k) ≤ n + 2 ^ (970 + k) := Nat.le_of_not_lt hc
  have key : m ≠ 0 ∧ 2 ^ (1024 + k) ≤ m * 2 ^ d := by
    rcases Nat.lt_or_ge n (2 ^ (1024 + k)) with hlt | hge
    · have hb1 : bitLen n ≤ 1024 + k := bitLen_le_of_lt n _ hlt
      have hd1 : d ≤ 971 + k := hd971 hb1
      have h1 : 2 ^ (1024 + k) = 2 * 2 ^ (1023 + k) := by
        rw [show 1024 + k = (1023 + k) + 1 by omega, pow_succ]
        ring
      have h2 : 2 ^ (970 + k) ≤ 2 ^ (1023 + k) := Nat.pow_le_pow_right (by norm_num) (by omega)
      have h3 : 2 ^ (1023 + k) ≤ n := by omega
      have hb2 : 1023 + k < bitLen n := lt_bitLen_of_le n _ h3
      have hd2 : d = 971 + k := by omega
      have e1 : 2 ^ (1024 + k) = 2 ^ 53 * 2 ^ d := by
        rw [hd2, ← pow_add]
        congr 1
        omega
      have e2 : 2 * 2 ^ (970 + k) = 2 ^ d := by
        rw [hd2, show 971 + k = (970 + k) + 1 by omega, pow_succ]
        ring
      have hq1 : q = 2 ^ 53 - 1 := by
        by_contra hne
        have hq2 : q + 2 ≤ 2 ^ 53 := by omega
        have h4 : (q + 2) * 2 ^ d ≤ 2 ^ 53 * 2 ^ d := Nat.mul_le_mul_right _ hq2
        rw [Nat.add_mul] at h4
        rw [e1] at hc
        generalize 2 ^ 53 * 2 ^ d = T at *
        generalize 2 ^ (970 + k) = U at *
        generalize q * 2 ^ d = A at *
        generalize 2 ^ d = X at *
        omega
      have hq3 : (q + 1) * 2 ^ d = 2 ^ 53 * 2 ^ d := by
        rw [hq1]
        norm_num
      have hr2 : 2 ^ d ≤ 2 * r := by
        rw [e1, ← hq3, Nat.add_mul, Nat.one_mul] at hc
        generalize 2 ^ (970 + k) = U at *
        generalize q * 2 ^ d = A at *
        generalize 2 ^ d = X at *
        omega
      have hm1 : m = q + 1 := by
        rcases hm with ⟨_, h5, h6⟩ | ⟨h5, _, _⟩
        · have h7 : 2 * r = 2 ^ d := le_antisymm h5 hr2
          have h8 := h6 h7
          rw [hq1] at h8
          norm_num at h8
        · exact h5
      constructor
      · omega
      · rw [hm1, hq3, e1]
    · have hb : 1024 + k < bitLen n := lt_bitLen_of_le n _ hge
      have hq2 : 2 ^ 52 ≤ q := hq52 (by omega) (by omega)
      have hmq : q ≤ m := by
        rcases hm with ⟨h5, _, _⟩ | ⟨h5, _, _⟩ <;> omega
      have h1 : 2 ^ 52 * 2 ^ d ≤ m * 2 ^ d := Nat.mul_le_mul_right _ (le_trans hq2 hmq)
      have h2 : 2 ^ (1024 + k) ≤ 2 ^ (52 + d) := Nat.pow_le_pow_right (by norm_num) (by omega)
      constructor
      · omega
      · exact le_trans (h2.trans_eq (pow_add 2 _ _)) h1
  exact hflag ((flag_iff m d k key.1).2 key.2)

theorem strip_value (k : Nat) : ∀ n : Nat,
    ((Double.strip n k).1 : ℚ) / 2 ^ (Double.strip n k).2 = (n : ℚ) / 2 ^ k := by
  induction k with
  | zero => intro n; simp [Double.strip]
  | succ k ih =>
    intro n
    unfold Double.strip
    by_cases h : n % 2 = 0
    · simp only [h, if_true]
      rw [ih (n / 2)]
      have h2 : n = 2 * (n / 2) := by omega
      have h3 : (n : ℚ) = 2 * ((n / 2 : Nat) : ℚ) := by
        conv_lhs => rw [h2]
        push_cast
        ring
      rw [h3, pow_succ]
      field_simp
      ring
    · simp only [h, if_false]

theorem signed_cast (neg : Bool) (n : Nat) :
    ((Double.signed neg n : Int) : ℚ) = (if neg then -1 else 1) * (n : ℚ) := by
  cases neg <;> simp [Double.signed]

theorem double_value_scaled (w : ℚ) (hw : is_double_value w) (k d : Nat) :
    (∃ t : Nat, |w| * 2 ^ k = (t : ℚ) * 2 ^ d)
    ∨ (|w| * 2 ^ k < 2 ^ (52 + d) ∧ k < d + 1074) := by
  obtain ⟨p, E, hp, hE1, hE2, hv⟩ := hw
  rw [hv]
  have h2 : (2 : ℚ) ≠ 0 := by norm_num
  by_cases hc : (d : Int) ≤ E + k
  · left
    refine ⟨p * 2 ^ (E + k - d).toNat, ?_⟩
    have hj : ((E + k - d).toNat : Int) = E + k - d := Int.toNat_of_nonneg (by omega)
    have e1 : (2 : ℚ) ^ E * (2 : ℚ) ^ (k : Int)
        = (2 : ℚ) ^ (((E + k - d).toNat : Int)) * (2 : ℚ) ^ (d : Int) := by
      rw [← zpow_add₀ h2, ← zpow_add₀ h2]
      congr 1
      omega
    rw [zpow_natCast, zpow_natCast, zpow_natCast] at e1
    push_cast
    rw [mul_assoc, e1, mul_assoc]
  · right
    have hc' : E + k ≤ (d : Int) - 1 := by omega
    constructor
    · have e1 : (2 : ℚ) ^ E * (2 : ℚ) ^ k = (2 : ℚ) ^ (E + k) := by
        rw [zpow_add₀ h2, zpow_natCast]
      have e2 : (2 : ℚ) ^ (E + k) ≤ (2 : ℚ) ^ ((d : Int) - 1) :=
        zpow_le_zpow_right₀ (by norm_num) hc'
      have e3 : (2 : ℚ) ^ (52 + d) = 2 ^ 53 * (2 : ℚ) ^ ((d : Int) - 1) := by
        rw [zpow_sub₀ h2, zpow_natCast, pow_add]
        norm_num
        ring
      have e4 : (0 : ℚ) < (2 : ℚ) ^ (E + k) := zpow_pos (by norm_num) _
      have hp' : (p : ℚ) < 2 ^ 53 := by exact_mod_cast hp
      rw [mul_assoc, e1, e3]
      calc (p : ℚ) * 2 ^ (E + k) < 2 ^ 53 * 2 ^ (E + k) := by
            exact mul_lt_mul_of_pos_right hp' e4
        _ ≤ 2 ^ 53 * (2 : ℚ) ^ ((d : Int) - 1) := by
            exact mul_le_mul_of_nonneg_left e2 (by positivity)
    · omega

/-- No scaled `double` value is nearer to `n` than the rounded multiple of `2^d`. -/
theorem round_nearest_scaled (d q r m n k : Nat) (hn : n = q * 2 ^ d + r)
    (hm : (m = q ∧ 2 * r ≤ 2 ^ d ∧ (2 * r = 2 ^ d → q % 2 = 0))
      ∨ (m = q + 1 ∧ 2 ^ d ≤ 2 * r ∧ (2 * r = 2 ^ d → q % 2 = 1)))
    (hr : r < 2 ^ d) (hq52 : k < d + 1074 → d ≠ 0 → 2 ^ 52 ≤ q) (a : ℚ)
    (ha : (∃ t : Nat, a = (t : ℚ) * 2 ^ d) ∨ (a < 2 ^ (52 + d) ∧ k < d + 1074)) :
    |(m : ℚ) * 2 ^ d - n| ≤ |a - n| := by
  rcases ha with ⟨t, rfl⟩ | ⟨ha1, ha2⟩
  · have h := round_parts_nearest d q r m n t hn hm hr
    have h' : ((|((m * 2 ^ d : Nat) : Int) - n| : Int) : ℚ)
        ≤ ((|((t * 2 ^ d : Nat) : Int) - n| : Int) : ℚ) := by exact_mod_cast h
    push_cast at h'
    exact h'
  · have hnq : (n : ℚ) = (q : ℚ) * 2 ^ d + r := by
      rw [hn]
      push_cast
      ring
    have hrq : (r : ℚ) < 2 ^ d := by exact_mod_cast hr
    have hr0 : (0 : ℚ) ≤ r := Nat.cast_nonneg r
    by_cases hd : d = 0
    · subst hd
      have hr1 : r = 0 := by
        simp only [pow_zero] at hr
        omega
      have hmq : m = q := by
        rcases hm with ⟨h1, _, _⟩ | ⟨_, h1, _⟩
        · exact h1
        · simp only [pow_zero] at h1
          omega
      rw [hnq, hmq, hr1]
      simp
    · have hq2 : (2 : ℚ) ^ 52 ≤ q := by exact_mod_cast hq52 ha2 hd
      have hX : (0 : ℚ) < 2 ^ d := by positivity
      have h1 : (2 : ℚ) ^ (52 + d) ≤ (q : ℚ) * 2 ^ d := by
        rw [pow_add]
        exact mul_le_mul_of_nonneg_right hq2 (le_of_lt hX)
      have h2 : |a - n| = n - a := by
        rw [abs_of_nonpos (by linarith)]
        ring
      rw [h2]
      rcases hm with ⟨h3, h4, _⟩ | ⟨h3, h4, _⟩
      · have h4' : (2 : ℚ) * r ≤ 2 ^ d := by exact_mod_cast h4
        rw [h3, hnq, abs_le]
        constructor <;> linarith
      · have h4' : (2 : ℚ) ^ d ≤ 2 * r := by exact_mod_cast h4
        rw [h3, hnq, abs_le]
        push_cast
        constructor <;> linarith

/-- When a scaled `double` value is the mirror image `2n - m*2^d` of the rounded
multiple, the remainder is exactly half of `2^d` and the rounded quotient is even. -/
theorem round_tie_scaled (d q r m n k : Nat) (hn : n = q * 2 ^ d + r)
    (hm : (m = q ∧ 2 * r ≤ 2 ^ d ∧ (2 * r = 2 ^ d → q % 2 = 0))
      ∨ (m = q + 1 ∧ 2 ^ d ≤ 2 * r ∧ (2 * r = 2 ^ d → q % 2 = 1)))
    (hr : r < 2 ^ d) (hq52 : k < d + 1074 → d ≠ 0 → 2 ^ 52 ≤ q)
    (hne : n ≠ m * 2 ^ d)
    (ha : (∃ t : Nat, |2 * (n : ℚ) - (m : ℚ) * 2 ^ d| = (t : ℚ) * 2 ^ d)
      ∨ (|2 * (n : ℚ) - (m : ℚ) * 2 ^ d| < 2 ^ (52 + d) ∧ k < d + 1074)) :
    2 * r = 2 ^ d ∧ m % 2 = 0 := by
  have hr0 : r ≠ 0 := by
    intro h0
    subst h0
    rcases hm with ⟨h1, _, _⟩ | ⟨_, h1, _⟩
    · apply hne
      rw [hn, h1]
      simp
    · have : 0 < 2 ^ d := Nat.two_pow_pos d
      omega
  have hnq : (n : ℚ) = (q : ℚ) * 2 ^ d + r := by
    rw [hn]
    push_cast
    ring
  have htie : 2 * r = 2 ^ d := by
    rcases ha with ⟨t, ht⟩ | ⟨ha1, ha2⟩
    · have hz : (2 * (n : Int) - (m : Int) * 2 ^ d = (t : Int) * 2 ^ d)
          ∨ (2 * (n : Int) - (m : Int) * 2 ^ d = -((t : Int) * 2 ^ d)) := by
        rcases abs_eq (by positivity) |>.1 ht with h | h
        · left
          exact_mod_cast h
        · right
          exact_mod_cast h
      have hc : ∃ c : Int, 2 * (r : Int) = c * 2 ^ d := by
        have hnz : (n : Int) = (q : Int) * 2 ^ d + r := by
          rw [hn]
          push_cast
          ring
        rcases hz with h | h
        · exact ⟨(t : Int) + m - 2 * q, by rw [hnz] at h; linarith⟩
        · exact ⟨-(t : Int) + m - 2 * q, by rw [hnz] at h; linarith⟩
      obtain ⟨c, hc⟩ := hc
      have hX : (0 : Int) < 2 ^ d := by positivity
      have hrz : (r : Int) < 2 ^ d := by exact_mod_cast hr
      have hr1 : (0 : Int) < r := by
        have : 0 < r := Nat.pos_of_ne_zero hr0
        exact_mod_cast this
      have hc0 : 0 < c := by
        by_contra hcon
        have : c ≤ 0 := by omega
        nlinarith
      have hc2 : c < 2 := by
        by_contra hcon
        have : 2 ≤ c := by omega
        nlinarith
      have hc1 : c = 1 := by omega
      rw [hc1, one_mul] at hc
      exact_mod_cast hc
    · exfalso
      by_cases hd : d = 0
      · subst hd
        simp only [pow_zero] at hr
        omega
      · have hq2 : (2 : ℚ) ^ 52 ≤ q := by exact_mod_cast hq52 ha2 hd
        have hX : (0 : ℚ) < 2 ^ d := by positivity
        have h1 : (2 : ℚ) ^ (52 + d) ≤ (q : ℚ) * 2 ^ d := by
          rw [pow_add]
          exact mul_le_mul_of_nonneg_right hq2 (le_of_lt hX)
        have hrq : (0 : ℚ) ≤ r := Nat.cast_nonneg r
        have h2 := le_abs_self (2 * (n : ℚ) - (m : ℚ) * 2 ^ d)
        rcases hm with ⟨h3, _, _⟩ | ⟨h3, h4, _⟩
        · rw [h3, hnq] at h2 ha1
          linarith
        · have h4' : (2 : ℚ) ^ d ≤ 2 * r := by exact_mod_cast h4
          rw [h3, hnq] at h2 ha1
          push_cast at h2 ha1
          linarith
  refine ⟨htie, ?_⟩
  rcases hm with ⟨h1, _, h2⟩ | ⟨h1, _, h2⟩
  · rw [h1]
    exact h2 htie
  · have := h2 htie
    omega

/-- The function `Double.round` rounds the exact value `(-1)^neg * n / 2^k` as IEEE 754
prescribes. -/
theorem round_rounds_to (neg : Bool) (n k : Nat) :
    rounds_to ((Double.signed neg n : ℚ) / 2 ^ k) (Double.round neg n k) := by
  obtain ⟨d, q, r, m, hn, hr, hm, hq, hk, hq52, hbl, hd971, hround⟩ := round_parts neg n k
  rw [hround]
  have hP : (0 : ℚ) < 2 ^ k := by positivity
  have hX : (0 : ℚ) < 2 ^ d := by positivity
  have hmq : m = q ∨ m = q + 1 := by
    rcases hm with ⟨h, _, _⟩ | ⟨h, _, _⟩
    · exact Or.inl h
    · exact Or.inr h
  obtain ⟨σ, hσ, hσabs, hσneg⟩ : ∃ σ : ℚ, (∀ a : Nat, ((Double.signed neg a : Int) : ℚ)
      = σ * a) ∧ |σ| = 1 ∧ ((neg = true → σ = -1) ∧ (neg = false → σ = 1)) := by
    refine ⟨if neg then -1 else 1, fun a => signed_cast neg a, ?_, ?_, ?_⟩
    · cases neg <;> simp
    · intro h; simp [h]
    · intro h; simp [h]
  have hx : ((Double.signed neg n : Int) : ℚ) / 2 ^ k = σ * ((n : ℚ) / 2 ^ k) := by
    rw [hσ]
    ring
  have hxabs : |σ * ((n : ℚ) / 2 ^ k)| = (n : ℚ) / 2 ^ k := by
    rw [abs_mul, hσabs, one_mul, abs_of_nonneg (by positivity)]
  rw [hx]
  by_cases hflag : 1024 + k < bitLen m + d
  · rw [if_pos hflag]
    have hm0 := round_flag_ne_zero d q m k hmq hq52 hflag
    have hge := (flag_iff m d k hm0).1 hflag
    have hb := round_overflow_bound d q r m n k hn hm hr hd971 hge
    have hb' : (2 : ℚ) ^ (1024 + k) ≤ (n : ℚ) + 2 ^ (970 + k) := by exact_mod_cast hb
    rw [pow_add, pow_add] at hb'
    have hn0 : (0 : ℚ) < n := by
      have : (2 : ℚ) ^ 970 < 2 ^ 1024 := by norm_num
      nlinarith
    have hnP : (0 : ℚ) < (n : ℚ) / 2 ^ k := div_pos hn0 hP
    simp only [rounds_to]
    refine ⟨?_, ?_, ?_⟩
    · rw [hxabs, le_div_iff₀ hP]
      linarith
    · intro h
      rw [hσneg.1 h]
      linarith
    · intro h
      rw [hσneg.2 h]
      linarith
  · rw [if_neg hflag]
    have hv : ((Double.signed neg (Double.strip (m * 2 ^ d) k).1 : Int) : ℚ)
        / 2 ^ (Double.strip (m * 2 ^ d) k).2 = σ * ((m : ℚ) * 2 ^ d / 2 ^ k) := by
      rw [hσ, mul_div_assoc, strip_value]
      push_cast
      ring
    simp only [rounds_to]
    rw [hv]
    have hvabs : |σ * ((m : ℚ) * 2 ^ d / 2 ^ k)| = (m : ℚ) * 2 ^ d / 2 ^ k := by
      rw [abs_mul, hσabs, one_mul, abs_of_nonneg (by positivity)]
    have hnq : (n : ℚ) = (q : ℚ) * 2 ^ d + r := by
      rw [hn]
      push_cast
      ring
    refine ⟨?_, ?_, ?_, ?_, ?_, ?_⟩
    · -- the result is a double value
      have h2 : (2 : ℚ) ≠ 0 := by norm_num
      by_cases hm0 : m = 0
      · refine ⟨0, 0, by norm_num, by norm_num, by norm_num, ?_⟩
        rw [hvabs, hm0]
        simp
      · have hlt : m * 2 ^ d < 2 ^ (1024 + k) := by
          by_contra hc
          exact hflag ((flag_iff m d k hm0).2 (Nat.le_of_not_lt hc))
        by_cases hm53 : m = 2 ^ 53
        · have h3 : 2 ^ (53 + d) < 2 ^ (1024 + k) := by
            rw [pow_add, ← hm53]
            exact hlt
          have h4 : 53 + d < 1024 + k := (Nat.pow_lt_pow_iff_right (by norm_num)).1 h3
          refine ⟨2 ^ 52, (d : Int) + 1 - k, by norm_num, by omega, by omega, ?_⟩
          rw [hvabs, hm53, zpow_sub₀ h2, zpow_add₀ h2, zpow_natCast, zpow_natCast]
          push_cast
          field_simp
          ring
        · have hm1 : m < 2 ^ 53 := by omega
          have hd1 : d ≤ 971 + k := by
            by_contra hc
            have hq2 : 2 ^ 52 ≤ q := hq52 (by omega) (by omega)
            have hqm : q ≤ m := by omega
            have h3 : 2 ^ 52 * 2 ^ d ≤ m * 2 ^ d :=
              Nat.mul_le_mul_right _ (le_trans hq2 hqm)
            have h4 : 2 ^ (1024 + k) ≤ 2 ^ (52 + d) :=
              Nat.pow_le_pow_right (by norm_num) (by omega)
            have h5 := le_trans (h4.trans_eq (pow_add 2 _ _)) h3
            exact absurd hlt (Nat.not_lt.2 h5)
          refine ⟨m, (d : Int) - k, hm1, by omega, by omega, ?_⟩
          rw [hvabs, zpow_sub₀ h2, zpow_natCast, zpow_natCast]
          ring
    · -- below the overflow threshold
      have hb := round_finite_bound d q r m n k hn hm hr hq hq52 hbl hd971 hflag
      have hb' : (n : ℚ) + 2 ^ (970 + k) < (2 : ℚ) ^ (1024 + k) := by exact_mod_cast hb
      rw [pow_add, pow_add] at hb'
      rw [hxabs, div_lt_iff₀ hP]
      linarith
    · intro h
      rw [hσneg.1 h]
      have : (0 : ℚ) ≤ (n : ℚ) / 2 ^ k := by positivity
      linarith
    · intro h
      rw [hσneg.2 h]
      have : (0 : ℚ) ≤ (n : ℚ) / 2 ^ k := by positivity
      linarith
    · -- nearest
      intro w hw
      have h1 : |σ * ((m : ℚ) * 2 ^ d / 2 ^ k) - σ * ((n : ℚ) / 2 ^ k)|
          = |(m : ℚ) * 2 ^ d - n| / 2 ^ k := by
        rw [← mul_sub, abs_mul, hσabs, one_mul, ← sub_div, abs_div, abs_of_pos hP]
      have h2 : abs (|w| * 2 ^ k - n) / 2 ^ k ≤ |w - σ * ((n : ℚ) / 2 ^ k)| := by
        have h3 := abs_abs_sub_abs_le_abs_sub w (σ * ((n : ℚ) / 2 ^ k))
        rw [hxabs] at h3
        have h4 : |w| - (n : ℚ) / 2 ^ k = (|w| * 2 ^ k - n) / 2 ^ k := by
          field_simp
        rw [h4, abs_div, abs_of_pos hP] at h3
        exact h3
      have h5 := round_nearest_scaled d q r m n k hn hm hr hq52 (|w| * 2 ^ k)
        (double_value_scaled w hw k d)
      rw [h1]
      exact le_trans (div_le_div_of_nonneg_right h5 (le_of_lt hP)) h2
    · -- ties go to the even neighbour
      intro w hw hne heq
      have hw2 : w = 2 * (σ * ((n : ℚ) / 2 ^ k)) - σ * ((m : ℚ) * 2 ^ d / 2 ^ k) := by
        rcases abs_eq_abs.1 heq with h | h
        · exfalso
          apply hne
          linarith
        · linarith
      have hwabs : |w| * 2 ^ k = |2 * (n : ℚ) - (m : ℚ) * 2 ^ d| := by
        have h1 : w = σ * ((2 * (n : ℚ) - (m : ℚ) * 2 ^ d) / 2 ^ k) := by
          rw [hw2]
          ring
        rw [h1, abs_mul, hσabs, one_mul, abs_div, abs_of_pos hP]
        field_simp
      have hnm : n ≠ m * 2 ^ d := by
        intro h
        apply hne
        rw [hw2]
        have : (n : ℚ) = (m : ℚ) * 2 ^ d := by exact_mod_cast h
        rw [this]
        ring
      have hsc := double_value_scaled w hw k d
      rw [hwabs] at hsc
      obtain ⟨htie, heven⟩ := round_tie_scaled d q r m n k hn hm hr hq52 hnm hsc
      have htie' : (r : ℚ) = 2 ^ d / 2 := by
        have : (2 : ℚ) * r = 2 ^ d := by exact_mod_cast htie
        linarith
      obtain ⟨c, hc⟩ : ∃ c : Nat, m = 2 * c := ⟨m / 2, by omega⟩
      have hc' : (m : ℚ) = 2 * c := by exact_mod_cast hc
      rcases hmq with h | h
      · refine ⟨(c : Int), ?_⟩
        have hq' : (q : ℚ) = 2 * c := by rw [← h]; exact hc'
        rw [hw2, hnq, hc', hq', htie']
        push_cast
        field_simp
        ring
      · refine ⟨-(c : Int), ?_⟩
        have hq' : (q : ℚ) = 2 * c - 1 := by
          have : (m : ℚ) = q + 1 := by exact_mod_cast h
          linarith
        rw [hw2, hnq, hc', hq', htie']
        push_cast
        field_simp
        ring

theorem rounds_to_zero (b : Bool) : rounds_to 0 (Double.finite b 0 0) := by
  simp only [rounds_to, Double.signed]
  have h0 : ((if b = true then -((0 : Nat) : Int) else ((0 : Nat) : Int) : Int) : ℚ) / 2 ^ 0
      = 0 := by
    cases b <;> simp
  rw [h0]
  refine ⟨⟨0, 0, by norm_num, by norm_num, by norm_num, by simp⟩, by norm_num,
    fun _ => le_refl _, fun _ => le_refl _, ?_, ?_⟩
  · intro w _
    simp
  · intro w _ hne heq
    exfalso
    apply hne
    simpa using heq

theorem signed_mul_pow (s : Bool) (n a : Nat) :
    Double.signed s (n * 2 ^ a) = Double.signed s n * 2 ^ a := by
  cases s <;> simp [Double.signed]

theorem signed_natAbs_cast (c : Int) :
    ((Double.signed (decide (c < 0)) c.natAbs : Int) : ℚ) = (c : ℚ) := by
  have : Double.signed (decide (c < 0)) c.natAbs = c := by
    unfold Double.signed
    by_cases h : c < 0
    · simp only [h, decide_True, if_true]; omega
    · simp only [h, decide_False]; simp only [Bool.false_eq_true, if_false]; omega
  rw [this]

/-- The sum of two finite doubles is their exact sum, rounded. -/
theorem add_rounds_to (s t : Bool) (n m k j : Nat) :
    rounds_to ((Double.signed s n : ℚ) / 2 ^ k + (Double.signed t m : ℚ) / 2 ^ j)
      (Double.add (Double.finite s n k) (Double.finite t m j)) := by
  have hsum : ((Double.signed s n : Int) : ℚ) / 2 ^ k + (Double.signed t m : ℚ) / 2 ^ j
      = ((Double.signed s (n * 2 ^ (max k j - k))
          + Double.signed t (m * 2 ^ (max k j - j)) : Int) : ℚ) / 2 ^ (max k j) := by
    rw [signed_mul_pow, signed_mul_pow]
    have h1 : (2 : ℚ) ^ (max k j) = 2 ^ k * 2 ^ (max k j - k) := by
      rw [← pow_add]
      congr 1
      omega
    have h2 : (2 : ℚ) ^ (max k j) = 2 ^ j * 2 ^ (max k j - j) := by
      rw [← pow_add]
      congr 1
      omega
    push_cast
    rw [add_div]
    congr 1
    · rw [h1]
      field_simp
      ring
    · rw [h2]
      field_simp
      ring
  rw [hsum]
  simp only [Double.add]
  by_cases hc : Double.signed s (n * 2 ^ (max k j - k))
      + Double.signed t (m * 2 ^ (max k j - j)) = 0
  · rw [if_pos hc, hc]
    simp only [Int.cast_zero, zero_div]
    exact rounds_to_zero _
  · rw [if_neg hc]
    have := round_rounds_to
      (decide (Double.signed s (n * 2 ^ (max k j - k))
        + Double.signed t (m * 2 ^ (max k j - j)) < 0))
      (Double.signed s (n * 2 ^ (max k j - k))
        + Double.signed t (m * 2 ^ (max k j - j))).natAbs (max k j)
    rw [signed_natAbs_cast] at this
    exact this

/-- The difference of two finite doubles is their exact difference, rounded. -/
theorem sub_rounds_to (s t : Bool) (n m k j : Nat) :
    rounds_to ((Double.signed s n : ℚ) / 2 ^ k - (Double.signed t m : ℚ) / 2 ^ j)
      (Double.sub (Double.finite s n k) (Double.finite t m j)) := by
  have h := add_rounds_to s (!t) n m k j
  have e : ((Double.signed (!t) m : Int) : ℚ) = -((Double.signed t m : Int) : ℚ) := by
    cases t <;> simp [Double.signed]
  rw [e, neg_div, ← sub_eq_add_neg] at h
  exact h

/-- The product of two finite doubles is their exact product, rounded. -/
theorem mul_rounds_to (s t : Bool) (n m k j : Nat) :
    rounds_to (((Double.signed s n : ℚ) / 2 ^ k) * ((Double.signed t m : ℚ) / 2 ^ j))
      (Double.mul (Double.finite s n k) (Double.finite t m j)) := by
  have h := round_rounds_to (xor s t) (n * m) (k + j)
  have e : ((Double.signed (xor s t) (n * m) : Int) : ℚ) / 2 ^ (k + j)
      = ((Double.signed s n : ℚ) / 2 ^ k) * ((Double.signed t m : ℚ) / 2 ^ j) := by
    rw [pow_add]
    cases s <;> cases t <;> simp [Double.signed] <;> field_simp
  rw [e] at h
  exact h

/-- A rounded value that is itself a `double` value is exact. -/
theorem rounds_to_exact (x : ℚ) (r : Double) (h : rounds_to x r) (hx : is_double_value x) :
    r.toRat = some x := by
  cases r with
  | nan => simp [rounds_to] at h
  | inf neg =>
    exfalso
    simp only [rounds_to] at h
    obtain ⟨p, E, hp, _, hE, hv⟩ := hx
    have h1 : (p : ℚ) ≤ 2 ^ 53 - 1 := by
      have : p + 1 ≤ 2 ^ 53 := hp
      have : ((p + 1 : Nat) : ℚ) ≤ ((2 ^ 53 : Nat) : ℚ) := by exact_mod_cast this
      push_cast at this
      linarith
    have h2 : (2 : ℚ) ^ E ≤ (2 : ℚ) ^ (971 : Int) := zpow_le_zpow_right₀ (by norm_num) hE
    have h3 : (0 : ℚ) < (2 : ℚ) ^ E := zpow_pos (by norm_num) _
    have h4 : (2 : ℚ) ^ (971 : Int) = 2 ^ 971 := by
      rw [show (971 : Int) = ((971 : Nat) : Int) by norm_num, zpow_natCast]
    rw [h4] at h2
    have h5 : (p : ℚ) * 2 ^ E ≤ (2 ^ 53 - 1) * 2 ^ 971 := by
      calc (p : ℚ) * 2 ^ E ≤ (2 ^ 53 - 1) * 2 ^ E :=
            mul_le_mul_of_nonneg_right h1 (le_of_lt h3)
        _ ≤ (2 ^ 53 - 1) * 2 ^ 971 := mul_le_mul_of_nonneg_left h2 (by norm_num)
    have h6 : ((2 : ℚ) ^ 53 - 1) * 2 ^ 971 < 2 ^ 1024 - 2 ^ 970 := by norm_num
    rw [hv] at h
    linarith [h.1]
  | finite neg n k =>
    simp only [rounds_to] at h
    obtain ⟨_, _, _, _, hnear, _⟩ := h
    have h1 := hnear x hx
    simp only [sub_self, abs_zero] at h1
    have h2 : ((Double.signed neg n : Int) : ℚ) / 2 ^ k - x = 0 :=
      abs_eq_zero.1 (le_antisymm h1 (abs_nonneg _))
    simp only [Double.toRat]
    congr 1
    linarith

/-- C26: for every pair of real literals, folding the real-typed node of add, sub or mult
gives one real literal, at the position of the operator, that holds the `double` sum,
difference or product of the two values.  For finite operand values `a` and `b` that
is the exact sum `a + b`, difference `a - b` or product `a * b` rounded as IEEE 754
prescribes (to the nearest `double` value, ties to even, infinity from the overflow
threshold on), and so the exact result itself whenever that is a `double` value;
`fold(mult(real 2.5, real 4.0))` is `real 10.0`. -/
theorem fold_real_arith (sym_tab : symbol_table) (pos lpos rpos : position_information)
    (ltype rtype : sym_index) (x y : Double) :
    fold_constants sym_tab (.ast_binaryoperation .AST_ADD pos real_type
        (.ast_real lpos ltype x) (.ast_real rpos rtype y))
      = some (.ast_real pos real_type (Double.add x y))
    ∧ fold_constants sym_tab (.ast_binaryoperation .AST_SUB pos real_type
        (.ast_real lpos ltype x) (.ast_real rpos rtype y))
      = some (.ast_real pos real_type (Double.sub x y))
    ∧ fold_constants sym_tab (.ast_binaryoperation .AST_MULT pos real_type
        (.ast_real lpos ltype x) (.ast_real rpos rtype y))
      = some (.ast_real pos real_type (Double.mul x y))
    ∧ (∀ a b : ℚ, x.toRat = some a → y.toRat = some b →
      rounds_to (a + b) (Double.add x y)
      ∧ rounds_to (a - b) (Double.sub x y)
      ∧ rounds_to (a * b) (Double.mul x y)
      ∧ (is_double_value (a + b) → (Double.add x y).toRat = some (a + b))
      ∧ (is_double_value (a - b) → (Double.sub x y).toRat = some (a - b))
      ∧ (is_double_value (a * b) → (Double.mul x y).toRat = some (a * b)))
    ∧ Double.mul (Double.finite false 5 1) (Double.finite false 4 0)
      = Double.finite false 10 0
    ∧ fold_constants sym_tab (.ast_binaryoperation .AST_MULT pos real_type
        (.ast_real lpos ltype (Double.finite false 5 1))
        (.ast_real rpos rtype (Double.finite false 4 0)))
      = some (.ast_real pos real_type (Double.finite false 10 0)) := by
  have h : Double.mul (Double.finite false 5 1) (Double.finite false 4 0)
      = Double.finite false 10 0 := by decide
  refine ⟨?_, ?_, ?_, ?_, h, ?_⟩
  · rw [fold_constants_real_literals]; rfl
  · rw [fold_constants_real_literals]; rfl
  · rw [fold_constants_real_literals]; rfl
  · intro a b ha hb
    cases x with
    | nan => simp [Double.toRat] at ha
    | inf _ => simp [Double.toRat] at ha
    | finite s n k =>
      cases y with
      | nan => simp [Double.toRat] at hb
      | inf _ => simp [Double.toRat] at hb
      | finite t m j =>
        simp only [Double.toRat, Option.some.injEq] at ha hb
        subst ha hb
        have h1 := add_rounds_to s t n m k j
        have h2 := sub_rounds_to s t n m k j
        have h3 := mul_rounds_to s t n m k j
        exact ⟨h1, h2, h3, rounds_to_exact _ _ h1, rounds_to_exact _ _ h2,
          rounds_to_exact _ _ h3⟩
  · rw [fold_constants_real_literals]
    simp [fold_function, fold_mult, h]

/-- C26 for the literals `2.5` and `4.0`, whose values are `5/2` and `4`: the sum, the
difference and the product are `double` values, so the folded literals hold `13/2`,
`-3/2` and `10` exactly. -/
theorem fold_real_arith_witness :
    (Double.finite false 5 1).toRat = some (5 / 2)
    ∧ (Double.finite false 4 0).toRat = some 4
    ∧ is_double_value (5 / 2 + 4) ∧ is_double_value (5 / 2 - 4) ∧ is_double_value (5 / 2 * 4)
    ∧ (Double.add (Double.finite false 5 1) (Double.finite false 4 0)).toRat
      = some (5 / 2 + 4)
    ∧ (Double.sub (Double.finite false 5 1) (Double.finite false 4 0)).toRat
      = some (5 / 2 - 4)
    ∧ (Double.mul (Double.finite false 5 1) (Double.finite false 4 0)).toRat
      = some (5 / 2 * 4) := by
  have hx : (Double.finite false 5 1).toRat = some (5 / 2) := by
    norm_num [Double.toRat, Double.signed]
  have hy : (Double.finite false 4 0).toRat = some 4 := by
    norm_num [Double.toRat, Double.signed]
  have h1 : is_double_value (5 / 2 + 4) :=
    ⟨13, -1, by norm_num, by norm_num, by norm_num, by norm_num⟩
  have h2 : is_double_value (5 / 2 - 4) :=
    ⟨3, -1, by norm_num, by norm_num, by norm_num, by norm_num [abs_of_neg]⟩
  have h3 : is_double_value (5 / 2 * 4) :=
    ⟨10, 0, by norm_num, by norm_num, by norm_num, by norm_num⟩
  have h := (fold_real_arith sample_sym_tab pos0 pos1 pos2 real_type real_type
    (Double.finite false 5 1) (Double.finite false 4 0)).2.2.2.1 (5 / 2) 4 hx hy
  exact ⟨hx, hy, h1, h2, h3, h.2.2.2.1 h1, h.2.2.2.2.1 h2, h.2.2.2.2.2 h3⟩

end TDDB44
